import Mathlib

/-!
# Kubevirt install-config validation

A shallow embedding of

* `pkg/types/kubevirt/platform.go`            (the `Platform` struct),
* `pkg/types/kubevirt/validation/platform.go` (`ValidatePlatform`),
* `pkg/asset/installconfig/kubevirt/validation.go` (`Validate` and its helpers),

together with the small parts of the Go standard library (`net`) and of
`k8s.io/apimachinery/.../field` that these functions call.

Conventions of the embedding.

* A Go `error` result is an `Option`: `none` is `nil`, `some msg` is an error
  whose `Error()` text is `msg`.
* Calls made on the infra-cluster client are recorded in a call log
  (`List Call`) that every function returns next to its Go result.
* Library functions whose exact text output is intricate (`net.ParseIP`,
  `strconv.Quote`, the `%s` rendering of a slice of structs) are fields of a
  `Lib` value on which the definitions are parametric.

The later sections embed, with the same conventions,

* `pkg/asset/ignition/bootstrap/bootstrap.go` and `pkg/asset/ignition/aio/aio.go`
  (the two ignition assets),
* `pkg/asset/installconfig/networking.go` (the networking asset),
* `pkg/destroy/kubevirt/destroyer.go` (the uninstaller),
* `pkg/asset/machines/machineconfig/infraserviceaccount.go`
  (the machine config of the infra service account),

and state the theorems after the definitions.
-/

set_option linter.dupNamespace false

/-! ## Go standard library: `net` -/

namespace net

/-- Go `net.IP`, a byte slice: 4 bytes (IPv4) or 16 bytes (IPv6 and
IPv4-mapped addresses). -/
abbrev IP := List Nat

/-- Go `net.IPMask`, a byte slice. -/
abbrev IPMask := List Nat

/-- Length in bytes of an IPv4 address. -/
def IPv4len : Nat := 4

/-- Length in bytes of an IPv6 address. -/
def IPv6len : Nat := 16

/-- The twelve leading bytes of an IPv4-mapped IPv6 address
(`v4InV6Prefix` in package `net`). -/
def v4InV6Lead : List Nat := [0, 0, 0, 0, 0, 0, 0, 0, 0, 0, 0xff, 0xff]

/-- Go `net.IPv4(a, b, c, d)`: the 16-byte form of the address `a.b.c.d`. -/
def IPv4 (a b c d : Nat) : IP := v4InV6Lead ++ [a, b, c, d]

/-- Go `IP.To4`: the 4-byte form of an IPv4 address, `none` (Go `nil`) when
the address is not an IPv4 address. -/
def IP.To4 (ip : IP) : Option IP :=
  if ip.length = IPv4len then some ip
  else if ip.length = IPv6len ∧ ip.take 12 = v4InV6Lead then some (ip.drop 12)
  else none

/-- Go `net.IPNet`: a network number and its mask. -/
structure IPNet where
  IP : net.IP
  Mask : IPMask
deriving DecidableEq, Repr

/-- Go `networkNumberAndMask`; the result `(nil, nil)` is `([], [])`. -/
def networkNumberAndMask (n : IPNet) : IP × IPMask :=
  let ip? : Option IP :=
    match IP.To4 n.IP with
    | some x => some x
    | none => if n.IP.length ≠ IPv6len then none else some n.IP
  match ip? with
  | none => ([], [])
  | some ip =>
    if n.Mask.length = IPv4len then (ip, n.Mask)
    else if n.Mask.length = IPv6len then
      if ip.length = IPv4len then (ip, n.Mask.drop 12) else (ip, n.Mask)
    else ([], [])

/-- Go `(*IPNet).Contains`: byte-wise comparison of the masked network number
with the masked address.  (A mask shorter than the network number, which no
parsed CIDR has, reads as zero bytes here.) -/
def IPNet.Contains (n : IPNet) (ip : net.IP) : Bool :=
  let nm := networkNumberAndMask n
  let nn := nm.1
  let m := nm.2
  let ip := match IP.To4 ip with
    | some x => x
    | none => ip
  if ip.length ≠ nn.length then false
  else (List.range ip.length).all fun i =>
    (nn.getD i 0 &&& m.getD i 0) == (ip.getD i 0 &&& m.getD i 0)

end net

/-! ## `pkg/types` -/

namespace types

/-- Go `types.MachineNetworkEntry`; `CIDR` is an `ipnet.IPNet`, which embeds
`net.IPNet`. -/
structure MachineNetworkEntry where
  CIDR : net.IPNet
deriving DecidableEq, Repr

namespace kubevirt

/-- Go `kubevirt.Platform` (`pkg/types/kubevirt/platform.go`).  The optional
`DefaultMachinePlatform` pointer is read by none of the functions below and is
left out. -/
structure Platform where
  Namespace : String
  StorageClass : String
  NetworkName : String
  APIVIP : String
  IngressVIP : String
  PersistentVolumeAccessMode : String
deriving DecidableEq, Repr

end kubevirt

/-- Go `types.Platform`, restricted to the kubevirt pointer (`none` is `nil`). -/
structure Platform where
  Kubevirt : Option kubevirt.Platform
deriving DecidableEq, Repr

/-- Go `types.ClusterNetworkEntry`, restricted to its CIDR. -/
structure ClusterNetworkEntry where
  CIDR : net.IPNet
deriving DecidableEq, Repr

/-- Go `types.MachinePool`, restricted to the replica count, a pointer to an
`int64` (`none` is `nil`). -/
structure MachinePool where
  Replicas : Option Int
deriving DecidableEq, Repr

/-- Go `types.ImageContentSource`. -/
structure ImageContentSource where
  Source : String
  Mirrors : List String
deriving DecidableEq, Repr

/-- Go `types.BootstrapInPlace`. -/
structure BootstrapInPlace where
  InstallationDisk : String
deriving DecidableEq, Repr

/-- Go `types.InstallConfig`, restricted to the fields that `Validate` and the
ignition assets read.  `MachineNetwork`, `ServiceNetwork` and `ClusterNetwork`
are promoted from the embedded `Networking`, taken to be present.
`ControlPlane` and `BootstrapInPlace` are pointers (`none` is `nil`). -/
structure InstallConfig where
  MachineNetwork : List MachineNetworkEntry
  Platform : Platform
  ServiceNetwork : List net.IPNet := []
  ClusterNetwork : List ClusterNetworkEntry := []
  ControlPlane : Option MachinePool := none
  Compute : List MachinePool := []
  SSHKey : String := ""
  PullSecret : String := ""
  AdditionalTrustBundle : String := ""
  FIPS : Bool := false
  ImageContentSources : List ImageContentSource := []
  BootstrapInPlace : Option BootstrapInPlace := none
deriving DecidableEq, Repr

end types

/-- Library functions called by the validation code whose bodies are outside
the repository. -/
structure Lib where
  /-- Go `net.ParseIP`; `none` is the `nil` result for text that is not an IP
  address. -/
  ParseIP : String → Option net.IP
  /-- Go `strconv.Quote`, the text the `%q` verb prints for a string. -/
  Quote : String → String
  /-- The text the `%s` verb prints for a `[]types.MachineNetworkEntry`. -/
  fmtMachineNetworkEntryList : List types.MachineNetworkEntry → String

/-! ## `k8s.io/apimachinery/pkg/util/validation/field` -/

namespace field

/-- Go `field.Path` built from names only: the list of names from the root. -/
abbrev Path := List String

/-- Go `field.NewPath(name, moreNames...)`. -/
def NewPath (name : String) (moreNames : List String) : Path := name :: moreNames

/-- Go `(*Path).Child(name)`. -/
def Path.Child (p : Path) (name : String) : Path := p ++ [name]

/-- Go `(*Path).String()`: the names joined by dots. -/
def Path.String (p : Path) : String := ".".intercalate p

/-- Go `field.ErrorType`, the two kinds built by the validation code. -/
inductive ErrorType
  | ErrorTypeRequired
  | ErrorTypeInvalid
deriving DecidableEq, Repr

/-- Go `ErrorType.String()`. -/
def ErrorType.String : ErrorType → String
  | .ErrorTypeRequired => "Required value"
  | .ErrorTypeInvalid => "Invalid value"

/-- Go `field.Error`; every bad value built by the validation code is a
string. -/
structure Error where
  /-- Go field `Type`. -/
  Type_ : ErrorType
  Field : String
  BadValue : String
  Detail : String
deriving DecidableEq, Repr

/-- Go `field.ErrorList`. -/
abbrev ErrorList := List Error

/-- Go `field.Invalid(path, value, detail)`. -/
def Invalid (path : Path) (value : String) (detail : String) : Error :=
  { Type_ := .ErrorTypeInvalid, Field := path.String, BadValue := value, Detail := detail }

/-- Go `field.Required(path, detail)`. -/
def Required (path : Path) (detail : String) : Error :=
  { Type_ := .ErrorTypeRequired, Field := path.String, BadValue := "", Detail := detail }

/-- Go `(*Error).ErrorBody()`. -/
def Error.ErrorBody (lib : Lib) (v : Error) : String :=
  let s := match v.Type_ with
    | .ErrorTypeRequired => v.Type_.String
    | .ErrorTypeInvalid => v.Type_.String ++ ": " ++ lib.Quote v.BadValue
  if v.Detail.length ≠ 0 then s ++ ": " ++ v.Detail else s

/-- Go `(*Error).Error()`. -/
def Error.Error (lib : Lib) (v : Error) : String :=
  v.Field ++ ": " ++ v.ErrorBody lib

/-- The loop of Go `ErrorList.ToAggregate`: keeps the first error of every
distinct message; `seen` is the set of messages met so far. -/
def toAggregateLoop (lib : Lib) : ErrorList → List String → List Error
  | [], _ => []
  | err :: rest, seen =>
    if err.Error lib ∈ seen then toAggregateLoop lib rest seen
    else err :: toAggregateLoop lib rest (err.Error lib :: seen)

/-- Go `ErrorList.ToAggregate()`: `none` (`nil`) when no error is left, else
the aggregate of the errors with duplicate messages dropped. -/
def ErrorList.ToAggregate (lib : Lib) (list : ErrorList) : Option (List Error) :=
  match toAggregateLoop lib list [] with
  | [] => none
  | errs => some errs

end field

/-- The two kinds of Go `error` value returned by `Validate`. -/
inductive GoError
  /-- An error made by `errors.New(text)`. -/
  | errorString (text : String)
  /-- An `utilerrors.Aggregate` holding the listed field errors. -/
  | aggregate (errs : List field.Error)
deriving DecidableEq, Repr

/-! ## `pkg/validate` and `pkg/types/kubevirt/validation` -/

namespace validate

/-- Modelled from the spec: `validate.IP` of `pkg/validate`, which is not among
the sources.  It returns nil when the text is an IP address and otherwise an
error reading `"<ip>" is not a valid IP`. -/
def IP (lib : Lib) (ip : String) : Option String :=
  match lib.ParseIP ip with
  | some _ => none
  | none => some ("\"" ++ ip ++ "\" is not a valid IP")

end validate

namespace types.kubevirt.validation

/-- Go `validation.ValidatePlatform`. -/
def ValidatePlatform (lib : Lib) (p : types.kubevirt.Platform) (fldPath : field.Path) :
    field.ErrorList :=
  let allErrs : field.ErrorList := []
  let allErrs :=
    if p.Namespace = "" then
      allErrs ++ [field.Invalid (fldPath.Child "Infra Cluster Namespace") p.Namespace
        "Infra Cluster Namespace can't be empty"]
    else allErrs
  let allErrs :=
    if p.NetworkName = "" then
      allErrs ++ [field.Invalid (fldPath.Child "NetworkName") p.NetworkName
        "NetworkName can't be empty"]
    else allErrs
  let allErrs :=
    match validate.IP lib p.APIVIP with
    | some err => allErrs ++ [field.Invalid (fldPath.Child "APIVIP") p.APIVIP err]
    | none => allErrs
  let allErrs :=
    match validate.IP lib p.IngressVIP with
    | some err => allErrs ++ [field.Invalid (fldPath.Child "IngressVIP") p.IngressVIP err]
    | none => allErrs
  allErrs

end types.kubevirt.validation

namespace types.kubevirt.defaults

/-- Go `defaults.SetPlatformDefaults`: its body is empty, so the platform it is
given by pointer is left as it is. -/
def SetPlatformDefaults (p : types.kubevirt.Platform) : types.kubevirt.Platform := p

end types.kubevirt.defaults

/-! ## `pkg/asset/installconfig/kubevirt` -/

namespace installconfig.kubevirt

open types.kubevirt.validation (ValidatePlatform)

/-- Go interface `Client`, restricted to the four methods the validation calls.
Each method is given by the error it returns (`none` for `nil`); the object it
returns next to the error is discarded by every caller. -/
structure Client where
  ListNamespace : Option String
  GetNamespace : (name : String) → Option String
  GetStorageClass : (name : String) → Option String
  GetNetworkAttachmentDefinition : (name : String) → (ns : String) → Option String

/-- The outcome of one call of a `ClientBuilderFuncType`, a Go
`func() (Client, error)`: a client with a nil error, or an error (the client
returned next to a non-nil error is never looked at).  The builder is taken to
keep the Go convention that a nil error comes with a non-nil client; a nil
client with a nil error, on which the method call would panic, is outside the
embedding. -/
inductive BuilderResult
  | ok (client : Client)
  | fail (err : String)

/-- An entry of the call log. -/
inductive Call
  | clientBuilderFunc
  | ListNamespace
  | GetNamespace (name : String)
  | GetStorageClass (name : String)
  | GetNetworkAttachmentDefinition (name : String) (ns : String)
deriving DecidableEq, Repr

/-- Go `validateInfraClusterReachable`: the client (`none` is `nil`), the
errors, and the calls made. -/
def validateInfraClusterReachable (clientBuilderFunc : BuilderResult) (fieldPath : field.Path) :
    Option Client × field.ErrorList × List Call :=
  let allErrs : field.ErrorList := []
  match clientBuilderFunc with
  | .fail err =>
    let detailedErr := "failed to create InfraCluster client with error: " ++ err
    (none,
      allErrs ++ [field.Invalid (fieldPath.Child "InfraClusterReachable") "InfraCluster" detailedErr],
      [Call.clientBuilderFunc])
  | .ok client =>
    match client.ListNamespace with
    | some err =>
      let detailedErr := "failed to access to InfraCluster with error: " ++ err
      (none,
        allErrs ++ [field.Invalid (fieldPath.Child "InfraClusterReachable") "InfraCluster" detailedErr],
        [Call.clientBuilderFunc, Call.ListNamespace])
    | none => (some client, allErrs, [Call.clientBuilderFunc, Call.ListNamespace])

/-- Go `validateNamespaceExistsInInfraCluster`. -/
def validateNamespaceExistsInInfraCluster (name : String) (client : Client)
    (fieldPath : field.Path) : field.ErrorList × List Call :=
  let allErrs : field.ErrorList := []
  match client.GetNamespace name with
  | some err =>
    let detailedErr := "failed to get namespace " ++ name ++ " from InfraCluster, with error: " ++ err
    (allErrs ++ [field.Invalid (fieldPath.Child "NamespaceExistsInInfraCluster") name detailedErr],
      [Call.GetNamespace name])
  | none => (allErrs, [Call.GetNamespace name])

/-- Go `validateStorageClassExistsInInfraCluster`. -/
def validateStorageClassExistsInInfraCluster (name : String) (client : Client)
    (fieldPath : field.Path) : field.ErrorList × List Call :=
  let allErrs : field.ErrorList := []
  match client.GetStorageClass name with
  | some err =>
    let detailedErr := "failed to get storageClass " ++ name ++ " from InfraCluster, with error: " ++ err
    (allErrs ++ [field.Invalid (fieldPath.Child "StorageClassExistsInInfraCluster") name detailedErr],
      [Call.GetStorageClass name])
  | none => (allErrs, [Call.GetStorageClass name])

/-- Go `validateNetworkAttachmentDefinitionExistsInInfraCluster`. -/
def validateNetworkAttachmentDefinitionExistsInInfraCluster (name : String) (ns : String)
    (client : Client) (fieldPath : field.Path) : field.ErrorList × List Call :=
  let allErrs : field.ErrorList := []
  match client.GetNetworkAttachmentDefinition name ns with
  | some err =>
    let detailedErr :=
      "failed to get network-attachment-definition " ++ name ++ " from InfraCluster, with error: " ++ err
    (allErrs ++ [field.Invalid (fieldPath.Child "NetworkAttachmentDefinitionExistsInInfraCluster")
        name detailedErr],
      [Call.GetNetworkAttachmentDefinition name ns])
  | none => (allErrs, [Call.GetNetworkAttachmentDefinition name ns])

/-- The `for ... range` loop of Go `assertIPInMachineNetworkEntryList`; both
branches of its body return, and the value after the loop is `nil`. -/
def assertIPLoop (lib : Lib) (machineNetworkEntryList : List types.MachineNetworkEntry)
    (ip : String) (ipAddr : net.IP) : List types.MachineNetworkEntry → Option String
  | [] => none
  | machineNetworkEntry :: _ =>
    if machineNetworkEntry.CIDR.Contains ipAddr then none
    else some ("ip " ++ ip ++ " not in machineNetworkEntryList "
      ++ lib.fmtMachineNetworkEntryList machineNetworkEntryList)

/-- Go `assertIPInMachineNetworkEntryList`. -/
def assertIPInMachineNetworkEntryList (lib : Lib)
    (machineNetworkEntryList : List types.MachineNetworkEntry) (ip : String) : Option String :=
  match lib.ParseIP ip with
  | none => some ("ip " ++ ip ++ " is not valid IP address")
  | some ipAddr => assertIPLoop lib machineNetworkEntryList ip ipAddr machineNetworkEntryList

/-- Go `validateIPsInMachineNetworkEntryList`. -/
def validateIPsInMachineNetworkEntryList (lib : Lib)
    (machineNetworkEntryList : List types.MachineNetworkEntry) (apiVIP : String)
    (ingressVIP : String) (fieldPath : field.Path) : field.ErrorList :=
  let allErrs : field.ErrorList := []
  let allErrs :=
    match assertIPInMachineNetworkEntryList lib machineNetworkEntryList apiVIP with
    | some err =>
      let detailedErr := "validation of apiVIP " ++ apiVIP ++ " in cider "
        ++ lib.fmtMachineNetworkEntryList machineNetworkEntryList ++ " failed, with error: " ++ err
      allErrs ++ [field.Invalid (fieldPath.Child "IPsInCIDR") apiVIP detailedErr]
    | none => allErrs
  let allErrs :=
    match assertIPInMachineNetworkEntryList lib machineNetworkEntryList ingressVIP with
    | some err =>
      let detailedErr := "validation of ingressVIP " ++ ingressVIP ++ " in cider "
        ++ lib.fmtMachineNetworkEntryList machineNetworkEntryList ++ " failed, with error: " ++ err
      allErrs ++ [field.Invalid (fieldPath.Child "IPsInCIDR") ingressVIP detailedErr]
    | none => allErrs
  allErrs

/-- Go `validatePlatform`: the error list and the calls made, in order. -/
def validatePlatform (lib : Lib) (kubevirtPlatform : types.kubevirt.Platform)
    (machineNetworkEntryList : List types.MachineNetworkEntry)
    (clientBuilderFunc : BuilderResult) (fldPath : field.Path) : field.ErrorList × List Call :=
  let allErrs := ValidatePlatform lib kubevirtPlatform fldPath
  let reach := validateInfraClusterReachable clientBuilderFunc fldPath
  let allErrs := allErrs ++ reach.2.1
  let calls := reach.2.2
  let inner : field.ErrorList × List Call :=
    match reach.1 with
    | some client =>
      let ns := validateNamespaceExistsInInfraCluster kubevirtPlatform.Namespace client fldPath
      let nsErr := ns.1
      let allErrs := allErrs ++ nsErr
      let sc := validateStorageClassExistsInInfraCluster kubevirtPlatform.StorageClass client fldPath
      let allErrs := allErrs ++ sc.1
      if nsErr.length = 0 then
        let nad := validateNetworkAttachmentDefinitionExistsInInfraCluster
          kubevirtPlatform.NetworkName kubevirtPlatform.Namespace client fldPath
        (allErrs ++ nad.1, calls ++ ns.2 ++ sc.2 ++ nad.2)
      else (allErrs, calls ++ ns.2 ++ sc.2)
    | none => (allErrs, calls)
  let allErrs := inner.1 ++ validateIPsInMachineNetworkEntryList lib machineNetworkEntryList
    kubevirtPlatform.APIVIP kubevirtPlatform.IngressVIP fldPath
  (allErrs, inner.2)

/-- Go `Validate`: the returned `error` (`none` is `nil`) and the calls made. -/
def Validate (lib : Lib) (ic : types.InstallConfig) (clientBuilderFunc : BuilderResult) :
    Option GoError × List Call :=
  let kubevirtPlatformPath := field.NewPath "platform" ["kubevirt"]
  match ic.Platform.Kubevirt with
  | none =>
    (some (GoError.errorString ((field.Required kubevirtPlatformPath
      "validation requires a Engine platform configuration").Error lib)), [])
  | some kubevirtPlatform =>
    let r := validatePlatform lib kubevirtPlatform ic.MachineNetwork clientBuilderFunc
      kubevirtPlatformPath
    ((field.ErrorList.ToAggregate lib r.1).map GoError.aggregate, r.2)

end installconfig.kubevirt

/-- The condition stated for a nil result of `Validate`, written after the
specification and compared with `Validate` in the theorems: a kubevirt platform
is present, `ValidatePlatform` reports nothing, the client is built and
`ListNamespace` succeeds, the three lookups succeed, and both VIPs pass
`assertIPInMachineNetworkEntryList`. -/
def installconfig.kubevirt.AllChecksPass (lib : Lib) (ic : types.InstallConfig)
    (clientBuilderFunc : installconfig.kubevirt.BuilderResult) : Prop :=
  ∃ p, ic.Platform.Kubevirt = some p ∧
    types.kubevirt.validation.ValidatePlatform lib p (field.NewPath "platform" ["kubevirt"]) = [] ∧
    (∃ c, clientBuilderFunc = .ok c ∧ c.ListNamespace = none ∧
      c.GetNamespace p.Namespace = none ∧ c.GetStorageClass p.StorageClass = none ∧
      c.GetNetworkAttachmentDefinition p.NetworkName p.Namespace = none) ∧
    installconfig.kubevirt.assertIPInMachineNetworkEntryList lib ic.MachineNetwork p.APIVIP = none ∧
    installconfig.kubevirt.assertIPInMachineNetworkEntryList lib ic.MachineNetwork p.IngressVIP = none

/-! ## A concrete `Lib`, for evaluating the definitions on the inputs of the
repository's tests -/

namespace sample

/-- Value of a run of decimal digits read after the value `acc`; `none` when a
character is not a digit. -/
def decimal : List Char → Nat → Option Nat
  | [], acc => some acc
  | c :: cs, acc =>
    if '0' ≤ c ∧ c ≤ '9' then decimal cs (acc * 10 + (c.toNat - '0'.toNat)) else none

/-- One field of a dotted-decimal address: one to three digits, no leading
zero, value at most 255. -/
def octet (cs : List Char) : Option Nat :=
  match cs with
  | [] => none
  | ['0'] => some 0
  | '0' :: _ => none
  | _ =>
    if cs.length ≤ 3 then
      match decimal cs 0 with
      | some n => if n ≤ 0xFF then some n else none
      | none => none
    else none

/-- The fields of a text separated by dots; `cur` is the field being read, in
reverse. -/
def splitDots : List Char → List Char → List (List Char)
  | [], cur => [cur.reverse]
  | c :: cs, cur => if c = '.' then cur.reverse :: splitDots cs [] else splitDots cs (c :: cur)

/-- The restriction of `net.ParseIP` to canonical dotted-decimal IPv4 text;
every other text, IPv6 text included, is rejected. -/
def ParseIP (s : String) : Option net.IP :=
  match (splitDots s.toList []).map octet with
  | [some a, some b, some c, some d] => some (net.IPv4 a b c d)
  | _ => none

/-- The text of `strconv.Quote` for a string of printable characters without
double quote or backslash: the string between double quotes. -/
def Quote (s : String) : String := "\"" ++ s ++ "\""

/-- A stand-in for the `%s` rendering of a machine-network list: one mark per
entry, between square brackets. -/
def fmtMachineNetworkEntryList (l : List types.MachineNetworkEntry) : String :=
  "[" ++ " ".intercalate (l.map fun _ => "cidr") ++ "]"

/-- The concrete library used for evaluation. -/
def lib : Lib :=
  { ParseIP := ParseIP, Quote := Quote, fmtMachineNetworkEntryList := fmtMachineNetworkEntryList }

/-- An IPv4 network given by its 4-byte address `a.b.c.d` and its 4-byte mask
`m0.m1.m2.m3`, the form in which a parsed IPv4 CIDR is stored. -/
def cidr4 (a b c d : Nat) (m0 m1 m2 m3 : Nat) : types.MachineNetworkEntry :=
  { CIDR := { IP := [a, b, c, d], Mask := [m0, m1, m2, m3] } }

/-- The kubevirt platform of `validInstallConfig()` in `validation_test.go`. -/
def validPlatform : types.kubevirt.Platform :=
  { Namespace := "valid-namespace",
    StorageClass := "valid-storage-class",
    NetworkName := "valid-network-name",
    APIVIP := "192.168.123.15",
    IngressVIP := "192.168.123.20",
    PersistentVolumeAccessMode := "valid-access-mode" }

/-- The install config `validInstallConfig()` of `validation_test.go`. -/
def validInstallConfig : types.InstallConfig :=
  { MachineNetwork := [cidr4 192 168 123 0 255 255 255 0],
    Platform := { Kubevirt := some validPlatform } }

/-- A client all of whose lookups succeed. -/
def okClient : installconfig.kubevirt.Client :=
  { ListNamespace := none,
    GetNamespace := fun _ => none,
    GetStorageClass := fun _ => none,
    GetNetworkAttachmentDefinition := fun _ _ => none }

/-- A reachable client all of whose lookups fail with the error `test`. -/
def failingClient : installconfig.kubevirt.Client :=
  { ListNamespace := none,
    GetNamespace := fun _ => some "test",
    GetStorageClass := fun _ => some "test",
    GetNetworkAttachmentDefinition := fun _ _ => some "test" }

/-- The test platform with the API VIP of the test case `invalid APIVIP`. -/
def invalidAPIVIPPlatform : types.kubevirt.Platform :=
  { validPlatform with APIVIP := "invalid-api-vip" }

end sample

/-! ## `github.com/coreos/ignition/v2/config/v3_1/types` -/

namespace igntypes

/-- The text of `igntypes.MaxVersion.String()` in `config/v3_1`. -/
def MaxVersion : String := "3.1.0"

/-- Go `igntypes.File`, with the fields that the sources and the specification
name: the path (`Node.Path`), the owner (`Node.User.Name`), the mode
(`FileEmbedded1.Mode`), the contents or source URL (`Contents.Source`) and
the overwrite flag (`Node.Overwrite`); the last four are pointers, `none` is
`nil`. -/
structure File where
  Path : String
  User : Option String
  Mode : Option Nat
  Source : Option String
  Overwrite : Option Bool := none
deriving DecidableEq, Repr

/-- Go `igntypes.Unit`: name, enabled flag and inline contents. -/
structure Unit where
  Name : String
  Enabled : Option Bool
  Contents : Option String
deriving DecidableEq, Repr

/-- Go `igntypes.PasswdUser`: name and authorized SSH keys. -/
structure PasswdUser where
  Name : String
  SSHAuthorizedKeys : List String
deriving DecidableEq, Repr

/-- Go `igntypes.Ignition`. -/
structure Ignition where
  Version : String
deriving DecidableEq, Repr

/-- Go `igntypes.Passwd`. -/
structure Passwd where
  Users : List PasswdUser
deriving DecidableEq, Repr

/-- Go `igntypes.Storage`. -/
structure Storage where
  Files : List File
deriving DecidableEq, Repr

/-- Go `igntypes.Systemd`. -/
structure Systemd where
  Units : List Unit
deriving DecidableEq, Repr

/-- Go `igntypes.Config`. -/
structure Config where
  Ignition : Ignition
  Passwd : Passwd
  Storage : Storage
  Systemd : Systemd
deriving DecidableEq, Repr

end igntypes

/-! ## `pkg/asset/ignition` (file materializer) -/

namespace ignition

/-- Modelled from the spec: `ignition.ReplaceOrAppend` of `pkg/asset/ignition`,
which is not among the sources.  If a file with the path of the new file is in
the list, the new file takes its place (index preserved); otherwise the new
file is appended. -/
def ReplaceOrAppend : List igntypes.File → igntypes.File → List igntypes.File
  | [], file => [file]
  | f :: files, file =>
    if f.Path = file.Path then file :: files else f :: ReplaceOrAppend files file

end ignition

namespace ignition

/-- The first occurrence of every element of a list, in the order of the
list: the reading of "position of the first contribution" used to state the
properties of `ReplaceOrAppend`. -/
def firstOccurrences : List String → List String
  | [] => []
  | p :: ps => p :: (firstOccurrences ps).filter (fun q => q ≠ p)

end ignition

namespace sample

/-- A contribution to `/etc/foo` with mode 0644. -/
def etcFoo0644 : igntypes.File :=
  { Path := "/etc/foo", User := some "root", Mode := some 0o644, Source := some "data:,first" }

/-- A contribution to `/etc/foo` with mode 0600. -/
def etcFoo0600 : igntypes.File :=
  { Path := "/etc/foo", User := some "root", Mode := some 0o600, Source := some "data:,second" }

/-- A contribution to `/etc/bar`. -/
def etcBar : igntypes.File :=
  { Path := "/etc/bar", User := some "root", Mode := some 0o644, Source := some "data:,bar" }

end sample

/-! ## `pkg/asset` (dependency resolver) -/

namespace asset

/-- Modelled from the spec: the loop of the dependency resolver over a list
of dependencies, which is not among the sources.  Every dependency is
visited in the declared order, each visit starting from the order built so
far. -/
def visitAll {α : Type} (visit : α → List α → Option (List α)) :
    List α → List α → Option (List α)
  | [], order => some order
  | d :: ds, order =>
    match visit d order with
    | none => none
    | some order₁ => visitAll visit ds order₁

/-- Modelled from the spec: the depth-first traversal of the dependency
resolver, which is not among the sources.  An asset already in the order is
skipped (deduplication by identity); otherwise its dependencies are visited
first and the asset is put after them (post-order).  No cycle is detected: on
a cyclic graph the traversal never returns, which is `none` here, as is a
recursion deeper than `fuel`. -/
def visit {α : Type} [DecidableEq α] (deps : α → List α) : Nat → α → List α → Option (List α)
  | 0, _, _ => none
  | fuel + 1, a, order =>
    if a ∈ order then some order
    else
      match visitAll (visit deps fuel) (deps a) order with
      | none => none
      | some order₁ => some (order₁ ++ [a])

/-- Modelled from the spec: `Resolve(root)`, the generation order of the
assets that `root` needs, computed with recursion depth at most `fuel`. -/
def Resolve {α : Type} [DecidableEq α] (deps : α → List α) (fuel : Nat) (root : α) :
    Option (List α) :=
  visit deps fuel root []

/-- The order `l`, read from its last element, is a generation order: every
element is new and all its dependencies were generated before it. -/
def Generated {α : Type} (deps : α → List α) : List α → Prop
  | [] => True
  | a :: older => a ∉ older ∧ (∀ d ∈ deps a, d ∈ older) ∧ Generated deps older

end asset

namespace sample

/-- A diamond of dependencies on four assets: `0` needs `1` and `2`, both of
which need `3`. -/
def diamond : Fin 4 → List (Fin 4)
  | 0 => [1, 2]
  | 1 => [3]
  | 2 => [3]
  | 3 => []

end sample

/-! ## `pkg/asset` (assets, files, parents store) -/

namespace asset

/-- The identity of an asset, its concrete Go type: the asset types named in
the `Dependencies` lists and `Get` calls of the sources (`pkg_Type` stands
for the Go type `pkg.Type`). -/
inductive Asset
  | baremetal_IronicCreds
  | installconfig_InstallConfig
  | kubeconfig_AdminInternalClient
  | kubeconfig_Kubelet
  | kubeconfig_LoopbackClient
  | manifests_Manifests
  | manifests_Proxy
  | tls_AdminKubeConfigCABundle
  | tls_AggregatorCA
  | tls_AggregatorCABundle
  | tls_AggregatorClientCertKey
  | tls_AggregatorSignerCertKey
  | tls_APIServerProxyCertKey
  | tls_BootstrapSSHKeyPair
  | tls_BoundSASigningKey
  | tls_CloudProviderCABundle
  | tls_EtcdCABundle
  | tls_EtcdMetricCABundle
  | tls_EtcdMetricSignerCertKey
  | tls_EtcdMetricSignerClientCertKey
  | tls_EtcdSignerCertKey
  | tls_EtcdSignerClientCertKey
  | tls_JournalCertKey
  | tls_KubeAPIServerLBCABundle
  | tls_KubeAPIServerExternalLBServerCertKey
  | tls_KubeAPIServerInternalLBServerCertKey
  | tls_KubeAPIServerLBSignerCertKey
  | tls_KubeAPIServerLocalhostCABundle
  | tls_KubeAPIServerLocalhostServerCertKey
  | tls_KubeAPIServerLocalhostSignerCertKey
  | tls_KubeAPIServerServiceNetworkCABundle
  | tls_KubeAPIServerServiceNetworkServerCertKey
  | tls_KubeAPIServerServiceNetworkSignerCertKey
  | tls_KubeAPIServerCompleteCABundle
  | tls_KubeAPIServerCompleteClientCABundle
  | tls_KubeAPIServerToKubeletCABundle
  | tls_KubeAPIServerToKubeletClientCertKey
  | tls_KubeAPIServerToKubeletSignerCertKey
  | tls_KubeControlPlaneCABundle
  | tls_KubeControlPlaneKubeControllerManagerClientCertKey
  | tls_KubeControlPlaneKubeSchedulerClientCertKey
  | tls_KubeControlPlaneSignerCertKey
  | tls_KubeletBootstrapCABundle
  | tls_KubeletClientCABundle
  | tls_KubeletClientCertKey
  | tls_KubeletCSRSignerCertKey
  | tls_KubeletServingCABundle
  | tls_MCSCertKey
  | tls_RootCA
  | tls_ServiceAccountKeyPair
  | releaseimage_Image
  | rhcos_Image
  | manifests_Openshift
  | machines_Master
  | machines_Worker
  | tls_ServiceCASignerCertKey
  | tls_ServiceCABundle
  | installconfig_platform
deriving DecidableEq, Repr

/-- Go `asset.File`: a name and the bytes of the file. -/
structure File where
  Filename : String
  Data : List Nat
deriving DecidableEq, Repr

/-- An error of a `FileFetcher`: its text and whether `os.IsNotExist` holds
of it. -/
structure FetchError where
  text : String
  notExist : Bool
deriving DecidableEq, Repr

/-- Go interface `asset.FileFetcher`, restricted to `FetchByName`: a file with
a nil error, or an error. -/
structure FileFetcher where
  FetchByName : String → Except FetchError File

/-- Modelled from the spec: `asset.Parents`, the store of generated assets,
which is not among the sources.  `has` tells the assets that are in the
store; the other fields are what the ignition assets read from the assets
they get: the install config, the pull spec of the release image, the status
of the proxy, the boot image, the public key of the bootstrap SSH key pair,
the ironic credentials, the output files of every writable asset, and the
certificate file name and certificate of the root CA.  `PlatformCurrentName`
is what `CurrentName()` returns on the `platform` asset that
`networking.Generate` gets. -/
structure Parents where
  has : Asset → Bool
  InstallConfig : types.InstallConfig
  PullSpec : String
  ProxyStatus : String
  RhcosImage : String
  BootstrapSSHPublicKey : String
  IronicUsername : String
  IronicPassword : String
  Files : Asset → List File
  RootCACertFilename : String
  RootCACert : List Nat
  PlatformCurrentName : String := ""

/-- An observable step of `Generate`. -/
inductive Event
  /-- A query of the parents store for one asset. -/
  | Get (a : Asset)
  /-- A call of `ignition.AddStorageFiles` on a template directory. -/
  | AddStorageFiles (base : String) (uri : String)
  /-- A call of `ignition.AddSystemdUnits` on a template directory. -/
  | AddSystemdUnits (uri : String)
  /-- A call of `data.Assets.Open`. -/
  | Open (name : String)
deriving DecidableEq, Repr

/-- Modelled from the spec: `Parents.Get(assets...)`, which is not among the
sources.  The assets are looked up in order; the result is the queries made
and the first asset that is not in the store, on which the call is fatal
(`none` when every asset is found). -/
def Parents.Get (p : Parents) : List Asset → List Event × Option Asset
  | [] => ([], none)
  | a :: rest =>
    if p.has a then ((Event.Get a) :: (Parents.Get p rest).1, (Parents.Get p rest).2)
    else ([Event.Get a], some a)

/-- How a call of `Generate` ends. -/
inductive Outcome
  /-- The call returns the error (`none` is `nil`). -/
  | returned (err : Option String)
  /-- The call dies in `Parents.Get` on an asset that is not in the store. -/
  | fatal (missing : Asset)
  /-- The call panics on a nil pointer, an index out of range or a negative
  length. -/
  | panicked
deriving DecidableEq, Repr

/-- The asset after a call of `Generate`, how the call ended, and its steps. -/
structure Run (σ : Type) where
  state : σ
  outcome : Outcome
  log : List Event

/-- Why a helper that builds template data stops. -/
inductive Failure
  /-- It returns an error with this text. -/
  | error (text : String)
  /-- It panics. -/
  | panic
deriving DecidableEq, Repr

/-- The error returned by `Load`: the error of the fetcher itself, or the
error of the deserializer wrapped with a text. -/
inductive LoadError
  | fetch (err : FetchError)
  | unmarshal (text : String)
deriving DecidableEq, Repr

end asset

/-! ## `pkg/asset/ignition`, `pkg/asset/ignition/bootstrap` and
`pkg/asset/ignition/aio` -/

namespace bootstrap

/-- Go `sysregistriesv2.Registry`, restricted to the fields that
`getTemplateData` sets. -/
structure Registry where
  Location : String
  Mirrors : List String
  MirrorByDigestOnly : Bool
deriving DecidableEq, Repr

/-- Go `platformTemplateData`; the two template-data values are built by
functions that are not among the sources and are kept as their text. -/
structure platformTemplateData where
  BareMetal : Option String
  VSphere : Option String
deriving DecidableEq, Repr

/-- Go `bootstrapTemplateData`. -/
structure bootstrapTemplateData where
  AdditionalTrustBundle : String
  FIPS : Bool
  EtcdCluster : String
  PullSecret : String
  ReleaseImage : String
  ClusterProfile : String
  Proxy : String
  Registries : List Registry
  BootImage : String
  PlatformData : platformTemplateData
  BootstrapInPlace : Option types.BootstrapInPlace
deriving DecidableEq, Repr

end bootstrap

namespace aio

/-- Go `aioTemplateData`. -/
structure aioTemplateData where
  ReleaseImage : String
  ClusterDomain : String
  EtcdCluster : String
  ClusterDNSIP : String
  PullSecret : String
  ClusterNetwork : String
deriving DecidableEq, Repr

end aio

namespace ignition

/-- The `templateData` argument of the template renderer, an empty interface
in Go: the template data of one of the two ignition assets. -/
inductive TemplateData
  | bootstrap (d : bootstrap.bootstrapTemplateData)
  | aio (d : aio.aioTemplateData)
deriving DecidableEq, Repr

/-- An entry written by `warnIfCertificatesExpired` through `logrus`. -/
inductive LogEntry
  /-- Debug: the data URL of a certificate file does not decode. -/
  | unableToDecode (fileName : String) (err : String)
  /-- Debug: a PEM block does not parse as a certificate. -/
  | unableToParse (fileName : String) (err : String)
  /-- Warning: a certificate expired at the given instant. -/
  | expired (fileName : String) (notAfter : Int)
  /-- Warning: the number of expired certificates. -/
  | expiredCount (n : Nat)
deriving DecidableEq, Repr

/-- The functions called by the ignition assets whose bodies are outside the
sources: the standard library, third-party packages, the embedded template
data and the template renderer of `pkg/asset/ignition`. -/
structure Env where
  /-- Go `filepath.Join` of two elements. -/
  Join : String → String → String
  /-- Go `filepath.Ext`. -/
  Ext : String → String
  /-- Go `path.Base`. -/
  Base : String → String
  /-- Go `dataurl.EncodeBytes`. -/
  EncodeBytes : List Nat → String
  /-- Go `dataurl.DecodeString`, reduced to the decoded data. -/
  DecodeString : String → Except String (List Nat)
  /-- Go `pem.Decode`: the bytes of the next block and the rest of the input,
  `none` when no block is found. -/
  pemDecode : List Nat → Option (List Nat × List Nat)
  /-- The rest returned by `pem.Decode` with a block is shorter than its
  input. -/
  pemDecode_rest : ∀ data block rest, pemDecode data = some (block, rest) →
    rest.length < data.length
  /-- Go `x509.ParseCertificate`, reduced to the `NotAfter` instant of the
  certificate. -/
  ParseCertificate : List Nat → Except String Int
  /-- Go `time.Now().UTC()`, as an instant. -/
  Now : Int
  /-- Go `os.Getenv`. -/
  Getenv : String → String
  /-- Whether `data.Assets.Open` returns a nil error on a name. -/
  Open : String → Bool
  /-- The files that the template renderer emits for a template directory, in
  the order of its walk, before it ends, and the error it ends with. -/
  templateFiles : (base : String) → (uri : String) → TemplateData →
    List igntypes.File × Option String
  /-- The units (name and contents) that the template renderer emits for a
  unit directory before it ends, and the error it ends with. -/
  templateUnits : (uri : String) → TemplateData → List (String × String) × Option String
  /-- Go `json.Marshal` on an Ignition config. -/
  jsonMarshal : igntypes.Config → Except String (List Nat)
  /-- Go `json.Unmarshal` into a fresh Ignition config. -/
  jsonUnmarshal : List Nat → Except String igntypes.Config
  /-- The serializer `ignition.Marshal` of `pkg/asset/ignition`. -/
  ignitionMarshal : igntypes.Config → Except String (List Nat)
  /-- Go `net.ParseCIDR`, reduced to the network. -/
  ParseCIDR : String → Except String net.IPNet
  /-- Go `cidr.Host` of `github.com/apparentlymart/go-cidr`. -/
  Host : net.IPNet → Int → Except String net.IP
  /-- Go `net.IP.String`. -/
  IPString : net.IP → String
  /-- Go `ipnet.IPNet.String`. -/
  IPNetString : net.IPNet → String
  /-- The method `types.InstallConfig.ClusterDomain`. -/
  ClusterDomain : types.InstallConfig → String
  /-- The method `types.Platform.Name`. -/
  PlatformName : types.Platform → String
  /-- The constant `baremetaltypes.Name`. -/
  baremetalName : String
  /-- The constant `vspheretypes.Name`. -/
  vsphereName : String
  /-- The function `mergedMirrorSets` of package `bootstrap`. -/
  mergedMirrorSets : List types.ImageContentSource → List types.ImageContentSource
  /-- The function `baremetal.GetTemplateData`, on the install config and the
  ironic credentials. -/
  baremetalGetTemplateData : types.InstallConfig → String → String → String
  /-- The function `vsphere.GetTemplateData`, on the install config. -/
  vsphereGetTemplateData : types.InstallConfig → String

end ignition

namespace ignition

/-- Modelled from the spec: `ignition.FileFromURL(path, username, mode, url)`,
which is not among the sources: a file given by a remote source URL with a
target mode and owner. -/
def FileFromURL (path : String) (username : String) (mode : Nat) (url : String) :
    igntypes.File :=
  { Path := path, User := some username, Mode := some mode, Source := some url }

/-- Modelled from the spec: `ignition.FileFromBytes(path, username, mode,
contents)`, which is not among the sources: a file whose contents are
embedded as a data URL. -/
def FileFromBytes (env : Env) (path : String) (username : String) (mode : Nat)
    (contents : List Nat) : igntypes.File :=
  { Path := path, User := some username, Mode := some mode,
    Source := some (env.EncodeBytes contents) }

/-- Modelled from the spec: `ignition.FilesFromAsset(pathPrefix, username,
mode, asset)`, which is not among the sources: the output files of a parent
asset, under a root directory, with an owner and a mode. -/
def FilesFromAsset (env : Env) (dependencies : asset.Parents) (pathPrefix : String)
    (username : String) (mode : Nat) (a : asset.Asset) : List igntypes.File :=
  (dependencies.Files a).map fun f =>
    FileFromBytes env (env.Join pathPrefix f.Filename) username mode f.Data

/-- Modelled from the spec: `ignition.AddParentFiles(config, dependencies,
rootDir, uname, mode, assets)`, which is not among the sources.  For every
parent in the list, in order: the parent is queried from the store and its
files are put in the config with `ReplaceOrAppend`.  The result is the
config, the queries made, and the asset on which the query is fatal, if
any.  The loop over four assets in `Bootstrap.Generate` has the same body
and is this function too. -/
def AddParentFiles (env : Env) (config : igntypes.Config) (dependencies : asset.Parents)
    (rootDir : String) (uname : String) (mode : Nat) :
    List asset.Asset → igntypes.Config × List asset.Event × Option asset.Asset
  | [] => (config, [], none)
  | a :: rest =>
    if dependencies.has a then
      let files := (FilesFromAsset env dependencies rootDir uname mode a).foldl ReplaceOrAppend
        config.Storage.Files
      let config₁ : igntypes.Config := { config with Storage := { Files := files } }
      let r := AddParentFiles env config₁ dependencies rootDir uname mode rest
      (r.1, asset.Event.Get a :: r.2.1, r.2.2)
    else (config, [asset.Event.Get a], some a)

/-- Modelled from the spec: `ignition.AddStorageFiles(config, base, uri,
templateData)`, which is not among the sources: every file that the
renderer emits is put in the config with `ReplaceOrAppend`; the error of the
renderer is returned. -/
def AddStorageFiles (env : Env) (config : igntypes.Config) (base : String) (uri : String)
    (templateData : TemplateData) : igntypes.Config × Option String :=
  let r := env.templateFiles base uri templateData
  let files := r.1.foldl ReplaceOrAppend config.Storage.Files
  ({ config with Storage := { Files := files } }, r.2)

/-- Modelled from the spec: `ignition.AddSystemdUnits(config, uri,
templateData, enabled)`, which is not among the sources: every unit that the
renderer emits is appended to the units of the config, marked enabled only
if its name is in the enabled set; the error of the renderer is returned. -/
def AddSystemdUnits (env : Env) (config : igntypes.Config) (uri : String)
    (templateData : TemplateData) (enabled : List String) : igntypes.Config × Option String :=
  let r := env.templateUnits uri templateData
  let units : List igntypes.Unit := r.1.map fun u =>
    { Name := u.1, Contents := some u.2, Enabled := if u.1 ∈ enabled then some true else none }
  ({ config with Systemd := { Units := config.Systemd.Units ++ units } }, r.2)

/-- A fresh config holding only the Ignition version, the value of the
composite literal assigned to `a.Config` in `Generate`. -/
def freshConfig : igntypes.Config :=
  { Ignition := { Version := igntypes.MaxVersion }, Passwd := { Users := [] },
    Storage := { Files := [] }, Systemd := { Units := [] } }

end ignition

namespace ignition

/-- The asset after a call of `Load`, the returned pair `(found, err)`, and
the entries logged. -/
structure LoadRun (σ : Type) where
  state : σ
  found : Bool
  err : Option asset.LoadError
  log : List LogEntry

end ignition

namespace bootstrap

/-- Go constant `rootDir`. -/
def rootDir : String := "/opt/openshift"

/-- Go constant `bootstrapIgnFilename`. -/
def bootstrapIgnFilename : String := "bootstrap.ign"

/-- Go `Bootstrap`; `Config` and `File` are pointers (`none` is `nil`). -/
structure Bootstrap where
  Config : Option igntypes.Config
  File : Option asset.File
  bootstrapInPlace : Bool
deriving DecidableEq, Repr

/-- Go `(*Bootstrap).Dependencies`. -/
def Dependencies : List asset.Asset :=
  [
    .baremetal_IronicCreds, .installconfig_InstallConfig, .kubeconfig_AdminInternalClient,
    .kubeconfig_Kubelet, .kubeconfig_LoopbackClient, .manifests_Manifests, .manifests_Proxy,
    .tls_AdminKubeConfigCABundle, .tls_AggregatorCA, .tls_AggregatorCABundle,
    .tls_AggregatorClientCertKey, .tls_AggregatorSignerCertKey, .tls_APIServerProxyCertKey,
    .tls_BootstrapSSHKeyPair, .tls_BoundSASigningKey, .tls_CloudProviderCABundle,
    .tls_EtcdCABundle, .tls_EtcdMetricCABundle, .tls_EtcdMetricSignerCertKey,
    .tls_EtcdMetricSignerClientCertKey, .tls_EtcdSignerCertKey, .tls_EtcdSignerClientCertKey,
    .tls_JournalCertKey, .tls_KubeAPIServerLBCABundle, .tls_KubeAPIServerExternalLBServerCertKey,
    .tls_KubeAPIServerInternalLBServerCertKey, .tls_KubeAPIServerLBSignerCertKey,
    .tls_KubeAPIServerLocalhostCABundle, .tls_KubeAPIServerLocalhostServerCertKey,
    .tls_KubeAPIServerLocalhostSignerCertKey, .tls_KubeAPIServerServiceNetworkCABundle,
    .tls_KubeAPIServerServiceNetworkServerCertKey, .tls_KubeAPIServerServiceNetworkSignerCertKey,
    .tls_KubeAPIServerCompleteCABundle, .tls_KubeAPIServerCompleteClientCABundle,
    .tls_KubeAPIServerToKubeletCABundle, .tls_KubeAPIServerToKubeletClientCertKey,
    .tls_KubeAPIServerToKubeletSignerCertKey, .tls_KubeControlPlaneCABundle,
    .tls_KubeControlPlaneKubeControllerManagerClientCertKey,
    .tls_KubeControlPlaneKubeSchedulerClientCertKey, .tls_KubeControlPlaneSignerCertKey,
    .tls_KubeletBootstrapCABundle, .tls_KubeletClientCABundle, .tls_KubeletClientCertKey,
    .tls_KubeletCSRSignerCertKey, .tls_KubeletServingCABundle, .tls_MCSCertKey, .tls_RootCA,
    .tls_ServiceAccountKeyPair, .releaseimage_Image, .rhcos_Image
  ]

/-- The assets of the `for` loop of `Generate` over writable assets. -/
def loopAssets : List asset.Asset :=
  [
    .manifests_Manifests, .manifests_Openshift, .machines_Master, .machines_Worker
  ]

/-- The assets that `Generate` passes to `ignition.AddParentFiles`. -/
def parentAssets : List asset.Asset :=
  [
    .kubeconfig_AdminInternalClient, .kubeconfig_Kubelet, .kubeconfig_LoopbackClient,
    .tls_AdminKubeConfigCABundle, .tls_AggregatorCA, .tls_AggregatorCABundle,
    .tls_AggregatorClientCertKey, .tls_AggregatorSignerCertKey, .tls_APIServerProxyCertKey,
    .tls_EtcdCABundle, .tls_EtcdMetricCABundle, .tls_EtcdMetricSignerCertKey,
    .tls_EtcdMetricSignerClientCertKey, .tls_EtcdSignerCertKey, .tls_EtcdSignerClientCertKey,
    .tls_KubeAPIServerLBCABundle, .tls_KubeAPIServerExternalLBServerCertKey,
    .tls_KubeAPIServerInternalLBServerCertKey, .tls_KubeAPIServerLBSignerCertKey,
    .tls_KubeAPIServerLocalhostCABundle, .tls_KubeAPIServerLocalhostServerCertKey,
    .tls_KubeAPIServerLocalhostSignerCertKey, .tls_KubeAPIServerServiceNetworkCABundle,
    .tls_KubeAPIServerServiceNetworkServerCertKey, .tls_KubeAPIServerServiceNetworkSignerCertKey,
    .tls_KubeAPIServerCompleteCABundle, .tls_KubeAPIServerCompleteClientCABundle,
    .tls_KubeAPIServerToKubeletCABundle, .tls_KubeAPIServerToKubeletClientCertKey,
    .tls_KubeAPIServerToKubeletSignerCertKey, .tls_KubeControlPlaneCABundle,
    .tls_KubeControlPlaneKubeControllerManagerClientCertKey,
    .tls_KubeControlPlaneKubeSchedulerClientCertKey, .tls_KubeControlPlaneSignerCertKey,
    .tls_KubeletBootstrapCABundle, .tls_KubeletClientCABundle, .tls_KubeletClientCertKey,
    .tls_KubeletCSRSignerCertKey, .tls_KubeletServingCABundle, .tls_MCSCertKey,
    .tls_ServiceAccountKeyPair, .tls_JournalCertKey
  ]

/-- The set `enabled` of `Generate`. -/
def enabled : List String :=
  ["progress.service", "kubelet.service", "chown-gatewayd-key.service",
    "systemd-journal-gatewayd.socket", "approve-csr.service", "keepalived.service",
    "coredns.service", "ironic.service", "master-bmh-update.service"]

/-- Go `(*Bootstrap).getTemplateData`.  It returns no error; it panics when
the control plane or its replica count is nil, or when the count is
negative.  The warning logged for a cluster-profile override is not
recorded. -/
def getTemplateData (a : Bootstrap) (env : ignition.Env) (installConfig : types.InstallConfig)
    (releaseImage : String) (imageSources : List types.ImageContentSource) (proxy : String)
    (rhcosImage : String) (ironicUsername : String) (ironicPassword : String) :
    Except asset.Failure bootstrapTemplateData :=
  match installConfig.ControlPlane with
  | none => .error .panic
  | some controlPlane =>
    match controlPlane.Replicas with
    | none => .error .panic
    | some replicas =>
      if replicas < 0 then .error .panic
      else
        let etcdEndpoints := (List.range replicas.toNat).map fun i =>
          "https://etcd-" ++ toString i ++ "." ++ env.ClusterDomain installConfig ++ ":2379"
        let registries : List Registry :=
          (env.mergedMirrorSets imageSources).filterMap fun group =>
            if group.Mirrors.length = 0 then none
            else some { Location := group.Source, MirrorByDigestOnly := true,
                        Mirrors := group.Mirrors }
        let platformData : platformTemplateData :=
          if env.PlatformName installConfig.Platform = env.baremetalName then
            { BareMetal := some (env.baremetalGetTemplateData installConfig ironicUsername
                ironicPassword),
              VSphere := none }
          else if env.PlatformName installConfig.Platform = env.vsphereName then
            { BareMetal := none, VSphere := some (env.vsphereGetTemplateData installConfig) }
          else { BareMetal := none, VSphere := none }
        let cp := env.Getenv "OPENSHIFT_INSTALL_EXPERIMENTAL_CLUSTER_PROFILE"
        let clusterProfile := if cp ≠ "" then cp else ""
        let bootstrapInPlaceConfig :=
          if a.bootstrapInPlace then installConfig.BootstrapInPlace else none
        .ok { AdditionalTrustBundle := installConfig.AdditionalTrustBundle,
              FIPS := installConfig.FIPS,
              PullSecret := installConfig.PullSecret,
              ReleaseImage := releaseImage,
              EtcdCluster := ",".intercalate etcdEndpoints,
              Proxy := proxy,
              Registries := registries,
              BootImage := rhcosImage,
              PlatformData := platformData,
              ClusterProfile := clusterProfile,
              BootstrapInPlace := bootstrapInPlaceConfig }

/-- The scan of one PEM input in `warnIfCertificatesExpired`: the inner `for`
loop.  It returns the entries logged and the number of expired
certificates. -/
def certLoop (env : ignition.Env) (fileName : String) (data : List Nat) :
    List ignition.LogEntry × Nat :=
  match h : env.pemDecode data with
  | none => ([], 0)
  | some (block, rest) =>
    match env.ParseCertificate block with
    | .ok notAfter =>
      let r := certLoop env fileName rest
      if env.Now > notAfter then (ignition.LogEntry.expired fileName notAfter :: r.1, r.2 + 1)
      else r
    | .error err => ([ignition.LogEntry.unableToParse fileName err], 0)
termination_by data.length
decreasing_by exact env.pemDecode_rest data block rest h

/-- The body of the outer loop of `warnIfCertificatesExpired` for one file. -/
def scanFile (env : ignition.Env) (file : igntypes.File) : List ignition.LogEntry × Nat :=
  if env.Ext file.Path = ".crt" then
    match file.Source with
    | some source =>
      let fileName := env.Base file.Path
      match env.DecodeString source with
      | .error err => ([ignition.LogEntry.unableToDecode fileName err], 0)
      | .ok data => certLoop env fileName data
    | none => ([], 0)
  else ([], 0)

/-- Go `warnIfCertificatesExpired`: it reads the config and writes to the
log only; the result is the entries logged. -/
def warnIfCertificatesExpired (env : ignition.Env) (config : igntypes.Config) :
    List ignition.LogEntry :=
  let r := config.Storage.Files.foldl
    (fun (acc : List ignition.LogEntry × Nat) file =>
      let s := scanFile env file
      (acc.1 ++ s.1, acc.2 + s.2)) ([], 0)
  if r.2 > 0 then r.1 ++ [ignition.LogEntry.expiredCount r.2] else r.1

/-- Go `(*Bootstrap).Load`. -/
def Load (env : ignition.Env) (a : Bootstrap) (f : asset.FileFetcher) :
    ignition.LoadRun Bootstrap :=
  match f.FetchByName bootstrapIgnFilename with
  | .error err =>
    if err.notExist then { state := a, found := false, err := none, log := [] }
    else { state := a, found := false, err := some (.fetch err), log := [] }
  | .ok file =>
    match env.jsonUnmarshal file.Data with
    | .error err =>
      { state := a, found := false,
        err := some (.unmarshal ("failed to unmarshal " ++ bootstrapIgnFilename ++ ": " ++ err)),
        log := [] }
    | .ok config =>
      { state := { a with File := some file, Config := some config }, found := true,
        err := none, log := warnIfCertificatesExpired env config }

/-- Go `(*Bootstrap).Files`.  The result is a Go slice: `none` is the nil
slice and `some l` a slice that is not nil, with the elements `l`. -/
def Files (a : Bootstrap) : Option (List asset.File) :=
  match a.File with
  | some file => some [file]
  | none => some []

/-- Go `(*Bootstrap).Name`. -/
def Name : String := "Bootstrap Ignition Config"

end bootstrap

namespace aio

/-- Go constant `aioIgnFilename`. -/
def aioIgnFilename : String := "aio.ign"

/-- Go constant `rootDir`. -/
def rootDir : String := "/opt/openshift"

/-- Go struct `AIO`; `Config` and `File` are pointers (`none` is `nil`). -/
structure AIOAsset where
  Config : Option igntypes.Config
  File : Option asset.File
deriving DecidableEq, Repr

/-- Go `(*AIO).Dependencies`. -/
def Dependencies : List asset.Asset :=
  [
    .installconfig_InstallConfig, .kubeconfig_AdminInternalClient, .kubeconfig_Kubelet,
    .kubeconfig_LoopbackClient, .manifests_Manifests, .manifests_Proxy,
    .tls_AdminKubeConfigCABundle, .tls_AggregatorCA, .tls_AggregatorCABundle,
    .tls_AggregatorClientCertKey, .tls_AggregatorSignerCertKey, .tls_APIServerProxyCertKey,
    .tls_BootstrapSSHKeyPair, .tls_EtcdCABundle, .tls_EtcdMetricCABundle,
    .tls_EtcdMetricSignerCertKey, .tls_EtcdMetricSignerClientCertKey, .tls_EtcdSignerCertKey,
    .tls_EtcdSignerClientCertKey, .tls_JournalCertKey, .tls_KubeAPIServerLBCABundle,
    .tls_KubeAPIServerExternalLBServerCertKey, .tls_KubeAPIServerInternalLBServerCertKey,
    .tls_KubeAPIServerLBSignerCertKey, .tls_KubeAPIServerLocalhostCABundle,
    .tls_KubeAPIServerLocalhostServerCertKey, .tls_KubeAPIServerLocalhostSignerCertKey,
    .tls_KubeAPIServerServiceNetworkCABundle, .tls_KubeAPIServerServiceNetworkServerCertKey,
    .tls_KubeAPIServerServiceNetworkSignerCertKey, .tls_KubeAPIServerCompleteCABundle,
    .tls_KubeAPIServerCompleteClientCABundle, .tls_KubeAPIServerToKubeletCABundle,
    .tls_KubeAPIServerToKubeletClientCertKey, .tls_KubeAPIServerToKubeletSignerCertKey,
    .tls_KubeControlPlaneCABundle, .tls_KubeControlPlaneKubeControllerManagerClientCertKey,
    .tls_KubeControlPlaneKubeSchedulerClientCertKey, .tls_KubeControlPlaneSignerCertKey,
    .tls_KubeletBootstrapCABundle, .tls_KubeletClientCABundle, .tls_KubeletClientCertKey,
    .tls_KubeletCSRSignerCertKey, .tls_KubeletServingCABundle, .tls_MCSCertKey, .tls_RootCA,
    .tls_ServiceAccountKeyPair, .releaseimage_Image, .rhcos_Image
  ]

/-- The assets that `addParentFiles` adds with mode 0644. -/
def parentAssets0644 : List asset.Asset :=
  [
    .manifests_Manifests
  ]

/-- The assets that `addParentFiles` adds with mode 0600. -/
def parentAssets0600 : List asset.Asset :=
  [
    .kubeconfig_AdminInternalClient, .kubeconfig_Kubelet, .kubeconfig_LoopbackClient,
    .tls_AdminKubeConfigCABundle, .tls_AggregatorCA, .tls_AggregatorCABundle,
    .tls_AggregatorClientCertKey, .tls_AggregatorSignerCertKey, .tls_APIServerProxyCertKey,
    .tls_EtcdCABundle, .tls_EtcdMetricCABundle, .tls_EtcdMetricSignerCertKey,
    .tls_EtcdMetricSignerClientCertKey, .tls_EtcdSignerCertKey, .tls_EtcdSignerClientCertKey,
    .tls_KubeAPIServerLBCABundle, .tls_KubeAPIServerExternalLBServerCertKey,
    .tls_KubeAPIServerInternalLBServerCertKey, .tls_KubeAPIServerLBSignerCertKey,
    .tls_KubeAPIServerLocalhostCABundle, .tls_KubeAPIServerLocalhostServerCertKey,
    .tls_KubeAPIServerLocalhostSignerCertKey, .tls_KubeAPIServerServiceNetworkCABundle,
    .tls_KubeAPIServerServiceNetworkServerCertKey, .tls_KubeAPIServerServiceNetworkSignerCertKey,
    .tls_KubeAPIServerCompleteCABundle, .tls_KubeAPIServerCompleteClientCABundle,
    .tls_KubeAPIServerToKubeletCABundle, .tls_KubeAPIServerToKubeletClientCertKey,
    .tls_KubeAPIServerToKubeletSignerCertKey, .tls_KubeControlPlaneCABundle,
    .tls_KubeControlPlaneKubeControllerManagerClientCertKey,
    .tls_KubeControlPlaneKubeSchedulerClientCertKey, .tls_KubeControlPlaneSignerCertKey,
    .tls_KubeletBootstrapCABundle, .tls_KubeletClientCABundle, .tls_KubeletClientCertKey,
    .tls_KubeletCSRSignerCertKey, .tls_KubeletServingCABundle, .tls_MCSCertKey,
    .tls_ServiceAccountKeyPair, .tls_JournalCertKey
  ]

/-- The set `enabled` of `Generate`. -/
def enabled : List String :=
  ["kubelet.service", "kube-proxy.service", "aiokube.service", "approve-csr.service"]

/-- Go `clusterDNSIP`. -/
def clusterDNSIP (env : ignition.Env) (iprange : String) : Except String String :=
  match env.ParseCIDR iprange with
  | .error err => .error err
  | .ok network =>
    match env.Host network 10 with
    | .error err => .error err
    | .ok ip => .ok (env.IPString ip)

/-- Go `(*AIO).getTemplateData`.  It panics when the control plane or its
replica count is nil, or when the service or cluster network list is
empty. -/
def getTemplateData (env : ignition.Env) (installConfig : types.InstallConfig)
    (releaseImage : String) : Except asset.Failure aioTemplateData :=
  match installConfig.ControlPlane with
  | none => .error .panic
  | some controlPlane =>
    match controlPlane.Replicas with
    | none => .error .panic
    | some replicas =>
      if replicas ≠ 1 then
        .error (.error "All-in-one configurations must use a single control plane replica")
      else if installConfig.Compute.any (fun worker =>
          match worker.Replicas with
          | some n => decide (n ≠ 0)
          | none => false) then
        .error (.error "All-in-one configurations do not support compute replicas")
      else
        match installConfig.ServiceNetwork with
        | [] => .error .panic
        | serviceNetwork :: _ =>
          match clusterDNSIP env (env.IPNetString serviceNetwork) with
          | .error err => .error (.error err)
          | .ok dnsIp =>
            match installConfig.ClusterNetwork with
            | [] => .error .panic
            | clusterNetwork :: _ =>
              .ok { ReleaseImage := releaseImage,
                    ClusterDomain := env.ClusterDomain installConfig,
                    EtcdCluster := "https://etcd-0." ++ env.ClusterDomain installConfig ++ ":2379",
                    ClusterDNSIP := dnsIp,
                    PullSecret := installConfig.PullSecret,
                    ClusterNetwork := env.IPNetString clusterNetwork.CIDR }

/-- Go `(*AIO).Load`. -/
def Load (env : ignition.Env) (a : AIOAsset) (f : asset.FileFetcher) :
    ignition.LoadRun AIOAsset :=
  match f.FetchByName aioIgnFilename with
  | .error err =>
    if err.notExist then { state := a, found := false, err := none, log := [] }
    else { state := a, found := false, err := some (.fetch err), log := [] }
  | .ok file =>
    match env.jsonUnmarshal file.Data with
    | .error err =>
      { state := a, found := false,
        err := some (.unmarshal ("failed to unmarshal " ++ aioIgnFilename ++ ": " ++ err)),
        log := [] }
    | .ok config =>
      { state := { a with File := some file, Config := some config }, found := true,
        err := none, log := [] }

/-- Go `(*AIO).Files`.  The result is a Go slice: `none` is the nil slice and
`some l` a slice that is not nil, with the elements `l`. -/
def Files (a : AIOAsset) : Option (List asset.File) :=
  match a.File with
  | some file => some [file]
  | none => some []

/-- Go `(*AIO).Name`. -/
def Name : String := "All-in-one Ignition Config"

end aio

namespace aio

/-- Go `(*AIO).addParentFiles`, on the config that `a.Config` points to: the
config after the call, the queries made, and the asset on which a query is
fatal, if any. -/
def addParentFiles (env : ignition.Env) (config : igntypes.Config)
    (dependencies : asset.Parents) : igntypes.Config × List asset.Event × Option asset.Asset :=
  let r₁ := ignition.AddParentFiles env config dependencies rootDir "root" 0o644
    parentAssets0644
  match r₁.2.2 with
  | some missing => (r₁.1, r₁.2.1, some missing)
  | none =>
    let r₂ := ignition.AddParentFiles env r₁.1 dependencies rootDir "root" 0o600
      parentAssets0600
    match r₂.2.2 with
    | some missing => (r₂.1, r₁.2.1 ++ r₂.2.1, some missing)
    | none =>
      let g := dependencies.Get [.tls_RootCA]
      match g.2 with
      | some missing => (r₂.1, r₁.2.1 ++ r₂.2.1 ++ g.1, some missing)
      | none =>
        let files := ignition.ReplaceOrAppend r₂.1.Storage.Files
          (ignition.FileFromBytes env (env.Join rootDir dependencies.RootCACertFilename) "root"
            0o644 dependencies.RootCACert)
        ({ r₂.1 with Storage := { Files := files } }, r₁.2.1 ++ r₂.2.1 ++ g.1, none)

/-- Go `(*AIO).Generate`. -/
def Generate (env : ignition.Env) (dependencies : asset.Parents) (a : AIOAsset) :
    asset.Run AIOAsset :=
  let g := dependencies.Get [.installconfig_InstallConfig, .releaseimage_Image]
  match g.2 with
  | some missing => { state := a, outcome := .fatal missing, log := g.1 }
  | none =>
    match getTemplateData env dependencies.InstallConfig dependencies.PullSpec with
    | .error (.error err) =>
      { state := a, outcome := .returned (some ("failed to get aio templates: " ++ err)),
        log := g.1 }
    | .error .panic => { state := a, outcome := .panicked, log := g.1 }
    | .ok templateData =>
      let r := ignition.AddStorageFiles env ignition.freshConfig "/" "aio/files"
        (.aio templateData)
      let log₁ := g.1 ++ [asset.Event.AddStorageFiles "/" "aio/files"]
      match r.2 with
      | some err =>
        { state := { a with Config := some r.1 }, outcome := .returned (some err), log := log₁ }
      | none =>
        let files := ignition.ReplaceOrAppend r.1.Storage.Files
          (ignition.FileFromURL "/usr/local/bin/kubelet" "root" 0o755
            "https://storage.googleapis.com/kubernetes-release/release/v1.20.4/bin/linux/amd64/kubelet")
        let files := ignition.ReplaceOrAppend files
          (ignition.FileFromURL "/usr/local/bin/kubectl" "root" 0o755
            "https://storage.googleapis.com/kubernetes-release/release/v1.20.4/bin/linux/amd64/kubectl")
        let files := ignition.ReplaceOrAppend files
          (ignition.FileFromURL "/usr/local/bin/kube-proxy" "root" 0o755
            "https://storage.googleapis.com/kubernetes-release/release/v1.20.4/bin/linux/amd64/kube-proxy")
        let config : igntypes.Config := { r.1 with Storage := { Files := files } }
        let u := ignition.AddSystemdUnits env config "aio/systemd/units" (.aio templateData)
          enabled
        let log₂ := log₁ ++ [asset.Event.AddSystemdUnits "aio/systemd/units"]
        match u.2 with
        | some err =>
          { state := { a with Config := some u.1 }, outcome := .returned (some err),
            log := log₂ }
        | none =>
          let p := addParentFiles env u.1 dependencies
          let log₃ := log₂ ++ p.2.1
          match p.2.2 with
          | some missing =>
            { state := { a with Config := some p.1 }, outcome := .fatal missing, log := log₃ }
          | none =>
            let users := p.1.Passwd.Users ++
              [{ Name := "core", SSHAuthorizedKeys := [dependencies.InstallConfig.SSHKey] }]
            let config : igntypes.Config := { p.1 with Passwd := { Users := users } }
            match env.jsonMarshal config with
            | .error err =>
              { state := { a with Config := some config },
                outcome := .returned (some ("failed to Marshal Ignition config: " ++ err)),
                log := log₃ }
            | .ok data =>
              { state := { Config := some config,
                           File := some { Filename := aioIgnFilename, Data := data } },
                outcome := .returned none, log := log₃ }

end aio

namespace bootstrap

/-- The part of Go `(*Bootstrap).Generate` after the template files and
units: the loop over writable assets, `AddParentFiles`, the root CA, the
`core` user, the serialization and the assignment of `a.File`.  `config` is
the config that `a.Config` points to and `log` the steps made so far. -/
def generateTail (env : ignition.Env) (dependencies : asset.Parents) (a : Bootstrap)
    (config : igntypes.Config) (log : List asset.Event) : asset.Run Bootstrap :=
  let r₁ := ignition.AddParentFiles env config dependencies rootDir "root" 0o644 loopAssets
  let log₁ := log ++ r₁.2.1
  match r₁.2.2 with
  | some missing =>
    { state := { a with Config := some r₁.1 }, outcome := .fatal missing, log := log₁ }
  | none =>
    let r₂ := ignition.AddParentFiles env r₁.1 dependencies "/" "root" 0o600 parentAssets
    let log₂ := log₁ ++ r₂.2.1
    match r₂.2.2 with
    | some missing =>
      { state := { a with Config := some r₂.1 }, outcome := .fatal missing, log := log₂ }
    | none =>
      let g := dependencies.Get [.tls_RootCA]
      let log₃ := log₂ ++ g.1
      match g.2 with
      | some missing =>
        { state := { a with Config := some r₂.1 }, outcome := .fatal missing, log := log₃ }
      | none =>
        let files := ignition.ReplaceOrAppend r₂.1.Storage.Files
          (ignition.FileFromBytes env (env.Join rootDir dependencies.RootCACertFilename) "root"
            0o644 dependencies.RootCACert)
        let users := r₂.1.Passwd.Users ++
          [{ Name := "core",
             SSHAuthorizedKeys := [dependencies.InstallConfig.SSHKey,
               dependencies.BootstrapSSHPublicKey] }]
        let config₁ : igntypes.Config :=
          { r₂.1 with Storage := { Files := files }, Passwd := { Users := users } }
        match env.ignitionMarshal config₁ with
        | .error err =>
          { state := { a with Config := some config₁ },
            outcome := .returned (some ("failed to Marshal Ignition config: " ++ err)),
            log := log₃ }
        | .ok data =>
          { state := { a with Config := some config₁,
                              File := some { Filename := bootstrapIgnFilename, Data := data } },
            outcome := .returned none, log := log₃ }

/-- The part of Go `(*Bootstrap).Generate` that checks for the optional
platform-specific unit directory, followed by `generateTail`. -/
def generatePlatformUnits (env : ignition.Env) (dependencies : asset.Parents) (a : Bootstrap)
    (templateData : bootstrapTemplateData) (platform : String) (config : igntypes.Config)
    (log : List asset.Event) : asset.Run Bootstrap :=
  let platformUnitPath := "bootstrap/" ++ platform ++ "/systemd/units"
  let log₁ := log ++ [asset.Event.Open platformUnitPath]
  if env.Open platformUnitPath then
    let u := ignition.AddSystemdUnits env config platformUnitPath (.bootstrap templateData)
      enabled
    let log₂ := log₁ ++ [asset.Event.AddSystemdUnits platformUnitPath]
    match u.2 with
    | some err =>
      { state := { a with Config := some u.1 }, outcome := .returned (some err), log := log₂ }
    | none => generateTail env dependencies a u.1 log₂
  else generateTail env dependencies a config log₁

/-- The part of Go `(*Bootstrap).Generate` that checks for the optional
platform-specific file directory, followed by `generatePlatformUnits`. -/
def generatePlatformFiles (env : ignition.Env) (dependencies : asset.Parents) (a : Bootstrap)
    (templateData : bootstrapTemplateData) (config : igntypes.Config)
    (log : List asset.Event) : asset.Run Bootstrap :=
  let platform := env.PlatformName dependencies.InstallConfig.Platform
  let platformFilePath := "bootstrap/" ++ platform ++ "/files"
  let log₁ := log ++ [asset.Event.Open platformFilePath]
  if env.Open platformFilePath then
    let r := ignition.AddStorageFiles env config "/" platformFilePath (.bootstrap templateData)
    let log₂ := log₁ ++ [asset.Event.AddStorageFiles "/" platformFilePath]
    match r.2 with
    | some err =>
      { state := { a with Config := some r.1 }, outcome := .returned (some err), log := log₂ }
    | none => generatePlatformUnits env dependencies a templateData platform r.1 log₂
  else generatePlatformUnits env dependencies a templateData platform config log₁

/-- Go `(*Bootstrap).Generate`. -/
def Generate (env : ignition.Env) (dependencies : asset.Parents) (a : Bootstrap) :
    asset.Run Bootstrap :=
  let g := dependencies.Get [.installconfig_InstallConfig, .manifests_Proxy,
    .releaseimage_Image, .rhcos_Image, .tls_BootstrapSSHKeyPair, .baremetal_IronicCreds]
  match g.2 with
  | some missing => { state := a, outcome := .fatal missing, log := g.1 }
  | none =>
    match getTemplateData a env dependencies.InstallConfig dependencies.PullSpec
        dependencies.InstallConfig.ImageContentSources dependencies.ProxyStatus
        dependencies.RhcosImage dependencies.IronicUsername dependencies.IronicPassword with
    | .error (.error err) =>
      { state := a, outcome := .returned (some ("failed to get bootstrap templates: " ++ err)),
        log := g.1 }
    | .error .panic => { state := a, outcome := .panicked, log := g.1 }
    | .ok templateData =>
      let r := ignition.AddStorageFiles env ignition.freshConfig "/" "bootstrap/files"
        (.bootstrap templateData)
      let log₁ := g.1 ++ [asset.Event.AddStorageFiles "/" "bootstrap/files"]
      match r.2 with
      | some err =>
        { state := { a with Config := some r.1 }, outcome := .returned (some err), log := log₁ }
      | none =>
        let u := ignition.AddSystemdUnits env r.1 "bootstrap/systemd/units"
          (.bootstrap templateData) enabled
        let log₂ := log₁ ++ [asset.Event.AddSystemdUnits "bootstrap/systemd/units"]
        match u.2 with
        | some err =>
          { state := { a with Config := some u.1 }, outcome := .returned (some err),
            log := log₂ }
        | none => generatePlatformFiles env dependencies a templateData u.1 log₂

end bootstrap

/-! ## A concrete environment and parents store, for evaluating the ignition
assets -/

namespace sample

/-- Wire form of a string: its length, then the code points. -/
def putString (s : String) : List Nat :=
  s.length :: s.toList.map Char.toNat

/-- Wire form of an optional string. -/
def putOptString : Option String → List Nat
  | none => [0]
  | some s => 1 :: putString s

/-- Wire form of an optional number. -/
def putOptNat : Option Nat → List Nat
  | none => [0]
  | some n => [1, n]

/-- Wire form of an optional flag. -/
def putOptBool : Option Bool → List Nat
  | none => [0]
  | some false => [1, 0]
  | some true => [1, 1]

/-- Wire form of a list: its length, then the wire forms of its elements. -/
def putList {α : Type} (put : α → List Nat) (l : List α) : List Nat :=
  l.length :: (l.map put).flatten

/-- Wire form of an Ignition file. -/
def putFile (f : igntypes.File) : List Nat :=
  putString f.Path ++ putOptString f.User ++ putOptNat f.Mode ++ putOptString f.Source
    ++ putOptBool f.Overwrite

/-- Wire form of a unit. -/
def putUnit (u : igntypes.Unit) : List Nat :=
  putString u.Name ++ putOptBool u.Enabled ++ putOptString u.Contents

/-- Wire form of a user. -/
def putUser (u : igntypes.PasswdUser) : List Nat :=
  putString u.Name ++ putList putString u.SSHAuthorizedKeys

/-- A serializer for Ignition configs that stands in for `json.Marshal`. -/
def marshal (config : igntypes.Config) : Except String (List Nat) :=
  .ok (putString config.Ignition.Version ++ putList putUser config.Passwd.Users
    ++ putList putFile config.Storage.Files ++ putList putUnit config.Systemd.Units)

/-- Reads a string from the wire. -/
def getString : List Nat → Option (String × List Nat)
  | [] => none
  | n :: rest =>
    if rest.length < n then none
    else some (String.mk ((rest.take n).map Char.ofNat), rest.drop n)

/-- Reads an optional string from the wire. -/
def getOptString : List Nat → Option (Option String × List Nat)
  | 0 :: rest => some (none, rest)
  | 1 :: rest =>
    match getString rest with
    | some (s, rest₁) => some (some s, rest₁)
    | none => none
  | _ => none

/-- Reads an optional number from the wire. -/
def getOptNat : List Nat → Option (Option Nat × List Nat)
  | 0 :: rest => some (none, rest)
  | 1 :: n :: rest => some (some n, rest)
  | _ => none

/-- Reads an optional flag from the wire. -/
def getOptBool : List Nat → Option (Option Bool × List Nat)
  | 0 :: rest => some (none, rest)
  | 1 :: 0 :: rest => some (some false, rest)
  | 1 :: 1 :: rest => some (some true, rest)
  | _ => none

/-- Reads `n` elements from the wire. -/
def getMany {α : Type} (get : List Nat → Option (α × List Nat)) :
    Nat → List Nat → Option (List α × List Nat)
  | 0, data => some ([], data)
  | n + 1, data =>
    match get data with
    | none => none
    | some (x, rest) =>
      match getMany get n rest with
      | none => none
      | some (xs, rest₁) => some (x :: xs, rest₁)

/-- Reads a list from the wire. -/
def getList {α : Type} (get : List Nat → Option (α × List Nat)) :
    List Nat → Option (List α × List Nat)
  | [] => none
  | n :: rest => getMany get n rest

/-- Reads an Ignition file from the wire. -/
def getFile (data : List Nat) : Option (igntypes.File × List Nat) :=
  match getString data with
  | none => none
  | some (path, d₁) =>
    match getOptString d₁ with
    | none => none
    | some (user, d₂) =>
      match getOptNat d₂ with
      | none => none
      | some (mode, d₃) =>
        match getOptString d₃ with
        | none => none
        | some (source, d₄) =>
          match getOptBool d₄ with
          | none => none
          | some (overwrite, d₅) =>
            some ({ Path := path, User := user, Mode := mode, Source := source,
                    Overwrite := overwrite }, d₅)

/-- Reads a unit from the wire. -/
def getUnit (data : List Nat) : Option (igntypes.Unit × List Nat) :=
  match getString data with
  | none => none
  | some (name, d₁) =>
    match getOptBool d₁ with
    | none => none
    | some (enabled, d₂) =>
      match getOptString d₂ with
      | none => none
      | some (contents, d₃) =>
        some ({ Name := name, Enabled := enabled, Contents := contents }, d₃)

/-- Reads a user from the wire. -/
def getUser (data : List Nat) : Option (igntypes.PasswdUser × List Nat) :=
  match getString data with
  | none => none
  | some (name, d₁) =>
    match getList getString d₁ with
    | none => none
    | some (keys, d₂) => some ({ Name := name, SSHAuthorizedKeys := keys }, d₂)

/-- The deserializer of `marshal`, standing in for `json.Unmarshal`; input
that is not a wire form is an error. -/
def unmarshal (data : List Nat) : Except String igntypes.Config :=
  match getString data with
  | none => .error "unexpected end of JSON input"
  | some (version, d₁) =>
    match getList getUser d₁ with
    | none => .error "unexpected end of JSON input"
    | some (users, d₂) =>
      match getList getFile d₂ with
      | none => .error "unexpected end of JSON input"
      | some (files, d₃) =>
        match getList getUnit d₃ with
        | some (units, []) =>
          .ok { Ignition := { Version := version }, Passwd := { Users := users },
                Storage := { Files := files }, Systemd := { Units := units } }
        | _ => .error "invalid character after top-level value"

/-- A stand-in for `filepath.Join` on a clean directory and a relative
name. -/
def join (dir : String) (name : String) : String :=
  if dir = "/" then "/" ++ name else dir ++ "/" ++ name

/-- A stand-in for `pem.Decode`: every byte is a block. -/
def pemDecode : List Nat → Option (List Nat × List Nat)
  | [] => none
  | n :: rest => some ([n], rest)

/-- The environment used for evaluation.  Every template directory renders
one file and one unit; no optional directory can be opened; the network
functions are stand-ins returning the addresses of one fixed network. -/
def env : ignition.Env :=
  { Join := join,
    Ext := fun p => if p.toList.reverse.take 4 = ".crt".toList.reverse then ".crt" else "",
    Base := fun p => String.mk (p.toList.reverse.takeWhile (fun c => c ≠ '/')).reverse,
    EncodeBytes := fun data => "data:," ++ String.mk (data.map Char.ofNat),
    DecodeString := fun s =>
      if s.toList.take 6 = "data:,".toList then .ok ((s.toList.drop 6).map Char.toNat)
      else .error "not a data URL",
    pemDecode := pemDecode,
    pemDecode_rest := by
      intro data block rest h
      cases data with
      | nil => simp [pemDecode] at h
      | cons n tl =>
        simp only [pemDecode, Option.some.injEq, Prod.mk.injEq] at h
        rw [← h.2]
        simp,
    ParseCertificate := fun block =>
      match block with
      | [n] => if n = 255 then .error "malformed certificate" else .ok (Int.ofNat n)
      | _ => .error "malformed certificate",
    Now := 100,
    Getenv := fun _ => "",
    Open := fun _ => false,
    templateFiles := fun _ uri _ =>
      ([{ Path := "/etc/" ++ uri, User := some "root", Mode := some 0o644,
          Source := some "data:,rendered" }], none),
    templateUnits := fun _ _ => ([("kubelet.service", "[Unit]")], none),
    jsonMarshal := marshal,
    jsonUnmarshal := unmarshal,
    ignitionMarshal := marshal,
    ParseCIDR := fun _ => .ok { IP := [172, 30, 0, 0], Mask := [255, 255, 0, 0] },
    Host := fun _ _ => .ok [172, 30, 0, 10],
    IPString := fun _ => "172.30.0.10",
    IPNetString := fun _ => "172.30.0.0/16",
    ClusterDomain := fun _ => "test.example.com",
    PlatformName := fun _ => "kubevirt",
    baremetalName := "baremetal",
    vsphereName := "vsphere",
    mergedMirrorSets := fun l => l,
    baremetalGetTemplateData := fun _ _ _ => "",
    vsphereGetTemplateData := fun _ => "" }

/-- The environment `env` with a renderer that fails on every template
directory before it emits a file. -/
def failingEnv : ignition.Env :=
  { env with templateFiles := fun _ _ _ => ([], some "template: parse error") }

/-- An install config for one control-plane replica and no compute replica. -/
def singleNodeConfig : types.InstallConfig :=
  { validInstallConfig with
    ControlPlane := some { Replicas := some 1 },
    Compute := [{ Replicas := some 0 }],
    ServiceNetwork := [{ IP := [172, 30, 0, 0], Mask := [255, 255, 0, 0] }],
    ClusterNetwork := [{ CIDR := { IP := [10, 128, 0, 0], Mask := [255, 252, 0, 0] } }],
    SSHKey := "ssh-rsa AAAA" }

/-- A parents store that holds every asset; the manifests asset has one
output file, the other assets none. -/
def parents : asset.Parents :=
  { has := fun _ => true,
    InstallConfig := singleNodeConfig,
    PullSpec := "quay.io/release:latest",
    ProxyStatus := "",
    RhcosImage := "rhcos",
    BootstrapSSHPublicKey := "ssh-rsa BBBB",
    IronicUsername := "",
    IronicPassword := "",
    Files := fun a =>
      if a = .manifests_Manifests then [{ Filename := "manifests/cluster.yaml", Data := [97] }]
      else [],
    RootCACertFilename := "tls/root-ca.crt",
    RootCACert := [99] }

/-- The store `parents` with three control-plane replicas. -/
def threeReplicaParents : asset.Parents :=
  { parents with InstallConfig := { singleNodeConfig with
      ControlPlane := some { Replicas := some 3 } } }

/-- The store that holds exactly the assets of `Bootstrap.Dependencies`. -/
def declaredBootstrapParents : asset.Parents :=
  { parents with has := fun a => decide (a ∈ bootstrap.Dependencies) }

/-- The store that holds exactly the assets of `AIO.Dependencies`. -/
def declaredAIOParents : asset.Parents :=
  { parents with has := fun a => decide (a ∈ aio.Dependencies) }

/-- A bootstrap asset that was neither generated nor loaded. -/
def freshBootstrap : bootstrap.Bootstrap :=
  { Config := none, File := none, bootstrapInPlace := false }

/-- An all-in-one asset that was neither generated nor loaded. -/
def freshAIO : aio.AIOAsset :=
  { Config := none, File := none }

end sample

namespace sample

/-- A fetcher that finds no file: every fetch fails with a not-exist error. -/
def emptyFetcher : asset.FileFetcher :=
  { FetchByName := fun _ => .error { text := "file does not exist", notExist := true } }

/-- A fetcher that serves an artifact without bytes under every name. -/
def corruptFetcher : asset.FileFetcher :=
  { FetchByName := fun name => .ok { Filename := name, Data := [] } }

/-- The fetcher that serves the given files by name and fails with a
not-exist error on every other name. -/
def fetcherOf (files : List asset.File) : asset.FileFetcher :=
  { FetchByName := fun name =>
      match files.find? (fun file => file.Filename = name) with
      | some file => .ok file
      | none => .error { text := "file does not exist", notExist := true } }

end sample

namespace sample

/-- A config whose only file is a certificate that expired at instant 1
(`env.Now` is 100). -/
def expiredCertConfig : igntypes.Config :=
  { ignition.freshConfig with Storage := { Files :=
      [ignition.FileFromBytes env "/opt/openshift/tls/root-ca.crt" "root" 0o644 [1]] } }

/-- A config whose only file is a certificate file with a source that is not
a data URL. -/
def undecodableCertConfig : igntypes.Config :=
  { ignition.freshConfig with Storage := { Files :=
      [ignition.FileFromURL "/opt/openshift/tls/root-ca.crt" "root" 0o644 "bogus"] } }

/-- The artifact `bootstrap.ign` that holds the wire form of the fresh config. -/
def freshArtifact : asset.File :=
  { Filename := "bootstrap.ign", Data := [5, 51, 46, 49, 46, 48, 0, 0, 0] }

end sample

/-! ## `pkg/asset/installconfig/networking.go` -/

namespace installconfig

/-- Go struct `networking`. -/
structure networking where
  machineNetwork : List types.MachineNetworkEntry
deriving DecidableEq, Repr

/-- What `networking.Generate` calls outside the sources: the interactive
prompt, the CIDR parser and the name of the kubevirt platform. -/
structure Prompt where
  /-- Go `survey.Ask` on the question `Machine Network CIDR`: the text that the
  user enters, or an error. -/
  Ask : Except String String
  /-- Go `ipnet.MustParseCIDR`, which panics on text that is not a CIDR
  (`none`). -/
  MustParseCIDR : String → Option net.IPNet
  /-- The constant `kubevirt.Name`. -/
  kubevirtName : String

/-- Go `selectMachineNetworkCIDR`. -/
def selectMachineNetworkCIDR (p : Prompt) : Except String String :=
  p.Ask

/-- Go `(*networking).Dependencies`. -/
def networking.Dependencies : List asset.Asset :=
  [.installconfig_platform]

/-- Go `(*networking).Generate`. -/
def networking.Generate (p : Prompt) (parents : asset.Parents) (a : networking) :
    asset.Run networking :=
  let g := parents.Get [.installconfig_platform]
  match g.2 with
  | some missing => { state := a, outcome := .fatal missing, log := g.1 }
  | none =>
    if parents.PlatformCurrentName = p.kubevirtName then
      match selectMachineNetworkCIDR p with
      | .error err => { state := a, outcome := .returned (some err), log := g.1 }
      | .ok cidr =>
        match p.MustParseCIDR cidr with
        | none => { state := a, outcome := .panicked, log := g.1 }
        | some network =>
          { state := { machineNetwork := [{ CIDR := network }] }, outcome := .returned none,
            log := g.1 }
    else { state := a, outcome := .returned none, log := g.1 }

/-- Go `(*networking).Name`. -/
def networking.Name : String := "Networking"

end installconfig

namespace sample

/-- A prompt at which the user enters `10.0.0.0/16`. -/
def prompt : installconfig.Prompt :=
  { Ask := .ok "10.0.0.0/16",
    MustParseCIDR := fun s =>
      if s = "10.0.0.0/16" then some { IP := [10, 0, 0, 0], Mask := [255, 255, 0, 0] }
      else none,
    kubevirtName := "kubevirt" }

/-- The store that holds exactly the assets of `networking.Dependencies`, with
the kubevirt platform selected. -/
def declaredNetworkingParents : asset.Parents :=
  { parents with
    has := fun a => decide (a ∈ installconfig.networking.Dependencies),
    PlatformCurrentName := "kubevirt" }

/-- The store that holds no asset. -/
def emptyParents : asset.Parents :=
  { parents with has := fun _ => false }

/-- A networking asset before generation. -/
def freshNetworking : installconfig.networking :=
  { machineNetwork := [] }

end sample

namespace bootstrap

/-- The local variable `platformFilePath` of `Generate`, the value of
`fmt.Sprintf("bootstrap/%s/files", platform)`. -/
def platformFilePath (platform : String) : String :=
  "bootstrap/" ++ platform ++ "/files"

/-- The local variable `platformUnitPath` of `Generate`, the value of
`fmt.Sprintf("bootstrap/%s/systemd/units", platform)`. -/
def platformUnitPath (platform : String) : String :=
  "bootstrap/" ++ platform ++ "/systemd/units"

end bootstrap

namespace sample

/-- The environment `env` in which every optional directory can be opened and
the renderer fails on the platform-specific file directory of kubevirt. -/
def failingPlatformEnv : ignition.Env :=
  { env with
    Open := fun _ => true,
    templateFiles := fun base uri data =>
      if uri = "bootstrap/kubevirt/files" then ([], some "template: parse error")
      else env.templateFiles base uri data }

/-- The environment `env` in which every optional directory can be opened and
the renderer fails on the platform-specific unit directory of kubevirt. -/
def failingPlatformUnitsEnv : ignition.Env :=
  { env with
    Open := fun _ => true,
    templateUnits := fun uri data =>
      if uri = "bootstrap/kubevirt/systemd/units" then ([], some "template: parse error")
      else env.templateUnits uri data }

end sample

/-! ## `pkg/destroy/kubevirt/destroyer.go` -/

namespace destroy.kubevirt

/-- A Go `map[string]string` of labels, as its entries. -/
abbrev Labels := List (String × String)

/-- The part of the Go interface `ickubevirt.Client` that the uninstaller
calls.  The infra cluster is a state of type `σ`: every call reads the state
and returns the state after it, so that the answer to a call may depend on
the calls made before.  A list call returns the names or an error, a delete
call returns its error (`none` is `nil`). -/
structure Client (σ : Type) where
  ListVirtualMachineNames : σ → String → Labels → Except String (List String) × σ
  DeleteVirtualMachine : σ → String → String → Bool → Option String × σ
  ListDataVolumeNames : σ → String → Labels → Except String (List String) × σ
  DeleteDataVolume : σ → String → String → Bool → Option String × σ
  ListSecretNames : σ → String → Labels → Except String (List String) × σ
  DeleteSecret : σ → String → String → Bool → Option String × σ

/-- A call made by the uninstaller, with its arguments. -/
inductive Call
  | NewClient
  | ListVirtualMachineNames (ns : String) (labels : Labels)
  | DeleteVirtualMachine (ns : String) (name : String) (force : Bool)
  | ListDataVolumeNames (ns : String) (labels : Labels)
  | DeleteDataVolume (ns : String) (name : String) (force : Bool)
  | ListSecretNames (ns : String) (labels : Labels)
  | DeleteSecret (ns : String) (name : String) (force : Bool)
deriving DecidableEq, Repr

/-- A call that was made and the error it returned (`none` is `nil`). -/
structure Step where
  call : Call
  err : Option String
deriving DecidableEq, Repr

/-- What a function of the uninstaller leaves: the error it returns, the calls
it made, in order, and the infra cluster after them. -/
structure Trace (σ : Type) where
  err : Option String
  log : List Step
  cluster : σ

/-- Go `ClusterUninstaller`, restricted to the namespace and the labels of
`Metadata.Kubevirt`, taken to be present.  The logger only writes messages and
is left out. -/
structure ClusterUninstaller where
  Namespace : String
  Labels : Labels
deriving DecidableEq, Repr

/-- The `for` loop of `deleteAllVMs`, `deleteAllDVs` and `deleteAllSecrets`
over the listed names, for the delete operation `delete` whose call is
recorded as `mk`. -/
def deleteLoop {σ : Type} (delete : σ → String → String → Bool → Option String × σ)
    (mk : String → String → Bool → Call) (ns : String) : List String → σ → Trace σ
  | [], s => { err := none, log := [], cluster := s }
  | name :: rest, s =>
    match delete s ns name true with
    | (some err, s₁) => { err := some err, log := [⟨mk ns name true, some err⟩], cluster := s₁ }
    | (none, s₁) =>
      let r := deleteLoop delete mk ns rest s₁
      { err := r.err, log := ⟨mk ns name true, none⟩ :: r.log, cluster := r.cluster }

/-- The common body of `deleteAllVMs`, `deleteAllDVs` and `deleteAllSecrets`:
the list call, then the loop over the names it returned. -/
def deleteAll {σ : Type} (list : σ → String → Labels → Except String (List String) × σ)
    (delete : σ → String → String → Bool → Option String × σ)
    (mkList : String → Labels → Call) (mkDelete : String → String → Bool → Call)
    (ns : String) (labels : Labels) (s : σ) : Trace σ :=
  match list s ns labels with
  | (.error err, s₁) => { err := some err, log := [⟨mkList ns labels, some err⟩], cluster := s₁ }
  | (.ok names, s₁) =>
    let r := deleteLoop delete mkDelete ns names s₁
    { err := r.err, log := ⟨mkList ns labels, none⟩ :: r.log, cluster := r.cluster }

/-- Go `(*ClusterUninstaller).deleteAllVMs`. -/
def deleteAllVMs {σ : Type} (kubevirtClient : Client σ) (ns : String) (labels : Labels)
    (s : σ) : Trace σ :=
  deleteAll kubevirtClient.ListVirtualMachineNames kubevirtClient.DeleteVirtualMachine
    Call.ListVirtualMachineNames Call.DeleteVirtualMachine ns labels s

/-- Go `(*ClusterUninstaller).deleteAllDVs`. -/
def deleteAllDVs {σ : Type} (kubevirtClient : Client σ) (ns : String) (labels : Labels)
    (s : σ) : Trace σ :=
  deleteAll kubevirtClient.ListDataVolumeNames kubevirtClient.DeleteDataVolume
    Call.ListDataVolumeNames Call.DeleteDataVolume ns labels s

/-- Go `(*ClusterUninstaller).deleteAllSecrets`. -/
def deleteAllSecrets {σ : Type} (kubevirtClient : Client σ) (ns : String) (labels : Labels)
    (s : σ) : Trace σ :=
  deleteAll kubevirtClient.ListSecretNames kubevirtClient.DeleteSecret
    Call.ListSecretNames Call.DeleteSecret ns labels s

/-- Go `(*ClusterUninstaller).Run`; `newClient` is the result of
`ickubevirt.NewClient()` and `s` the infra cluster before the run. -/
def Run {σ : Type} (newClient : Except String (Client σ)) (uninstaller : ClusterUninstaller)
    (s : σ) : Trace σ :=
  match newClient with
  | .error err => { err := some err, log := [⟨Call.NewClient, some err⟩], cluster := s }
  | .ok kubevirtClient =>
    let r₁ := deleteAllVMs kubevirtClient uninstaller.Namespace uninstaller.Labels s
    match r₁.err with
    | some err =>
      { err := some err, log := ⟨Call.NewClient, none⟩ :: r₁.log, cluster := r₁.cluster }
    | none =>
      let r₂ := deleteAllDVs kubevirtClient uninstaller.Namespace uninstaller.Labels r₁.cluster
      match r₂.err with
      | some err =>
        { err := some err, log := ⟨Call.NewClient, none⟩ :: (r₁.log ++ r₂.log),
          cluster := r₂.cluster }
      | none =>
        let r₃ := deleteAllSecrets kubevirtClient uninstaller.Namespace uninstaller.Labels
          r₂.cluster
        match r₃.err with
        | some err =>
          { err := some err, log := ⟨Call.NewClient, none⟩ :: (r₁.log ++ r₂.log ++ r₃.log),
            cluster := r₃.cluster }
        | none =>
          { err := none, log := ⟨Call.NewClient, none⟩ :: (r₁.log ++ r₂.log ++ r₃.log),
            cluster := r₃.cluster }

/-- The names that a list call returned; no name when it failed. -/
def listed {σ : Type} (r : Except String (List String) × σ) : List String :=
  match r.1 with
  | .ok names => names
  | .error _ => []

/-- The calls of one kind in a complete run: the list call, then one delete
call per name, in the order of the list, with the namespace and the flag
`true`. -/
def planKind (mkList : String → Labels → Call) (mkDelete : String → String → Bool → Call)
    (ns : String) (labels : Labels) (names : List String) : List Call :=
  mkList ns labels :: names.map fun name => mkDelete ns name true

/-- The calls of a complete run in the order that the specification fixes: the
client is built, then virtual machines, then data volumes, then secrets. -/
def plan (ns : String) (labels : Labels) (vms dvs secrets : List String) : List Call :=
  Call.NewClient
    :: (planKind Call.ListVirtualMachineNames Call.DeleteVirtualMachine ns labels vms
      ++ planKind Call.ListDataVolumeNames Call.DeleteDataVolume ns labels dvs
      ++ planKind Call.ListSecretNames Call.DeleteSecret ns labels secrets)

/-- Every call before the last succeeded, and the error returned is the error
of the last call: either no call failed and the error is nil, or the last
call of the log is the only one that failed and its error is returned. -/
def Trace.StopsAtFirstFailure {σ : Type} (t : Trace σ) : Prop :=
  (t.err = none ∧ ∀ st ∈ t.log, st.err = none)
  ∨ ∃ pre call err, t.err = some err ∧ t.log = pre ++ [⟨call, some err⟩]
      ∧ ∀ st ∈ pre, st.err = none

/-- The error of a list call (`none` is `nil`). -/
def listErr (r : Except String (List String)) : Option String :=
  match r with
  | .ok _ => none
  | .error err => some err

/-- The answer of the client to a call on the cluster `s`: the error that the
call returns and the cluster after the call.  The call that builds the client
stands for a client that was built: it returns nil and leaves the cluster as
it is. -/
def answer {σ : Type} (c : Client σ) (s : σ) : Call → Option String × σ
  | .NewClient => (none, s)
  | .ListVirtualMachineNames ns labels =>
    (listErr (c.ListVirtualMachineNames s ns labels).1,
      (c.ListVirtualMachineNames s ns labels).2)
  | .DeleteVirtualMachine ns name force => c.DeleteVirtualMachine s ns name force
  | .ListDataVolumeNames ns labels =>
    (listErr (c.ListDataVolumeNames s ns labels).1, (c.ListDataVolumeNames s ns labels).2)
  | .DeleteDataVolume ns name force => c.DeleteDataVolume s ns name force
  | .ListSecretNames ns labels =>
    (listErr (c.ListSecretNames s ns labels).1, (c.ListSecretNames s ns labels).2)
  | .DeleteSecret ns name force => c.DeleteSecret s ns name force

/-- The cluster after the client has answered the calls of a list, in order. -/
def replayState {σ : Type} (c : Client σ) : σ → List Call → σ
  | s, [] => s
  | s, call :: rest => replayState c (answer c s call).2 rest

/-- The steps made when the client answers every call of a list, in order,
whatever it answers: each call with the error that the client returns on the
cluster as the calls before it left it. -/
def replaySteps {σ : Type} (c : Client σ) : σ → List Call → List Step
  | _, [] => []
  | s, call :: rest => ⟨call, (answer c s call).1⟩ :: replaySteps c (answer c s call).2 rest

/-- The calls for the virtual machines in a complete run that reaches them on
the cluster `s`: the list call, then one delete call per name that the client
lists on `s`. -/
def planVMs {σ : Type} (c : Client σ) (ns : String) (labels : Labels) (s : σ) : List Call :=
  planKind Call.ListVirtualMachineNames Call.DeleteVirtualMachine ns labels
    (listed (c.ListVirtualMachineNames s ns labels))

/-- The calls for the data volumes in a complete run that reaches them on the
cluster `s`. -/
def planDVs {σ : Type} (c : Client σ) (ns : String) (labels : Labels) (s : σ) : List Call :=
  planKind Call.ListDataVolumeNames Call.DeleteDataVolume ns labels
    (listed (c.ListDataVolumeNames s ns labels))

/-- The calls for the secrets in a complete run that reaches them on the
cluster `s`. -/
def planSecrets {σ : Type} (c : Client σ) (ns : String) (labels : Labels) (s : σ) :
    List Call :=
  planKind Call.ListSecretNames Call.DeleteSecret ns labels
    (listed (c.ListSecretNames s ns labels))

/-- The calls of a complete run of the uninstaller with the client `c` on the
cluster `s`, as the specification fixes them: the client is built; the virtual
machines are listed and each listed one is deleted, in order; then the same
for the data volumes, listed on the cluster as the calls before left it; then
the same for the secrets. -/
def fullPlan {σ : Type} (c : Client σ) (ns : String) (labels : Labels) (s : σ) : List Call :=
  Call.NewClient
    :: (planVMs c ns labels s
      ++ planDVs c ns labels (replayState c s (planVMs c ns labels s))
      ++ planSecrets c ns labels
          (replayState c (replayState c s (planVMs c ns labels s))
            (planDVs c ns labels (replayState c s (planVMs c ns labels s)))))

/-- A result (error, log, cluster) is the run of the calls of a plan on the
cluster `s` up to the first call that fails: the log is an initial part of
the steps that the client answers to the plan; only its last step may have
failed, and then its error is the error returned; when the error is nil the
log is the whole of those steps; and the cluster is the one that the calls of
the log leave. -/
def Follows {σ : Type} (c : Client σ) (s : σ) (calls : List Call) (err : Option String)
    (log : List Step) (cluster : σ) : Prop :=
  log <+: replaySteps c s calls
  ∧ Trace.StopsAtFirstFailure ⟨err, log, cluster⟩
  ∧ (err = none → log = replaySteps c s calls)
  ∧ cluster = replayState c s (log.map Step.call)

end destroy.kubevirt

namespace sample

/-- An infra cluster: the names of its virtual machines, data volumes and
secrets. -/
structure Cluster where
  vms : List String
  dvs : List String
  secrets : List String
deriving DecidableEq, Repr

/-- A client on which every call succeeds; a delete removes the name, and the
deletion of a virtual machine removes the data volume of the same name. -/
def clusterClient : destroy.kubevirt.Client Cluster :=
  { ListVirtualMachineNames := fun s _ _ => (.ok s.vms, s),
    DeleteVirtualMachine := fun s _ name _ =>
      (none, { s with vms := s.vms.filter (fun n => n ≠ name),
                      dvs := s.dvs.filter (fun n => n ≠ name) }),
    ListDataVolumeNames := fun s _ _ => (.ok s.dvs, s),
    DeleteDataVolume := fun s _ name _ =>
      (none, { s with dvs := s.dvs.filter (fun n => n ≠ name) }),
    ListSecretNames := fun s _ _ => (.ok s.secrets, s),
    DeleteSecret := fun s _ name _ =>
      (none, { s with secrets := s.secrets.filter (fun n => n ≠ name) }) }

/-- The client `clusterClient`, except that the deletion of the data volume
`disk-b` fails. -/
def failingClusterClient : destroy.kubevirt.Client Cluster :=
  { clusterClient with
    DeleteDataVolume := fun s ns name force =>
      if name = "disk-b" then (some "forbidden", s)
      else clusterClient.DeleteDataVolume s ns name force }

/-- An infra cluster with two virtual machines, three data volumes and one
secret. -/
def cluster : Cluster :=
  { vms := ["master-0", "worker-0"], dvs := ["master-0", "disk-a", "disk-b"],
    secrets := ["ignition"] }

/-- An uninstaller for the namespace `tenant`. -/
def uninstaller : destroy.kubevirt.ClusterUninstaller :=
  { Namespace := "tenant", Labels := [("tenantcluster-test-machine.openshift.io", "owned")] }

end sample

namespace bootstrap

/-- The etcd endpoint number `i` of the cluster domain `d`, the text of
`fmt.Sprintf("https://etcd-%d.%s:2379", i, d)`. -/
def etcdEndpoint (i : Nat) (d : String) : String :=
  "https://etcd-" ++ toString i ++ "." ++ d ++ ":2379"

/-- The etcd cluster string as the specification words it: the endpoints
number `0` to `n - 1` of the domain, in increasing order, with one comma
between two endpoints; the empty string when `n` is `0`. -/
def etcdClusterSpec : Nat → String → String
  | 0, _ => ""
  | 1, d => etcdEndpoint 0 d
  | n + 2, d => etcdClusterSpec (n + 1) d ++ "," ++ etcdEndpoint (n + 1) d

end bootstrap

namespace sample

/-- The environment `env` with the cluster-profile variable set. -/
def profileEnv : ignition.Env :=
  { env with
    Getenv := fun name =>
      if name = "OPENSHIFT_INSTALL_EXPERIMENTAL_CLUSTER_PROFILE" then "single-node" else "" }

/-- The install config `singleNodeConfig` with three control-plane replicas. -/
def threeReplicaConfig : types.InstallConfig :=
  { singleNodeConfig with ControlPlane := some { Replicas := some 3 } }

end sample

/-! ## The library functions behind `clusterDNSIP`: Go `net` and
`github.com/apparentlymart/go-cidr`

These functions are outside the sources; they are written after the Go code
of the libraries, for the IPv4 networks that `net.ParseCIDR` returns. -/

namespace net

/-- The loop of Go `net.CIDRMask` over the `l` bytes of the mask, with `n`
one bits left to write. -/
def cidrMaskBytes : Nat → Nat → List Nat
  | 0, _ => []
  | l + 1, n =>
    if n ≥ 8 then 0xff :: cidrMaskBytes l (n - 8)
    else (0xff - (0xff >>> n)) :: cidrMaskBytes l 0

/-- Go `net.CIDRMask(ones, bits)` for a number of ones that is not negative;
the result `nil` is `[]`. -/
def CIDRMask (ones bits : Nat) : IPMask :=
  if bits ≠ 8 * IPv4len ∧ bits ≠ 8 * IPv6len then []
  else if ones > bits then []
  else cidrMaskBytes (bits / 8) ones

/-- Go `IP.Mask`; the result `nil` is `[]`. -/
def IP.Mask (ip : IP) (mask : IPMask) : IP :=
  let mask :=
    if mask.length = IPv6len ∧ ip.length = IPv4len ∧ (mask.take 12).all (fun b => b == 0xff)
    then mask.drop 12 else mask
  let ip :=
    if mask.length = IPv4len ∧ ip.length = IPv6len ∧ ip.take 12 = v4InV6Lead
    then ip.drop 12 else ip
  if ip.length ≠ mask.length then [] else List.zipWith (fun x m => x &&& m) ip mask

/-- The loop `for v&0x80 != 0 { n++; v <<= 1 }` of Go `simpleMaskLength` on a
byte: the number of leading one bits and the byte that is left. -/
def leadingOnes : Nat → Nat → Nat × Nat
  | 0, v => (0, v)
  | fuel + 1, v =>
    if v &&& 0x80 ≠ 0 then ((leadingOnes fuel ((v <<< 1) % 256)).1 + 1,
      (leadingOnes fuel ((v <<< 1) % 256)).2)
    else (0, v)

/-- Go `simpleMaskLength`; the result `-1` is `none`. -/
def simpleMaskLength : IPMask → Option Nat
  | [] => some 0
  | v :: rest =>
    if v = 0xff then (simpleMaskLength rest).map (fun n => n + 8)
    else if (leadingOnes 8 v).2 ≠ 0 then none
    else if rest.all (fun b => b == 0) then some (leadingOnes 8 v).1
    else none

/-- Go `IPMask.Size`: the number of leading ones and the number of bits,
`(0, 0)` for a mask that is not in the canonical form. -/
def IPMask.Size (m : IPMask) : Nat × Nat :=
  match simpleMaskLength m with
  | some ones => (ones, m.length * 8)
  | none => (0, 0)

/-- Go `IP.String` on an IPv4 address: the four bytes in decimal, separated by
dots.  The text of other addresses is left out (empty). -/
def IP.String (ip : IP) : String :=
  match IP.To4 ip with
  | some [a, b, c, d] =>
    toString a ++ "." ++ toString b ++ "." ++ toString c ++ "." ++ toString d
  | _ => ""

end net

namespace cidr

/-- Modelled from the spec: function `ipToInt` of go-cidr, which is not among
the sources: the address read as a big-endian number, and its number of bits
(32 for four bytes, 128 otherwise; the library panics on a length other than
4 and 16). -/
def ipToInt (ip : net.IP) : Nat × Nat :=
  (ip.foldl (fun acc b => acc * 256 + b) 0, if ip.length = net.IPv4len then 32 else 128)

/-- Modelled from the spec: function `intToIP` of go-cidr, which is not among
the sources: the big-endian bytes of the number, on `bits / 8` bytes. -/
def intToIP (ipInt : Nat) (bits : Nat) : net.IP :=
  (List.range (bits / 8)).map fun i => ipInt / 256 ^ (bits / 8 - 1 - i) % 256

/-- Modelled from the spec: function `insertNumIntoIP` of go-cidr, which is not
among the sources: the number, shifted past the bits after the given length,
is or-ed into the address. -/
def insertNumIntoIP (ip : net.IP) (num : Nat) (plen : Nat) : net.IP :=
  intToIP ((ipToInt ip).1 ||| (num <<< ((ipToInt ip).2 - plen))) (ipToInt ip).2

/-- Modelled from the spec: function `cidr.Host(base, num)` of go-cidr, which is
not among the sources, for a host number that is not negative: the error when
the network cannot hold the host number, else the host number inserted in the
address of the network. -/
def Host (base : net.IPNet) (num : Nat) : Except String net.IP :=
  let parentLen := (net.IPMask.Size base.Mask).1
  let addrLen := (net.IPMask.Size base.Mask).2
  let hostLen := addrLen - parentLen
  let maxHostNum := 2 ^ hostLen - 1
  if num > maxHostNum then
    .error ("prefix of " ++ toString parentLen ++ " does not accommodate a host numbered "
      ++ toString num)
  else
    let bitlength := if (net.IP.To4 base.IP).isSome then 32 else 128
    .ok (insertNumIntoIP base.IP num bitlength)

end cidr

namespace sample

/-- The restriction of `net.ParseCIDR` to canonical dotted-decimal IPv4 text
followed by a slash and a decimal prefix length. -/
def ParseCIDR (s : String) : Except String net.IPNet :=
  match s.toList.dropWhile (fun ch => ch ≠ '/') with
  | '/' :: mask =>
    match ParseIP (String.mk (s.toList.takeWhile (fun ch => ch ≠ '/'))),
        (if mask = [] then none else decimal mask 0) with
    | some ip, some n =>
      if n ≤ 32 then
        .ok { IP := net.IP.Mask ip (net.CIDRMask n 32), Mask := net.CIDRMask n 32 }
      else .error ("invalid CIDR address: " ++ s)
    | _, _ => .error ("invalid CIDR address: " ++ s)
  | _ => .error ("invalid CIDR address: " ++ s)

/-- The environment `env` with the network functions of the libraries. -/
def netEnv : ignition.Env :=
  { env with
    ParseCIDR := ParseCIDR,
    Host := fun network num => cidr.Host network num.toNat,
    IPString := net.IP.String }

end sample

/-! ## Go standard library: `encoding/base64` and `strings`

These functions are outside the sources; they are written after the Go code
of the library. -/

namespace base64

/-- Go `base64.Encoding`, restricted to its alphabet of 64 characters and its
padding character (`none` is `NoPadding`). -/
structure Encoding where
  encode : List Char
  padChar : Option Char

/-- The constant `encodeStd`, the standard alphabet. -/
def encodeStd : String :=
  "ABCDEFGHIJKLMNOPQRSTUVWXYZabcdefghijklmnopqrstuvwxyz0123456789+/"

/-- The constant `encodeURL`, the alphabet that is safe in URLs and file
names. -/
def encodeURL : String :=
  "ABCDEFGHIJKLMNOPQRSTUVWXYZabcdefghijklmnopqrstuvwxyz0123456789-_"

/-- Go `base64.StdEncoding`. -/
def StdEncoding : Encoding :=
  { encode := encodeStd.toList, padChar := some '=' }

/-- Go `base64.URLEncoding`. -/
def URLEncoding : Encoding :=
  { encode := encodeURL.toList, padChar := some '=' }

/-- The character of the alphabet for a six-bit value. -/
def Encoding.char (enc : Encoding) (v : Nat) : Char :=
  enc.encode.getD (v &&& 0x3F) 'A'

/-- Go `(*Encoding).Encode`, on bytes: three bytes give four characters; one
or two bytes left at the end give two or three characters and the padding. -/
def Encoding.Encode (enc : Encoding) : List Nat → List Char
  | [] => []
  | [a] =>
    [enc.char ((a <<< 16) >>> 18), enc.char ((a <<< 16) >>> 12)]
      ++ (match enc.padChar with
          | some p => [p, p]
          | none => [])
  | [a, b] =>
    [enc.char (((a <<< 16) ||| (b <<< 8)) >>> 18), enc.char (((a <<< 16) ||| (b <<< 8)) >>> 12),
      enc.char (((a <<< 16) ||| (b <<< 8)) >>> 6)]
      ++ (match enc.padChar with
          | some p => [p]
          | none => [])
  | a :: b :: c :: rest =>
    enc.char (((a <<< 16) ||| (b <<< 8) ||| c) >>> 18)
      :: enc.char (((a <<< 16) ||| (b <<< 8) ||| c) >>> 12)
      :: enc.char (((a <<< 16) ||| (b <<< 8) ||| c) >>> 6)
      :: enc.char ((a <<< 16) ||| (b <<< 8) ||| c)
      :: Encoding.Encode enc rest

/-- Go `(*Encoding).EncodeToString`. -/
def Encoding.EncodeToString (enc : Encoding) (src : List Nat) : String :=
  String.mk (enc.Encode src)

/-- The six-bit value of a character of the alphabet, `none` for another
character (the entry `0xFF` of `decodeMap`). -/
def Encoding.value (enc : Encoding) (ch : Char) : Option Nat :=
  if enc.encode.indexOf ch < 64 then some (enc.encode.indexOf ch) else none

/-- Go `(*Encoding).Decode` for a padded encoding, on text without line
breaks: four characters give three bytes; a last group that ends with one or
two padding characters gives two or one bytes; every other text is corrupt
(`none`). -/
def Encoding.Decode (enc : Encoding) : List Char → Option (List Nat)
  | [] => some []
  | a :: b :: c :: d :: rest =>
    match enc.value a, enc.value b with
    | some x, some y =>
      if some c = enc.padChar then
        if some d = enc.padChar ∧ rest = [] then some [(((x <<< 18) ||| (y <<< 12)) >>> 16) % 256]
        else none
      else
        match enc.value c with
        | none => none
        | some z =>
          if some d = enc.padChar then
            if rest = [] then
              some [(((x <<< 18) ||| (y <<< 12) ||| (z <<< 6)) >>> 16) % 256,
                (((x <<< 18) ||| (y <<< 12) ||| (z <<< 6)) >>> 8) % 256]
            else none
          else
            match enc.value d with
            | none => none
            | some w =>
              (Encoding.Decode enc rest).map fun l =>
                (((x <<< 18) ||| (y <<< 12) ||| (z <<< 6) ||| w) >>> 16) % 256
                  :: (((x <<< 18) ||| (y <<< 12) ||| (z <<< 6) ||| w) >>> 8) % 256
                  :: ((x <<< 18) ||| (y <<< 12) ||| (z <<< 6) ||| w) % 256
                  :: l
    | _, _ => none
  | _ => none

/-- Go `(*Encoding).DecodeString`. -/
def Encoding.DecodeString (enc : Encoding) (s : String) : Option (List Nat) :=
  enc.Decode s.toList

end base64

namespace strings

/-- Go `strings.ReplaceAll(s, old, new)` for an `old` of one character. -/
def ReplaceAll (s : String) (old : Char) (new : String) : String :=
  String.mk (s.toList.flatMap fun ch => if ch = old then new.toList else [ch])

/-- Go `strings.TrimPrefix(s, lead)` for a `lead` of one character. -/
def TrimPrefix (s : String) (lead : Char) : String :=
  match s.toList with
  | ch :: rest => if ch = lead then String.mk rest else s
  | [] => s

/-- The conversion `[]byte(s)` of a string of ASCII characters: the codes of
its characters. -/
def bytes (s : String) : List Nat :=
  s.toList.map Char.toNat

end strings

/-! ## `pkg/asset/machines/machineconfig/infraserviceaccount.go` -/

namespace machineconfig

/-- Go constant `mountPath`. -/
def mountPath : String := "/var/mnt/serviceaccount"

/-- Go constant `credsSecretName`. -/
def credsSecretName : String := "kubevirt-credentials"

/-- Go constant `credSecretScriptPath`. -/
def credSecretScriptPath : String := "/root/creds_secret.sh"

/-- Go constant `credSecretServiceName`. -/
def credSecretServiceName : String := "infraCredsSecret"

/-- Go variable `mountServiceContent`. -/
def mountServiceContent : String :=
  "[Unit]\n"
    ++ "Before=local-fs.target\n"
    ++ "[Mount]\n"
    ++ "What=/dev/disk/by-id/virtio-SERVICEACCOUNT\n"
    ++ "Where=" ++ mountPath ++ "\n"
    ++ "[Install]\n"
    ++ "WantedBy=local-fs.target\n"

/-- Go variable `updateSecretScriptContent`: the format with its six `%s`
replaced by the arguments, in order. -/
def updateSecretScriptContent : String :=
  "set -e\n"
    ++ "oc login https://api.hekio04-0.kubevirt.org:6443 --certificate-authority="
    ++ mountPath ++ "/ca.crt --token=`cat " ++ mountPath ++ "/token`\n"
    ++ "sed -i \"s/certificate-authority: " ++ strings.ReplaceAll mountPath '/' "\\/"
    ++ "/ca.crt/certificate-authority-data: \\b`cat " ++ mountPath
    ++ "/ca.crt`\\b/g\" /root/.kube/config\n"
    ++ "oc --kubeconfig=/etc/kubernetes/static-pod-resources/kube-apiserver-certs/secrets/"
    ++ "node-kubeconfigs/localhost.kubeconfig -n kube-system delete secret "
    ++ credsSecretName ++ " || true\n"
    ++ "oc --kubeconfig=/etc/kubernetes/static-pod-resources/kube-apiserver-certs/secrets/"
    ++ "node-kubeconfigs/localhost.kubeconfig -n kube-system create secret generic "
    ++ credsSecretName ++ " --from-file=kubeconfig=/root/.kube/config\n"
    ++ "rm /root/.kube/config\n"

/-- Go variable `updateSecretServiceContent`. -/
def updateSecretServiceContent : String :=
  "[Service]\n"
    ++ "User=0\n"
    ++ "Type=oneshot\n"
    ++ "ExecStart=/bin/bash " ++ credSecretScriptPath ++ "\n"

/-- Go variable `updateSecretTimerContent`. -/
def updateSecretTimerContent : String :=
  "[Timer]\n"
    ++ "OnUnitActiveSec=60s\n"
    ++ "OnBootSec=60s\n"
    ++ "[Install]\n"
    ++ "WantedBy=timers.target\n"

/-- The local variable `ignConfig` of `ForInfraServiceAccount`. -/
def ignConfig : igntypes.Config :=
  { Ignition := { Version := igntypes.MaxVersion },
    Passwd := { Users := [] },
    Storage := { Files := [
      { Path := credSecretScriptPath,
        User := none,
        Overwrite := some true,
        Mode := some 500,
        Source := some ("data:text/plain;charset=utf-8;base64,"
          ++ base64.URLEncoding.EncodeToString (strings.bytes updateSecretScriptContent)) }] },
    Systemd := { Units := [
      { Name := strings.ReplaceAll (strings.TrimPrefix mountPath '/') '/' "-" ++ ".mount",
        Enabled := some true,
        Contents := some mountServiceContent },
      { Name := credSecretServiceName ++ ".service",
        Enabled := some true,
        Contents := some updateSecretServiceContent },
      { Name := credSecretServiceName ++ ".timer",
        Enabled := some true,
        Contents := some updateSecretTimerContent }] } }

/-- Go `mcfgv1.MachineConfig`, restricted to the fields that
`ForInfraServiceAccount` sets; `Config` is the raw extension, as bytes. -/
structure MachineConfig where
  APIVersion : String
  Kind : String
  Name : String
  Labels : List (String × String)
  Config : List Nat
deriving DecidableEq, Repr

/-- What `ForInfraServiceAccount` calls outside the sources. -/
structure Scheme where
  /-- The function `ignition.ConvertToRawExtension` of `pkg/asset/ignition`. -/
  ConvertToRawExtension : igntypes.Config → Except String (List Nat)
  /-- The text of `mcfgv1.SchemeGroupVersion.String()`. -/
  SchemeGroupVersion : String

/-- Go `ForInfraServiceAccount`. -/
def ForInfraServiceAccount (scheme : Scheme) (role : String) : Except String MachineConfig :=
  match scheme.ConvertToRawExtension ignConfig with
  | .error err => .error err
  | .ok rawExt =>
    .ok { APIVersion := scheme.SchemeGroupVersion,
          Kind := "MachineConfig",
          Name := "99-" ++ role ++ "-infra-service-account",
          Labels := [("machineconfiguration.openshift.io/role", role)],
          Config := rawExt }

/-- The payload of a data URL with the lead
`data:text/plain;charset=utf-8;base64,`, `none` for another text. -/
def payload (source : String) : Option String :=
  if source.toList.take 37 = "data:text/plain;charset=utf-8;base64,".toList then
    some (String.mk (source.toList.drop 37))
  else none

end machineconfig

namespace sample

/-- A scheme whose conversion is the sample serializer. -/
def scheme : machineconfig.Scheme :=
  { ConvertToRawExtension := marshal,
    SchemeGroupVersion := "machineconfiguration.openshift.io/v1" }

end sample

/-! ## Lemmas -/

namespace field

theorem toAggregateLoop_cons_nil (lib : Lib) (e : Error) (l : ErrorList) :
    toAggregateLoop lib (e :: l) [] = e :: toAggregateLoop lib l [e.Error lib] := by
  simp [toAggregateLoop]

theorem ToAggregate_cons (lib : Lib) (e : Error) (l : ErrorList) :
    ErrorList.ToAggregate lib (e :: l) = some (e :: toAggregateLoop lib l [e.Error lib]) := by
  simp [ErrorList.ToAggregate, toAggregateLoop_cons_nil]

theorem ToAggregate_eq_none_iff (lib : Lib) (l : ErrorList) :
    ErrorList.ToAggregate lib l = none ↔ l = [] := by
  cases l with
  | nil => simp [ErrorList.ToAggregate, toAggregateLoop]
  | cons e l => simp [ToAggregate_cons]

end field

namespace types.kubevirt.validation

theorem ValidatePlatform_eq (lib : Lib) (p : types.kubevirt.Platform) (fldPath : field.Path) :
    ValidatePlatform lib p fldPath =
      (if p.Namespace = "" then
        [field.Invalid (fldPath.Child "Infra Cluster Namespace") p.Namespace
          "Infra Cluster Namespace can't be empty"] else [])
      ++ (if p.NetworkName = "" then
        [field.Invalid (fldPath.Child "NetworkName") p.NetworkName "NetworkName can't be empty"]
        else [])
      ++ (validate.IP lib p.APIVIP).toList.map (field.Invalid (fldPath.Child "APIVIP") p.APIVIP)
      ++ (validate.IP lib p.IngressVIP).toList.map
          (field.Invalid (fldPath.Child "IngressVIP") p.IngressVIP) := by
  unfold ValidatePlatform
  cases validate.IP lib p.APIVIP <;> cases validate.IP lib p.IngressVIP <;>
    by_cases h1 : p.Namespace = "" <;> by_cases h2 : p.NetworkName = "" <;> simp [h1, h2]

theorem ValidatePlatform_eq_nil_iff (lib : Lib) (p : types.kubevirt.Platform)
    (fldPath : field.Path) :
    ValidatePlatform lib p fldPath = [] ↔
      p.Namespace ≠ "" ∧ p.NetworkName ≠ "" ∧ validate.IP lib p.APIVIP = none ∧
        validate.IP lib p.IngressVIP = none := by
  rw [ValidatePlatform_eq]
  cases validate.IP lib p.APIVIP <;> cases validate.IP lib p.IngressVIP <;>
    by_cases h1 : p.Namespace = "" <;> by_cases h2 : p.NetworkName = "" <;> simp [h1, h2]

end types.kubevirt.validation

namespace installconfig.kubevirt

open types.kubevirt.validation

theorem validateIPs_eq (lib : Lib) (l : List types.MachineNetworkEntry) (apiVIP ingressVIP : String)
    (fieldPath : field.Path) :
    validateIPsInMachineNetworkEntryList lib l apiVIP ingressVIP fieldPath =
      (assertIPInMachineNetworkEntryList lib l apiVIP).toList.map (fun err =>
        field.Invalid (fieldPath.Child "IPsInCIDR") apiVIP
          ("validation of apiVIP " ++ apiVIP ++ " in cider " ++ lib.fmtMachineNetworkEntryList l
            ++ " failed, with error: " ++ err))
      ++ (assertIPInMachineNetworkEntryList lib l ingressVIP).toList.map (fun err =>
        field.Invalid (fieldPath.Child "IPsInCIDR") ingressVIP
          ("validation of ingressVIP " ++ ingressVIP ++ " in cider "
            ++ lib.fmtMachineNetworkEntryList l ++ " failed, with error: " ++ err)) := by
  unfold validateIPsInMachineNetworkEntryList
  cases assertIPInMachineNetworkEntryList lib l apiVIP <;>
    cases assertIPInMachineNetworkEntryList lib l ingressVIP <;> simp

theorem validateIPs_eq_nil_iff (lib : Lib) (l : List types.MachineNetworkEntry)
    (apiVIP ingressVIP : String) (fieldPath : field.Path) :
    validateIPsInMachineNetworkEntryList lib l apiVIP ingressVIP fieldPath = [] ↔
      assertIPInMachineNetworkEntryList lib l apiVIP = none ∧
        assertIPInMachineNetworkEntryList lib l ingressVIP = none := by
  rw [validateIPs_eq]
  cases assertIPInMachineNetworkEntryList lib l apiVIP <;>
    cases assertIPInMachineNetworkEntryList lib l ingressVIP <;> simp

/-- The errors and the calls of the client part of `validatePlatform`. -/
theorem validatePlatform_fail (lib : Lib) (p : types.kubevirt.Platform)
    (l : List types.MachineNetworkEntry) (fldPath : field.Path) (e : String) :
    validatePlatform lib p l (.fail e) fldPath =
      (ValidatePlatform lib p fldPath
        ++ [field.Invalid (fldPath.Child "InfraClusterReachable") "InfraCluster"
            ("failed to create InfraCluster client with error: " ++ e)]
        ++ validateIPsInMachineNetworkEntryList lib l p.APIVIP p.IngressVIP fldPath,
       [Call.clientBuilderFunc]) := by
  simp [validatePlatform, validateInfraClusterReachable]

theorem validatePlatform_unreachable (lib : Lib) (p : types.kubevirt.Platform)
    (l : List types.MachineNetworkEntry) (fldPath : field.Path) (c : Client) (e : String)
    (h : c.ListNamespace = some e) :
    validatePlatform lib p l (.ok c) fldPath =
      (ValidatePlatform lib p fldPath
        ++ [field.Invalid (fldPath.Child "InfraClusterReachable") "InfraCluster"
            ("failed to access to InfraCluster with error: " ++ e)]
        ++ validateIPsInMachineNetworkEntryList lib l p.APIVIP p.IngressVIP fldPath,
       [Call.clientBuilderFunc, Call.ListNamespace]) := by
  simp [validatePlatform, validateInfraClusterReachable, h]

theorem validatePlatform_reachable (lib : Lib) (p : types.kubevirt.Platform)
    (l : List types.MachineNetworkEntry) (fldPath : field.Path) (c : Client)
    (h : c.ListNamespace = none) :
    validatePlatform lib p l (.ok c) fldPath =
      (ValidatePlatform lib p fldPath
        ++ (validateNamespaceExistsInInfraCluster p.Namespace c fldPath).1
        ++ (validateStorageClassExistsInInfraCluster p.StorageClass c fldPath).1
        ++ (if (validateNamespaceExistsInInfraCluster p.Namespace c fldPath).1 = [] then
            (validateNetworkAttachmentDefinitionExistsInInfraCluster p.NetworkName p.Namespace
              c fldPath).1 else [])
        ++ validateIPsInMachineNetworkEntryList lib l p.APIVIP p.IngressVIP fldPath,
       [Call.clientBuilderFunc, Call.ListNamespace, Call.GetNamespace p.Namespace,
        Call.GetStorageClass p.StorageClass]
        ++ (if (validateNamespaceExistsInInfraCluster p.Namespace c fldPath).1 = [] then
            [Call.GetNetworkAttachmentDefinition p.NetworkName p.Namespace] else [])) := by
  simp only [validatePlatform, validateInfraClusterReachable, h]
  cases hns : c.GetNamespace p.Namespace <;> cases hsc : c.GetStorageClass p.StorageClass <;>
    cases hnad : c.GetNetworkAttachmentDefinition p.NetworkName p.Namespace <;>
    simp [validateNamespaceExistsInInfraCluster, validateStorageClassExistsInInfraCluster,
      validateNetworkAttachmentDefinitionExistsInInfraCluster, hns, hsc, hnad]

end installconfig.kubevirt

namespace installconfig.kubevirt

open types.kubevirt.validation

/-- C1. `Validate` returns a nil error exactly when every check passes, and a
non-nil error in every other case. -/
theorem Validate_nil_iff_all_checks_pass (lib : Lib) (ic : types.InstallConfig)
    (clientBuilderFunc : BuilderResult) :
    (AllChecksPass lib ic clientBuilderFunc ↔ (Validate lib ic clientBuilderFunc).1 = none)
    ∧ (¬ AllChecksPass lib ic clientBuilderFunc →
        ∃ err, (Validate lib ic clientBuilderFunc).1 = some err)
    ∧ (∀ p : types.kubevirt.Platform,
        ValidatePlatform lib p (field.NewPath "platform" ["kubevirt"]) = [] ↔
          p.Namespace ≠ "" ∧ p.NetworkName ≠ "" ∧ validate.IP lib p.APIVIP = none ∧
            validate.IP lib p.IngressVIP = none) := by
  have key : AllChecksPass lib ic clientBuilderFunc ↔
      (Validate lib ic clientBuilderFunc).1 = none := by
    unfold AllChecksPass Validate
    cases hk : ic.Platform.Kubevirt with
    | none => simp
    | some p =>
      simp only [Option.map_eq_none', field.ToAggregate_eq_none_iff, Option.some.injEq,
        exists_eq_left']
      cases clientBuilderFunc with
      | fail e => simp [validatePlatform_fail]
      | ok c =>
        cases hl : c.ListNamespace with
        | some e => simp [validatePlatform_unreachable lib p _ _ c e hl, hl]
        | none =>
          rw [validatePlatform_reachable lib p _ _ c hl]
          cases hns : c.GetNamespace p.Namespace <;> cases hsc : c.GetStorageClass p.StorageClass <;>
            cases hnad : c.GetNetworkAttachmentDefinition p.NetworkName p.Namespace <;>
            simp [validateNamespaceExistsInInfraCluster, validateStorageClassExistsInInfraCluster,
              validateNetworkAttachmentDefinitionExistsInInfraCluster, hns, hsc, hnad, hl,
              validateIPs_eq_nil_iff]
  refine ⟨key, ?_, fun p => ValidatePlatform_eq_nil_iff lib p _⟩
  intro h
  cases hv : (Validate lib ic clientBuilderFunc).1 with
  | none => exact absurd (key.mpr hv) h
  | some err => exact ⟨err, rfl⟩

end installconfig.kubevirt

namespace installconfig.kubevirt

open types.kubevirt.validation

/-- C2. With a nil kubevirt platform `Validate` returns the error whose text is
`platform.kubevirt: Required value: validation requires a Engine platform
configuration`, and makes no call at all: the client builder is not invoked. -/
theorem Validate_nil_platform (lib : Lib) (ic : types.InstallConfig)
    (clientBuilderFunc : BuilderResult) (h : ic.Platform.Kubevirt = none) :
    (Validate lib ic clientBuilderFunc).1 = some (GoError.errorString
      "platform.kubevirt: Required value: validation requires a Engine platform configuration")
    ∧ (Validate lib ic clientBuilderFunc).2 = []
    ∧ Call.clientBuilderFunc ∉ (Validate lib ic clientBuilderFunc).2 := by
  have hv : Validate lib ic clientBuilderFunc = (some (GoError.errorString
      "platform.kubevirt: Required value: validation requires a Engine platform configuration"),
      []) := by
    unfold Validate
    rw [h]
    rfl
  simp [hv]

/-- Witness of C2: the test install config with its kubevirt platform removed. -/
theorem Validate_nil_platform_witness :
    (Validate sample.lib { sample.validInstallConfig with Platform := ⟨none⟩ }
      (.ok sample.okClient)).1 = some (GoError.errorString
        "platform.kubevirt: Required value: validation requires a Engine platform configuration")
    ∧ (Validate sample.lib { sample.validInstallConfig with Platform := ⟨none⟩ }
      (.ok sample.okClient)).2 = []
    ∧ Call.clientBuilderFunc ∉ (Validate sample.lib
      { sample.validInstallConfig with Platform := ⟨none⟩ } (.ok sample.okClient)).2 :=
  Validate_nil_platform sample.lib _ _ rfl

end installconfig.kubevirt

namespace installconfig.kubevirt

open types.kubevirt.validation

/-- Field names of the errors of `ValidatePlatform` at the kubevirt path. -/
theorem ValidatePlatform_fields (lib : Lib) (p : types.kubevirt.Platform) :
    ∀ x ∈ ValidatePlatform lib p (field.NewPath "platform" ["kubevirt"]),
      x.Field ∈ ["platform.kubevirt.Infra Cluster Namespace", "platform.kubevirt.NetworkName",
        "platform.kubevirt.APIVIP", "platform.kubevirt.IngressVIP"] := by
  intro x hx
  rw [ValidatePlatform_eq] at hx
  simp only [List.mem_append, List.mem_map, Option.mem_toList] at hx
  have f1 : (field.Path.Child (field.NewPath "platform" ["kubevirt"])
      "Infra Cluster Namespace").String = "platform.kubevirt.Infra Cluster Namespace" := by decide
  have f2 : (field.Path.Child (field.NewPath "platform" ["kubevirt"])
      "NetworkName").String = "platform.kubevirt.NetworkName" := by decide
  have f3 : (field.Path.Child (field.NewPath "platform" ["kubevirt"])
      "APIVIP").String = "platform.kubevirt.APIVIP" := by decide
  have f4 : (field.Path.Child (field.NewPath "platform" ["kubevirt"])
      "IngressVIP").String = "platform.kubevirt.IngressVIP" := by decide
  rcases hx with ((h | h) | h) | h
  · split at h
    · simp only [List.mem_singleton] at h
      subst h
      simp [field.Invalid, f1]
    · simp at h
  · split at h
    · simp only [List.mem_singleton] at h
      subst h
      simp [field.Invalid, f2]
    · simp at h
  · obtain ⟨a, _, rfl⟩ := h
    simp [field.Invalid, f3]
  · obtain ⟨a, _, rfl⟩ := h
    simp [field.Invalid, f4]

/-- Field name of the errors of `validateIPsInMachineNetworkEntryList` at the
kubevirt path. -/
theorem validateIPs_fields (lib : Lib) (l : List types.MachineNetworkEntry)
    (apiVIP ingressVIP : String) :
    ∀ x ∈ validateIPsInMachineNetworkEntryList lib l apiVIP ingressVIP
        (field.NewPath "platform" ["kubevirt"]),
      x.Field = "platform.kubevirt.IPsInCIDR" := by
  intro x hx
  rw [validateIPs_eq] at hx
  simp only [List.mem_append, List.mem_map, Option.mem_toList] at hx
  have f1 : (field.Path.Child (field.NewPath "platform" ["kubevirt"])
      "IPsInCIDR").String = "platform.kubevirt.IPsInCIDR" := by decide
  rcases hx with h | h <;> obtain ⟨a, _, rfl⟩ := h <;> simp [field.Invalid, f1]

end installconfig.kubevirt

namespace installconfig.kubevirt

open types.kubevirt.validation

/-- C3. When the client builder fails with `e`, or the built client fails
`ListNamespace` with `e`, `validatePlatform` adds one error for the
reachability check, with invalid value `InfraCluster` and the matching detail,
between the errors of `ValidatePlatform` and those of the VIP check; at the
kubevirt path it is the only error at field
`platform.kubevirt.InfraClusterReachable`; and the only calls made are the
builder (and `ListNamespace`), so no lookup is called. -/
theorem validatePlatform_infra_unreachable (lib : Lib) (p : types.kubevirt.Platform)
    (l : List types.MachineNetworkEntry) (fldPath : field.Path)
    (clientBuilderFunc : BuilderResult) (e : String)
    (h : clientBuilderFunc = .fail e ∨ ∃ c, clientBuilderFunc = .ok c ∧ c.ListNamespace = some e) :
    (validatePlatform lib p l clientBuilderFunc fldPath).1 =
      ValidatePlatform lib p fldPath
        ++ [field.Invalid (fldPath.Child "InfraClusterReachable") "InfraCluster"
            (match clientBuilderFunc with
              | .fail _ => "failed to create InfraCluster client with error: " ++ e
              | .ok _ => "failed to access to InfraCluster with error: " ++ e)]
        ++ validateIPsInMachineNetworkEntryList lib l p.APIVIP p.IngressVIP fldPath
    ∧ (validatePlatform lib p l clientBuilderFunc (field.NewPath "platform" ["kubevirt"])).1.filter
        (fun x => x.Field = "platform.kubevirt.InfraClusterReachable") =
      [{ Type_ := .ErrorTypeInvalid, Field := "platform.kubevirt.InfraClusterReachable",
         BadValue := "InfraCluster",
         Detail := match clientBuilderFunc with
            | .fail _ => "failed to create InfraCluster client with error: " ++ e
            | .ok _ => "failed to access to InfraCluster with error: " ++ e }]
    ∧ (validatePlatform lib p l clientBuilderFunc fldPath).2 =
        (match clientBuilderFunc with
          | .fail _ => [Call.clientBuilderFunc]
          | .ok _ => [Call.clientBuilderFunc, Call.ListNamespace])
    ∧ (∀ call ∈ (validatePlatform lib p l clientBuilderFunc fldPath).2,
        call = Call.clientBuilderFunc ∨ call = Call.ListNamespace) := by
  have hfilter : ∀ d : String, (ValidatePlatform lib p (field.NewPath "platform" ["kubevirt"])
        ++ [field.Invalid ((field.NewPath "platform" ["kubevirt"]).Child "InfraClusterReachable")
            "InfraCluster" d]
        ++ validateIPsInMachineNetworkEntryList lib l p.APIVIP p.IngressVIP
            (field.NewPath "platform" ["kubevirt"])).filter
        (fun x => x.Field = "platform.kubevirt.InfraClusterReachable") =
      [{ Type_ := .ErrorTypeInvalid, Field := "platform.kubevirt.InfraClusterReachable",
         BadValue := "InfraCluster", Detail := d }] := by
    intro d
    have f1 : (field.Path.Child (field.NewPath "platform" ["kubevirt"])
        "InfraClusterReachable").String = "platform.kubevirt.InfraClusterReachable" := by decide
    have h1 : (ValidatePlatform lib p (field.NewPath "platform" ["kubevirt"])).filter
        (fun x => x.Field = "platform.kubevirt.InfraClusterReachable") = [] := by
      rw [List.filter_eq_nil_iff]
      intro x hx
      have := ValidatePlatform_fields lib p x hx
      simp only [List.mem_cons, List.mem_singleton, List.not_mem_nil, or_false] at this
      rcases this with h | h | h | h <;> rw [h] <;> decide
    have h2 : (validateIPsInMachineNetworkEntryList lib l p.APIVIP p.IngressVIP
        (field.NewPath "platform" ["kubevirt"])).filter
        (fun x => x.Field = "platform.kubevirt.InfraClusterReachable") = [] := by
      rw [List.filter_eq_nil_iff]
      intro x hx
      rw [validateIPs_fields lib l _ _ x hx]
      decide
    rw [List.filter_append, List.filter_append, h1, h2]
    simp [field.Invalid, f1]
  rcases h with h | ⟨c, h, hl⟩
  · subst h
    refine ⟨by rw [validatePlatform_fail], ?_, by rw [validatePlatform_fail], ?_⟩
    · rw [validatePlatform_fail]
      exact hfilter _
    · rw [validatePlatform_fail]
      simp
  · subst h
    refine ⟨by rw [validatePlatform_unreachable lib p l _ c e hl], ?_,
      by rw [validatePlatform_unreachable lib p l _ c e hl], ?_⟩
    · rw [validatePlatform_unreachable lib p l _ c e hl]
      exact hfilter _
    · rw [validatePlatform_unreachable lib p l _ c e hl]
      simp

/-- Witness of C3: the builder fails with `test`, as in the test case
`invalid client builder error`. -/
theorem validatePlatform_infra_unreachable_witness :
    (validatePlatform sample.lib sample.validPlatform sample.validInstallConfig.MachineNetwork
        (.fail "test") (field.NewPath "platform" ["kubevirt"])).1.filter
        (fun x => x.Field = "platform.kubevirt.InfraClusterReachable") =
      [{ Type_ := .ErrorTypeInvalid, Field := "platform.kubevirt.InfraClusterReachable",
         BadValue := "InfraCluster",
         Detail := "failed to create InfraCluster client with error: " ++ "test" }] :=
  (validatePlatform_infra_unreachable sample.lib sample.validPlatform
    sample.validInstallConfig.MachineNetwork (field.NewPath "platform" ["kubevirt"])
    (.fail "test") "test" (Or.inl rfl)).2.1

end installconfig.kubevirt

namespace installconfig.kubevirt

open types.kubevirt.validation

/-- C4. No short circuit: on a reachable infra cluster where both
`GetNamespace` and `GetStorageClass` fail, the error list of `validatePlatform`
holds the namespace error and the storage-class error. -/
theorem validatePlatform_no_short_circuit (lib : Lib) (p : types.kubevirt.Platform)
    (l : List types.MachineNetworkEntry) (fldPath : field.Path) (c : Client) (e₁ e₂ : String)
    (hl : c.ListNamespace = none) (hns : c.GetNamespace p.Namespace = some e₁)
    (hsc : c.GetStorageClass p.StorageClass = some e₂) :
    field.Invalid (fldPath.Child "NamespaceExistsInInfraCluster") p.Namespace
        ("failed to get namespace " ++ p.Namespace ++ " from InfraCluster, with error: " ++ e₁)
      ∈ (validatePlatform lib p l (.ok c) fldPath).1
    ∧ field.Invalid (fldPath.Child "StorageClassExistsInInfraCluster") p.StorageClass
        ("failed to get storageClass " ++ p.StorageClass ++ " from InfraCluster, with error: " ++ e₂)
      ∈ (validatePlatform lib p l (.ok c) fldPath).1 := by
  rw [validatePlatform_reachable lib p l fldPath c hl]
  simp [validateNamespaceExistsInInfraCluster, validateStorageClassExistsInInfraCluster, hns, hsc]

/-- Witness of C4: a reachable client on which every lookup fails with `test`. -/
theorem validatePlatform_no_short_circuit_witness :
    field.Invalid ((field.NewPath "platform" ["kubevirt"]).Child "NamespaceExistsInInfraCluster")
        sample.validPlatform.Namespace
        ("failed to get namespace " ++ sample.validPlatform.Namespace
          ++ " from InfraCluster, with error: " ++ "test")
      ∈ (validatePlatform sample.lib sample.validPlatform [] (.ok sample.failingClient)
          (field.NewPath "platform" ["kubevirt"])).1
    ∧ field.Invalid ((field.NewPath "platform" ["kubevirt"]).Child "StorageClassExistsInInfraCluster")
        sample.validPlatform.StorageClass
        ("failed to get storageClass " ++ sample.validPlatform.StorageClass
          ++ " from InfraCluster, with error: " ++ "test")
      ∈ (validatePlatform sample.lib sample.validPlatform [] (.ok sample.failingClient)
          (field.NewPath "platform" ["kubevirt"])).1 :=
  validatePlatform_no_short_circuit sample.lib sample.validPlatform []
    (field.NewPath "platform" ["kubevirt"]) sample.failingClient "test" "test" rfl rfl rfl

/-- C5. On a reachable infra cluster where `GetNamespace` fails with `e`,
`validatePlatform` reports the namespace error (field
`platform.kubevirt.NamespaceExistsInInfraCluster` at the kubevirt path, the
namespace as invalid value, the detail naming the namespace and `e`); the
storage-class lookup is still made and `GetNetworkAttachmentDefinition` is
not.  In general, on a reachable cluster the network-attachment lookup is
made exactly when `GetNamespace` succeeds. -/
theorem validatePlatform_namespace_missing (lib : Lib) (p : types.kubevirt.Platform)
    (l : List types.MachineNetworkEntry) (fldPath : field.Path) (c : Client) (e : String)
    (hl : c.ListNamespace = none) (hns : c.GetNamespace p.Namespace = some e) :
    field.Invalid (fldPath.Child "NamespaceExistsInInfraCluster") p.Namespace
        ("failed to get namespace " ++ p.Namespace ++ " from InfraCluster, with error: " ++ e)
      ∈ (validatePlatform lib p l (.ok c) fldPath).1
    ∧ (field.Invalid ((field.NewPath "platform" ["kubevirt"]).Child "NamespaceExistsInInfraCluster")
        p.Namespace
        ("failed to get namespace " ++ p.Namespace ++ " from InfraCluster, with error: " ++ e)).Field
      = "platform.kubevirt.NamespaceExistsInInfraCluster"
    ∧ (validatePlatform lib p l (.ok c) fldPath).2 =
        [Call.clientBuilderFunc, Call.ListNamespace, Call.GetNamespace p.Namespace,
          Call.GetStorageClass p.StorageClass]
    ∧ Call.GetStorageClass p.StorageClass ∈ (validatePlatform lib p l (.ok c) fldPath).2
    ∧ (∀ name ns, Call.GetNetworkAttachmentDefinition name ns
        ∉ (validatePlatform lib p l (.ok c) fldPath).2)
    ∧ (∀ c₂ : Client, c₂.ListNamespace = none →
        ((∃ name ns, Call.GetNetworkAttachmentDefinition name ns
            ∈ (validatePlatform lib p l (.ok c₂) fldPath).2)
          ↔ c₂.GetNamespace p.Namespace = none)) := by
  have hcalls : (validatePlatform lib p l (.ok c) fldPath).2 =
        [Call.clientBuilderFunc, Call.ListNamespace, Call.GetNamespace p.Namespace,
          Call.GetStorageClass p.StorageClass] := by
    rw [validatePlatform_reachable lib p l fldPath c hl]
    simp [validateNamespaceExistsInInfraCluster, hns]
  have hfield : (field.Path.Child (field.NewPath "platform" ["kubevirt"])
      "NamespaceExistsInInfraCluster").String = "platform.kubevirt.NamespaceExistsInInfraCluster" := by
    decide
  refine ⟨?_, by simp [field.Invalid, hfield], hcalls, ?_, ?_, ?_⟩
  · rw [validatePlatform_reachable lib p l fldPath c hl]
    simp [validateNamespaceExistsInInfraCluster, hns]
  · rw [hcalls]
    simp
  · intro name ns
    rw [hcalls]
    simp
  · intro c₂ hl₂
    rw [validatePlatform_reachable lib p l fldPath c₂ hl₂]
    cases h₂ : c₂.GetNamespace p.Namespace <;>
      simp [validateNamespaceExistsInInfraCluster, h₂]

/-- Witness of C5: a reachable client on which every lookup fails with `test`. -/
theorem validatePlatform_namespace_missing_witness :
    (validatePlatform sample.lib sample.validPlatform [] (.ok sample.failingClient)
        (field.NewPath "platform" ["kubevirt"])).2 =
      [Call.clientBuilderFunc, Call.ListNamespace,
        Call.GetNamespace sample.validPlatform.Namespace,
        Call.GetStorageClass sample.validPlatform.StorageClass] :=
  (validatePlatform_namespace_missing sample.lib sample.validPlatform []
    (field.NewPath "platform" ["kubevirt"]) sample.failingClient "test" rfl rfl).2.2.1

end installconfig.kubevirt

namespace installconfig.kubevirt

open types.kubevirt.validation

/-- C6. Each lookup check returns exactly one error when its lookup fails, at
the field of its own check and with the looked-up name as invalid value, and
no error when the lookup succeeds; at the kubevirt path the fields are
`platform.kubevirt.StorageClassExistsInInfraCluster` and
`platform.kubevirt.NetworkAttachmentDefinitionExistsInInfraCluster`; the five
tags of the checks are pairwise distinct, as names and as fields. -/
theorem lookup_checks_one_tagged_error (c : Client) (name ns : String) (fldPath : field.Path) :
    (validateStorageClassExistsInInfraCluster name c fldPath).1 =
      (match c.GetStorageClass name with
        | some e => [field.Invalid (fldPath.Child "StorageClassExistsInInfraCluster") name
            ("failed to get storageClass " ++ name ++ " from InfraCluster, with error: " ++ e)]
        | none => [])
    ∧ (validateNetworkAttachmentDefinitionExistsInInfraCluster name ns c fldPath).1 =
      (match c.GetNetworkAttachmentDefinition name ns with
        | some e => [field.Invalid
            (fldPath.Child "NetworkAttachmentDefinitionExistsInInfraCluster") name
            ("failed to get network-attachment-definition " ++ name
              ++ " from InfraCluster, with error: " ++ e)]
        | none => [])
    ∧ (validateNamespaceExistsInInfraCluster name c fldPath).1 =
      (match c.GetNamespace name with
        | some e => [field.Invalid (fldPath.Child "NamespaceExistsInInfraCluster") name
            ("failed to get namespace " ++ name ++ " from InfraCluster, with error: " ++ e)]
        | none => [])
    ∧ (∀ d : String,
        field.Invalid ((field.NewPath "platform" ["kubevirt"]).Child
            "StorageClassExistsInInfraCluster") name d =
          { Type_ := .ErrorTypeInvalid,
            Field := "platform.kubevirt.StorageClassExistsInInfraCluster",
            BadValue := name, Detail := d }
        ∧ field.Invalid ((field.NewPath "platform" ["kubevirt"]).Child
            "NetworkAttachmentDefinitionExistsInInfraCluster") name d =
          { Type_ := .ErrorTypeInvalid,
            Field := "platform.kubevirt.NetworkAttachmentDefinitionExistsInInfraCluster",
            BadValue := name, Detail := d })
    ∧ ["InfraClusterReachable", "NamespaceExistsInInfraCluster",
        "StorageClassExistsInInfraCluster", "NetworkAttachmentDefinitionExistsInInfraCluster",
        "IPsInCIDR"].Pairwise (fun a b => a ≠ b)
    ∧ (["InfraClusterReachable", "NamespaceExistsInInfraCluster",
        "StorageClassExistsInInfraCluster", "NetworkAttachmentDefinitionExistsInInfraCluster",
        "IPsInCIDR"].map
          (fun tag => ((field.NewPath "platform" ["kubevirt"]).Child tag).String)).Pairwise
        (fun a b => a ≠ b) := by
  have f1 : (field.Path.Child (field.NewPath "platform" ["kubevirt"])
      "StorageClassExistsInInfraCluster").String =
        "platform.kubevirt.StorageClassExistsInInfraCluster" := by decide
  have f2 : (field.Path.Child (field.NewPath "platform" ["kubevirt"])
      "NetworkAttachmentDefinitionExistsInInfraCluster").String =
        "platform.kubevirt.NetworkAttachmentDefinitionExistsInInfraCluster" := by decide
  refine ⟨?_, ?_, ?_, ?_, by decide, by decide⟩
  · unfold validateStorageClassExistsInInfraCluster
    cases c.GetStorageClass name <;> simp
  · unfold validateNetworkAttachmentDefinitionExistsInInfraCluster
    cases c.GetNetworkAttachmentDefinition name ns <;> simp
  · unfold validateNamespaceExistsInInfraCluster
    cases c.GetNamespace name <;> simp
  · intro d
    simp [field.Invalid, f1, f2]

end installconfig.kubevirt

namespace installconfig.kubevirt

open types.kubevirt.validation

/-- The result of `assertIPInMachineNetworkEntryList` on a text that parses. -/
theorem assertIP_of_parse (lib : Lib) (l : List types.MachineNetworkEntry) (ip : String)
    (ipAddr : net.IP) (h : lib.ParseIP ip = some ipAddr) :
    assertIPInMachineNetworkEntryList lib l ip =
      match l with
      | [] => none
      | entry :: _ =>
        if entry.CIDR.Contains ipAddr then none
        else some ("ip " ++ ip ++ " not in machineNetworkEntryList "
          ++ lib.fmtMachineNetworkEntryList l) := by
  unfold assertIPInMachineNetworkEntryList
  rw [h]
  cases l <;> rfl

/-- C7. With one machine-network entry and VIPs that parse,
`validateIPsInMachineNetworkEntryList` returns, in this order, one invalid-value
error at `IPsInCIDR` carrying the API VIP when the entry does not contain it and
one carrying the ingress VIP when the entry does not contain it, and nothing
else.  On the test data: `192.168.123.0/24` contains `192.168.123.15` and the
check returns no error; `10.0.0.0/16` does not, and the check returns two
errors at `platform.kubevirt.IPsInCIDR`, one per VIP. -/
theorem validateIPs_single_entry (lib : Lib) (entry : types.MachineNetworkEntry)
    (apiVIP ingressVIP : String) (a b : net.IP) (fldPath : field.Path)
    (ha : lib.ParseIP apiVIP = some a) (hb : lib.ParseIP ingressVIP = some b) :
    (validateIPsInMachineNetworkEntryList lib [entry] apiVIP ingressVIP fldPath).map
        (fun x => (x.Type_, x.Field, x.BadValue)) =
      (if entry.CIDR.Contains a then []
        else [(field.ErrorType.ErrorTypeInvalid, (fldPath.Child "IPsInCIDR").String, apiVIP)])
      ++ (if entry.CIDR.Contains b then []
        else [(field.ErrorType.ErrorTypeInvalid, (fldPath.Child "IPsInCIDR").String, ingressVIP)])
    ∧ (validateIPsInMachineNetworkEntryList lib [entry] apiVIP ingressVIP fldPath = [] ↔
        entry.CIDR.Contains a = true ∧ entry.CIDR.Contains b = true)
    ∧ (sample.cidr4 192 168 123 0 255 255 255 0).CIDR.Contains (net.IPv4 192 168 123 15) = true
    ∧ (sample.cidr4 10 0 0 0 255 255 0 0).CIDR.Contains (net.IPv4 192 168 123 15) = false
    ∧ validateIPsInMachineNetworkEntryList sample.lib [sample.cidr4 192 168 123 0 255 255 255 0]
        "192.168.123.15" "192.168.123.20" (field.NewPath "platform" ["kubevirt"]) = []
    ∧ (validateIPsInMachineNetworkEntryList sample.lib [sample.cidr4 10 0 0 0 255 255 0 0]
        "192.168.123.15" "192.168.123.20" (field.NewPath "platform" ["kubevirt"])).map
        (fun x => (x.Type_, x.Field, x.BadValue)) =
      [(field.ErrorType.ErrorTypeInvalid, "platform.kubevirt.IPsInCIDR", "192.168.123.15"),
       (field.ErrorType.ErrorTypeInvalid, "platform.kubevirt.IPsInCIDR", "192.168.123.20")] := by
  refine ⟨?_, ?_, by decide, by decide, by decide, by decide⟩
  · rw [validateIPs_eq, assertIP_of_parse lib _ _ a ha, assertIP_of_parse lib _ _ b hb]
    cases hA : entry.CIDR.Contains a <;> cases hB : entry.CIDR.Contains b <;>
      simp [field.Invalid, hA, hB]
  · rw [validateIPs_eq_nil_iff, assertIP_of_parse lib _ _ a ha, assertIP_of_parse lib _ _ b hb]
    cases hA : entry.CIDR.Contains a <;> cases hB : entry.CIDR.Contains b <;> simp [hA, hB]

/-- Witness of C7: the VIPs of the test config against `10.0.0.0/16`. -/
theorem validateIPs_single_entry_witness :
    (validateIPsInMachineNetworkEntryList sample.lib [sample.cidr4 10 0 0 0 255 255 0 0]
        "192.168.123.15" "192.168.123.20" ["platform", "kubevirt"] = [] ↔
      (sample.cidr4 10 0 0 0 255 255 0 0).CIDR.Contains (net.IPv4 192 168 123 15) = true
        ∧ (sample.cidr4 10 0 0 0 255 255 0 0).CIDR.Contains (net.IPv4 192 168 123 20) = true) :=
  (validateIPs_single_entry sample.lib (sample.cidr4 10 0 0 0 255 255 0 0)
    "192.168.123.15" "192.168.123.20" (net.IPv4 192 168 123 15) (net.IPv4 192 168 123 20)
    ["platform", "kubevirt"] (by decide) (by decide)).2.1

/-- C8. `assertIPInMachineNetworkEntryList` looks at the first entry only: for
a text that parses and a non-empty list it returns nil exactly when the first
entry contains the address, whatever the later entries are; an address that
only the second entry contains is rejected; for the empty list it returns nil
for every text that parses; for a text that does not parse it returns an
error. -/
theorem assertIP_first_entry_only (lib : Lib) (ip : String) :
    (∀ ipAddr entry rest, lib.ParseIP ip = some ipAddr →
      (assertIPInMachineNetworkEntryList lib (entry :: rest) ip = none ↔
        entry.CIDR.Contains ipAddr = true))
    ∧ (∀ ipAddr entry rest rest₂, lib.ParseIP ip = some ipAddr →
      (assertIPInMachineNetworkEntryList lib (entry :: rest) ip = none ↔
        assertIPInMachineNetworkEntryList lib (entry :: rest₂) ip = none))
    ∧ (∀ ipAddr entry second rest, lib.ParseIP ip = some ipAddr →
      entry.CIDR.Contains ipAddr = false → second.CIDR.Contains ipAddr = true →
      ∃ err, assertIPInMachineNetworkEntryList lib (entry :: second :: rest) ip = some err)
    ∧ (∀ ipAddr, lib.ParseIP ip = some ipAddr →
      assertIPInMachineNetworkEntryList lib [] ip = none)
    ∧ (∀ l, lib.ParseIP ip = none →
      assertIPInMachineNetworkEntryList lib l ip = some ("ip " ++ ip ++ " is not valid IP address"))
    ∧ assertIPInMachineNetworkEntryList sample.lib
        [sample.cidr4 10 0 0 0 255 255 0 0, sample.cidr4 192 168 123 0 255 255 255 0]
        "192.168.123.15" ≠ none := by
  refine ⟨?_, ?_, ?_, ?_, ?_, ?_⟩
  · intro ipAddr entry rest h
    rw [assertIP_of_parse lib _ _ ipAddr h]
    cases hA : entry.CIDR.Contains ipAddr <;> simp [hA]
  · intro ipAddr entry rest rest₂ h
    rw [assertIP_of_parse lib _ _ ipAddr h, assertIP_of_parse lib _ _ ipAddr h]
    cases hA : entry.CIDR.Contains ipAddr <;> simp [hA]
  · intro ipAddr entry second rest h h₁ _
    rw [assertIP_of_parse lib _ _ ipAddr h]
    simp [h₁]
  · intro ipAddr h
    rw [assertIP_of_parse lib _ _ ipAddr h]
  · intro l h
    unfold assertIPInMachineNetworkEntryList
    rw [h]
  · decide

/-- Witness of C8: `192.168.123.15` against the list `10.0.0.0/16`,
`192.168.123.0/24`, whose second entry alone contains it. -/
theorem assertIP_first_entry_only_witness :
    ∃ err, assertIPInMachineNetworkEntryList sample.lib
      [sample.cidr4 10 0 0 0 255 255 0 0, sample.cidr4 192 168 123 0 255 255 255 0]
      "192.168.123.15" = some err :=
  (assertIP_first_entry_only sample.lib "192.168.123.15").2.2.1 (net.IPv4 192 168 123 15)
    (sample.cidr4 10 0 0 0 255 255 0 0) (sample.cidr4 192 168 123 0 255 255 255 0) []
    (by decide) (by decide) (by decide)

end installconfig.kubevirt

namespace installconfig.kubevirt

open types.kubevirt.validation

/-- The error list of `validatePlatform` starts with the errors of
`ValidatePlatform`. -/
theorem validatePlatform_starts_with (lib : Lib) (p : types.kubevirt.Platform)
    (l : List types.MachineNetworkEntry) (b : BuilderResult) (fldPath : field.Path) :
    ∃ tail, (validatePlatform lib p l b fldPath).1 = ValidatePlatform lib p fldPath ++ tail := by
  cases b with
  | fail e =>
    rw [validatePlatform_fail]
    exact ⟨_, List.append_assoc _ _ _⟩
  | ok c =>
    cases hl : c.ListNamespace with
    | some e =>
      rw [validatePlatform_unreachable lib p l fldPath c e hl]
      exact ⟨_, List.append_assoc _ _ _⟩
    | none =>
      rw [validatePlatform_reachable lib p l fldPath c hl]
      simp only [List.append_assoc]
      exact ⟨_, rfl⟩

/-- C9. With a kubevirt platform whose namespace and network name are not
empty: when the API VIP is not a valid IP, the error returned by `Validate`
is an aggregate holding an entry at field `platform.kubevirt.APIVIP` with the
API VIP as invalid value and detail `"<vip>" is not a valid IP`; when the API
VIP is valid and the ingress VIP is not, it holds the like entry at field
`platform.kubevirt.IngressVIP`. -/
theorem Validate_invalid_VIP (lib : Lib) (ic : types.InstallConfig)
    (clientBuilderFunc : BuilderResult) (p : types.kubevirt.Platform)
    (hk : ic.Platform.Kubevirt = some p) (hns : p.Namespace ≠ "") (hnn : p.NetworkName ≠ "") :
    (lib.ParseIP p.APIVIP = none →
      ∃ errs, (Validate lib ic clientBuilderFunc).1 = some (GoError.aggregate errs) ∧
        { Type_ := .ErrorTypeInvalid, Field := "platform.kubevirt.APIVIP", BadValue := p.APIVIP,
          Detail := "\"" ++ p.APIVIP ++ "\" is not a valid IP" : field.Error } ∈ errs)
    ∧ (lib.ParseIP p.APIVIP ≠ none → lib.ParseIP p.IngressVIP = none →
      ∃ errs, (Validate lib ic clientBuilderFunc).1 = some (GoError.aggregate errs) ∧
        { Type_ := .ErrorTypeInvalid, Field := "platform.kubevirt.IngressVIP",
          BadValue := p.IngressVIP,
          Detail := "\"" ++ p.IngressVIP ++ "\" is not a valid IP" : field.Error } ∈ errs) := by
  have f3 : (field.Path.Child (field.NewPath "platform" ["kubevirt"])
      "APIVIP").String = "platform.kubevirt.APIVIP" := by decide
  have f4 : (field.Path.Child (field.NewPath "platform" ["kubevirt"])
      "IngressVIP").String = "platform.kubevirt.IngressVIP" := by decide
  obtain ⟨tail, ht⟩ := validatePlatform_starts_with lib p ic.MachineNetwork clientBuilderFunc
    (field.NewPath "platform" ["kubevirt"])
  constructor
  · intro hapi
    have hv : ValidatePlatform lib p (field.NewPath "platform" ["kubevirt"]) =
        { Type_ := .ErrorTypeInvalid, Field := "platform.kubevirt.APIVIP", BadValue := p.APIVIP,
          Detail := "\"" ++ p.APIVIP ++ "\" is not a valid IP" : field.Error }
        :: (validate.IP lib p.IngressVIP).toList.map
          (field.Invalid ((field.NewPath "platform" ["kubevirt"]).Child "IngressVIP")
            p.IngressVIP) := by
      rw [ValidatePlatform_eq]
      simp [hns, hnn, validate.IP, hapi, field.Invalid, f3]
    unfold Validate
    simp only [hk, ht, hv, List.cons_append, field.ToAggregate_cons, Option.map_some']
    exact ⟨_, rfl, List.mem_cons_self _ _⟩
  · intro hapi hing
    obtain ⟨a, ha⟩ := Option.ne_none_iff_exists'.mp hapi
    have hv : ValidatePlatform lib p (field.NewPath "platform" ["kubevirt"]) =
        [{ Type_ := .ErrorTypeInvalid, Field := "platform.kubevirt.IngressVIP",
           BadValue := p.IngressVIP,
           Detail := "\"" ++ p.IngressVIP ++ "\" is not a valid IP" : field.Error }] := by
      rw [ValidatePlatform_eq]
      simp [hns, hnn, validate.IP, ha, hing, field.Invalid, f4]
    unfold Validate
    simp only [hk, ht, hv, List.cons_append, field.ToAggregate_cons, Option.map_some']
    exact ⟨_, rfl, List.mem_cons_self _ _⟩

/-- Witness of C9: the test case `invalid APIVIP`. -/
theorem Validate_invalid_VIP_witness :
    ∃ errs, (Validate sample.lib
        { sample.validInstallConfig with Platform := ⟨some sample.invalidAPIVIPPlatform⟩ }
        (.ok sample.okClient)).1 = some (GoError.aggregate errs) ∧
      { Type_ := .ErrorTypeInvalid, Field := "platform.kubevirt.APIVIP",
        BadValue := "invalid-api-vip",
        Detail := "\"" ++ "invalid-api-vip" ++ "\" is not a valid IP" : field.Error } ∈ errs :=
  (Validate_invalid_VIP sample.lib
    { sample.validInstallConfig with Platform := ⟨some sample.invalidAPIVIPPlatform⟩ }
    (.ok sample.okClient) sample.invalidAPIVIPPlatform rfl (by decide) (by decide)).1 (by decide)

/-- C10. `ValidatePlatform` returns one error per failed check among: empty
namespace, empty network name, invalid API VIP, invalid ingress VIP, in this
order, whatever the other checks give; the list is empty exactly when the four
checks pass; the storage class and the access mode have no influence on it,
and `SetPlatformDefaults` leaves the platform as it is. -/
theorem ValidatePlatform_collects_all (lib : Lib) (p : types.kubevirt.Platform)
    (fldPath : field.Path) :
    ValidatePlatform lib p fldPath =
      (if p.Namespace = "" then
        [field.Invalid (fldPath.Child "Infra Cluster Namespace") p.Namespace
          "Infra Cluster Namespace can't be empty"] else [])
      ++ (if p.NetworkName = "" then
        [field.Invalid (fldPath.Child "NetworkName") p.NetworkName "NetworkName can't be empty"]
        else [])
      ++ (match validate.IP lib p.APIVIP with
        | some err => [field.Invalid (fldPath.Child "APIVIP") p.APIVIP err]
        | none => [])
      ++ (match validate.IP lib p.IngressVIP with
        | some err => [field.Invalid (fldPath.Child "IngressVIP") p.IngressVIP err]
        | none => [])
    ∧ (ValidatePlatform lib p fldPath).length =
      (if p.Namespace = "" then 1 else 0) + (if p.NetworkName = "" then 1 else 0)
        + (if validate.IP lib p.APIVIP = none then 0 else 1)
        + (if validate.IP lib p.IngressVIP = none then 0 else 1)
    ∧ (ValidatePlatform lib p fldPath = [] ↔
        p.Namespace ≠ "" ∧ p.NetworkName ≠ "" ∧ validate.IP lib p.APIVIP = none ∧
          validate.IP lib p.IngressVIP = none)
    ∧ (∀ storageClass accessMode : String,
        ValidatePlatform lib
          { p with StorageClass := storageClass, PersistentVolumeAccessMode := accessMode }
          fldPath = ValidatePlatform lib p fldPath)
    ∧ types.kubevirt.defaults.SetPlatformDefaults p = p := by
  refine ⟨?_, ?_, ValidatePlatform_eq_nil_iff lib p fldPath, ?_, rfl⟩
  · rw [ValidatePlatform_eq]
    cases validate.IP lib p.APIVIP <;> cases validate.IP lib p.IngressVIP <;> simp
  · rw [ValidatePlatform_eq]
    cases validate.IP lib p.APIVIP <;> cases validate.IP lib p.IngressVIP <;>
      by_cases h1 : p.Namespace = "" <;> by_cases h2 : p.NetworkName = "" <;> simp [h1, h2]
  · intro storageClass accessMode
    rw [ValidatePlatform_eq, ValidatePlatform_eq]

end installconfig.kubevirt

namespace installconfig.kubevirt

/-- Witness of C1: the test case `valid`, where every check passes and
`Validate` returns nil. -/
theorem Validate_nil_iff_all_checks_pass_witness :
    AllChecksPass sample.lib sample.validInstallConfig (.ok sample.okClient)
    ∧ (Validate sample.lib sample.validInstallConfig (.ok sample.okClient)).1 = none :=
  have h : AllChecksPass sample.lib sample.validInstallConfig (.ok sample.okClient) :=
    ⟨sample.validPlatform, rfl, by decide, ⟨sample.okClient, rfl, rfl, rfl, rfl, rfl⟩,
      by decide, by decide⟩
  ⟨h, (Validate_nil_iff_all_checks_pass sample.lib sample.validInstallConfig
    (.ok sample.okClient)).1.mp h⟩

end installconfig.kubevirt

/-! ## `ReplaceOrAppend` -/

namespace ignition

theorem mem_firstOccurrences (l : List String) (p : String) :
    p ∈ firstOccurrences l ↔ p ∈ l := by
  induction l with
  | nil => simp [firstOccurrences]
  | cons a l ih =>
    simp only [firstOccurrences, List.mem_cons, List.mem_filter, ih]
    by_cases h : p = a <;> simp [h]

theorem nodup_firstOccurrences (l : List String) : (firstOccurrences l).Nodup := by
  induction l with
  | nil => simp [firstOccurrences]
  | cons a l ih =>
    simp only [firstOccurrences, List.nodup_cons, List.mem_filter]
    exact ⟨by simp, ih.filter _⟩

theorem firstOccurrences_sublist (l : List String) : (firstOccurrences l).Sublist l := by
  induction l with
  | nil => simp [firstOccurrences]
  | cons a l ih =>
    simp only [firstOccurrences]
    exact ((List.filter_sublist _).trans ih).cons₂ a

/-- The paths after one `ReplaceOrAppend`. -/
theorem paths_ReplaceOrAppend (l : List igntypes.File) (c : igntypes.File) :
    (ReplaceOrAppend l c).map (fun f => f.Path) =
      if c.Path ∈ l.map (fun f => f.Path) then l.map (fun f => f.Path)
      else l.map (fun f => f.Path) ++ [c.Path] := by
  induction l with
  | nil => simp [ReplaceOrAppend]
  | cons a l ih =>
    by_cases h : a.Path = c.Path
    · simp [ReplaceOrAppend, h]
    · have h' : ¬ c.Path = a.Path := fun e => h e.symm
      simp only [ReplaceOrAppend, h, if_false, List.map_cons, ih, List.mem_cons, h', false_or]
      split <;> simp

/-- Looking up a path after one `ReplaceOrAppend`. -/
theorem find_ReplaceOrAppend (l : List igntypes.File) (c : igntypes.File) (p : String) :
    (ReplaceOrAppend l c).find? (fun f => f.Path = p) =
      if c.Path = p then some c else l.find? (fun f => f.Path = p) := by
  induction l with
  | nil => by_cases h : c.Path = p <;> simp [ReplaceOrAppend, List.find?, h]
  | cons a l ih =>
    by_cases h : a.Path = c.Path
    · by_cases hp : c.Path = p
      · simp [ReplaceOrAppend, h, hp, List.find?]
      · have : ¬ a.Path = p := fun e => hp (h ▸ e)
        simp [ReplaceOrAppend, h, hp, List.find?]
    · by_cases ha : a.Path = p
      · subst ha
        have : ¬ c.Path = a.Path := fun e => h e.symm
        simp [ReplaceOrAppend, h, this, List.find?]
      · simp [ReplaceOrAppend, h, ha, List.find?, ih]

theorem paths_foldl_ReplaceOrAppend (cs init : List igntypes.File) :
    (cs.foldl ReplaceOrAppend init).map (fun f => f.Path) =
      init.map (fun f => f.Path)
        ++ (firstOccurrences (cs.map (fun f => f.Path))).filter
            (fun q => q ∉ init.map (fun f => f.Path)) := by
  induction cs generalizing init with
  | nil => simp [firstOccurrences]
  | cons c cs ih =>
    simp only [List.foldl_cons, ih, paths_ReplaceOrAppend, List.map_cons, firstOccurrences]
    by_cases h : c.Path ∈ init.map (fun f => f.Path)
    · simp only [h, if_true, List.filter_cons, not_true_eq_false, decide_False, List.filter_filter]
      simp only [Bool.false_eq_true, if_false]
      congr 1
      apply List.filter_congr
      intro q _
      by_cases hq : q = c.Path
      · subst hq; simp [h]
      · simp [hq]
    · simp only [h, if_false, List.filter_cons, not_false_eq_true, decide_True, if_true,
        List.filter_filter, List.append_assoc, List.singleton_append]
      congr 2
      apply List.filter_congr
      intro q _
      by_cases hq : q = c.Path
      · subst hq; simp
      · simp [hq]

theorem find_foldl_ReplaceOrAppend (cs init : List igntypes.File) (p : String) :
    (cs.foldl ReplaceOrAppend init).find? (fun f => f.Path = p) =
      match cs.reverse.find? (fun f => f.Path = p) with
      | some c => some c
      | none => init.find? (fun f => f.Path = p) := by
  induction cs generalizing init with
  | nil => simp
  | cons c cs ih =>
    simp only [List.foldl_cons, ih, List.reverse_cons, List.find?_append, find_ReplaceOrAppend]
    cases h : cs.reverse.find? (fun f => f.Path = p) with
    | some x => simp
    | none => by_cases hc : c.Path = p <;> simp [hc, List.find?]

theorem find_of_mem_nodup (l : List igntypes.File) (f : igntypes.File)
    (hn : (l.map (fun f => f.Path)).Nodup) (hf : f ∈ l) :
    l.find? (fun g => g.Path = f.Path) = some f := by
  induction l with
  | nil => simp at hf
  | cons a l ih =>
    simp only [List.map_cons, List.nodup_cons] at hn
    rcases List.mem_cons.mp hf with rfl | h
    · simp [List.find?]
    · have : ¬ a.Path = f.Path := by
        intro e
        exact hn.1 (e ▸ List.mem_map_of_mem (fun f => f.Path) h)
      simp [List.find?, this, ih hn.2 h]

end ignition

namespace ignition

theorem nodup_foldl_ReplaceOrAppend (cs init : List igntypes.File)
    (hinit : (init.map (fun f => f.Path)).Nodup) :
    ((cs.foldl ReplaceOrAppend init).map (fun f => f.Path)).Nodup := by
  induction cs generalizing init with
  | nil => simpa using hinit
  | cons c cs ih =>
    simp only [List.foldl_cons]
    apply ih
    rw [paths_ReplaceOrAppend]
    split
    · exact hinit
    · rename_i h
      exact List.Nodup.append hinit (by simp) (by simpa using h)

/-- C19. Folding file contributions with `ReplaceOrAppend`, from the empty
list: the final paths are pairwise distinct; they are the contributed paths in
the order of their first contribution (so the position of a path is that of
its first contribution, and paths keep their relative insertion order); the
entry found at a path is the last contribution to that path, with its mode,
owner and contents.  From any list with distinct paths the fold keeps the
paths distinct.  Two contributions to `/etc/foo` with modes 0644 then 0600
leave one `/etc/foo` entry, with mode 0600. -/
theorem ReplaceOrAppend_fold (cs : List igntypes.File) :
    ((cs.foldl ReplaceOrAppend []).map (fun f => f.Path)).Nodup
    ∧ (cs.foldl ReplaceOrAppend []).map (fun f => f.Path)
        = firstOccurrences (cs.map (fun f => f.Path))
    ∧ ((cs.foldl ReplaceOrAppend []).map (fun f => f.Path)).Sublist (cs.map (fun f => f.Path))
    ∧ (∀ p, p ∈ (cs.foldl ReplaceOrAppend []).map (fun f => f.Path)
        ↔ p ∈ cs.map (fun f => f.Path))
    ∧ (∀ p, (cs.foldl ReplaceOrAppend []).find? (fun f => f.Path = p)
        = cs.reverse.find? (fun c => c.Path = p))
    ∧ (∀ f ∈ cs.foldl ReplaceOrAppend [],
        cs.reverse.find? (fun c => c.Path = f.Path) = some f)
    ∧ (∀ init : List igntypes.File, (init.map (fun f => f.Path)).Nodup →
        ((cs.foldl ReplaceOrAppend init).map (fun f => f.Path)).Nodup)
    ∧ [sample.etcFoo0644, sample.etcFoo0600].foldl ReplaceOrAppend [] = [sample.etcFoo0600]
    ∧ sample.etcFoo0600.Path = "/etc/foo" ∧ sample.etcFoo0600.Mode = some 0o600
    ∧ sample.etcFoo0644.Path = "/etc/foo" ∧ sample.etcFoo0644.Mode = some 0o644 := by
  have hpaths : (cs.foldl ReplaceOrAppend []).map (fun f => f.Path)
      = firstOccurrences (cs.map (fun f => f.Path)) := by
    rw [paths_foldl_ReplaceOrAppend]
    simp
  have hfind : ∀ p, (cs.foldl ReplaceOrAppend []).find? (fun f => f.Path = p)
      = cs.reverse.find? (fun c => c.Path = p) := by
    intro p
    rw [find_foldl_ReplaceOrAppend]
    cases cs.reverse.find? (fun f => f.Path = p) <;> simp
  have hnodup : ((cs.foldl ReplaceOrAppend []).map (fun f => f.Path)).Nodup := by
    rw [hpaths]
    exact nodup_firstOccurrences _
  refine ⟨hnodup, hpaths, ?_, ?_, hfind, ?_, fun init hinit =>
    nodup_foldl_ReplaceOrAppend cs init hinit, by decide, rfl, rfl, rfl, rfl⟩
  · rw [hpaths]
    exact firstOccurrences_sublist _
  · intro p
    rw [hpaths]
    exact mem_firstOccurrences _ p
  · intro f hf
    rw [← hfind]
    exact find_of_mem_nodup _ f hnodup hf

/-- Witness of C19: three contributions, two of them to `/etc/foo`; the fold
keeps `/etc/foo` first, with the contents of its last contribution. -/
theorem ReplaceOrAppend_fold_witness :
    [sample.etcFoo0644, sample.etcBar, sample.etcFoo0600].foldl ReplaceOrAppend []
        = [sample.etcFoo0600, sample.etcBar]
    ∧ ([sample.etcFoo0644, sample.etcBar, sample.etcFoo0600].foldl ReplaceOrAppend []).map
        (fun f => f.Path)
      = firstOccurrences ([sample.etcFoo0644, sample.etcBar, sample.etcFoo0600].map
          (fun f => f.Path)) :=
  ⟨by decide, (ReplaceOrAppend_fold [sample.etcFoo0644, sample.etcBar, sample.etcFoo0600]).2.1⟩

end ignition

/-! ## The dependency resolver -/

namespace asset

theorem visitAll_mono {α : Type} (f g : α → List α → Option (List α))
    (h : ∀ d o r, f d o = some r → g d o = some r) (ds : List α) (o r : List α)
    (hf : visitAll f ds o = some r) : visitAll g ds o = some r := by
  induction ds generalizing o with
  | nil => simpa [visitAll] using hf
  | cons d ds ih =>
    simp only [visitAll] at hf ⊢
    cases hd : f d o with
    | none => simp [hd] at hf
    | some o₁ =>
      rw [hd] at hf
      rw [h d o o₁ hd]
      exact ih o₁ hf

theorem visit_succ {α : Type} [DecidableEq α] (deps : α → List α) (fuel : Nat) :
    ∀ a o r, visit deps fuel a o = some r → visit deps (fuel + 1) a o = some r := by
  induction fuel with
  | zero => intro a o r h; simp [visit] at h
  | succ n ih =>
    intro a o r h
    rw [visit] at h ⊢
    by_cases ha : a ∈ o
    · simpa [ha] using h
    · simp only [ha, if_false] at h ⊢
      cases hv : visitAll (visit deps n) (deps a) o with
      | none => simp [hv] at h
      | some o₁ =>
        rw [hv] at h
        rw [visitAll_mono _ _ ih (deps a) o o₁ hv]
        exact h

theorem visit_mono {α : Type} [DecidableEq α] (deps : α → List α) (fuel fuel₂ : Nat)
    (hle : fuel ≤ fuel₂) (a : α) (o r : List α) (h : visit deps fuel a o = some r) :
    visit deps fuel₂ a o = some r := by
  induction hle with
  | refl => exact h
  | step _ ih => exact visit_succ deps _ a o r ih

/-- What a generation order gives in terms of positions. -/
theorem Generated.positions {α : Type} [DecidableEq α] (deps : α → List α) (m : List α)
    (h : Generated deps m) :
    m.reverse.Nodup ∧ ∀ a ∈ m.reverse, ∀ d ∈ deps a,
      d ∈ m.reverse ∧ m.reverse.indexOf d < m.reverse.indexOf a := by
  induction m with
  | nil => simp
  | cons a older ih =>
    obtain ⟨hnew, hdeps, hold⟩ := h
    obtain ⟨hnd, hpos⟩ := ih hold
    have hnew' : a ∉ older.reverse := by simpa using hnew
    refine ⟨?_, ?_⟩
    · rw [List.reverse_cons]
      exact List.Nodup.append hnd (by simp) (by simpa using hnew')
    · intro x hx d hd
      rw [List.reverse_cons] at hx ⊢
      rcases List.mem_append.mp hx with hx | hx
      · obtain ⟨hdm, hlt⟩ := hpos x hx d hd
        refine ⟨List.mem_append_left _ hdm, ?_⟩
        rw [List.indexOf_append_of_mem hdm, List.indexOf_append_of_mem hx]
        exact hlt
      · have hxa : x = a := by simpa using hx
        subst hxa
        have hdm : d ∈ older.reverse := by simpa using hdeps d hd
        refine ⟨List.mem_append_left _ hdm, ?_⟩
        rw [List.indexOf_append_of_mem hdm, List.indexOf_append_of_not_mem hnew']
        have := List.indexOf_lt_length.mpr hdm
        omega

/-- A generation order holding `a` holds everything `a` needs. -/
theorem Generated.closed {α : Type} [DecidableEq α] (deps : α → List α) (res : List α)
    (h : Generated deps res.reverse) (a x : α) (ha : a ∈ res)
    (hx : Relation.ReflTransGen (fun u v => v ∈ deps u) a x) : x ∈ res := by
  have hp := (Generated.positions deps res.reverse h).2
  rw [List.reverse_reverse] at hp
  induction hx with
  | refl => exact ha
  | tail _ hbc ih => exact (hp _ ih _ hbc).1

end asset

namespace asset

/-- On a well-founded dependency graph every visit returns, with enough fuel,
a generation order that extends the given one by assets that the visited
asset needs. -/
theorem visit_total {α : Type} [DecidableEq α] (deps : α → List α)
    (hwf : WellFounded (fun d a => d ∈ deps a))
    (hacyc : ∀ a, ¬ Relation.TransGen (fun u v => v ∈ deps u) a a) (a : α) :
    ∃ n, ∀ order, Generated deps order.reverse →
      ∃ res, visit deps n a order = some res ∧ Generated deps res.reverse ∧
        (∀ x ∈ order, x ∈ res) ∧ a ∈ res ∧
        (∀ x ∈ res, x ∈ order ∨ Relation.ReflTransGen (fun u v => v ∈ deps u) a x) := by
  induction a using hwf.induction with
  | _ a ih =>
    have hall : ∀ ds : List α, (∀ d ∈ ds, d ∈ deps a) →
        ∃ n, ∀ order, Generated deps order.reverse →
          ∃ res, visitAll (visit deps n) ds order = some res ∧ Generated deps res.reverse ∧
            (∀ x ∈ order, x ∈ res) ∧ (∀ d ∈ ds, d ∈ res) ∧
            (∀ x ∈ res, x ∈ order ∨
              ∃ d ∈ ds, Relation.ReflTransGen (fun u v => v ∈ deps u) d x) := by
      intro ds
      induction ds with
      | nil =>
        intro _
        exact ⟨0, fun order h => ⟨order, rfl, h, fun _ hx => hx, by simp,
          fun x hx => Or.inl hx⟩⟩
      | cons d ds ihds =>
        intro hsub
        obtain ⟨n₁, h₁⟩ := ih d (hsub d (List.mem_cons_self _ _))
        obtain ⟨n₂, h₂⟩ := ihds (fun x hx => hsub x (List.mem_cons_of_mem _ hx))
        refine ⟨max n₁ n₂, fun order hord => ?_⟩
        obtain ⟨r₁, hv₁, hg₁, hs₁, hd₁, hr₁⟩ := h₁ order hord
        obtain ⟨r₂, hv₂, hg₂, hs₂, hd₂, hr₂⟩ := h₂ r₁ hg₁
        refine ⟨r₂, ?_, hg₂, fun x hx => hs₂ x (hs₁ x hx), ?_, ?_⟩
        · simp only [visitAll]
          rw [visit_mono deps n₁ _ (le_max_left _ _) d order r₁ hv₁]
          exact visitAll_mono _ _
            (fun d o r h => visit_mono deps n₂ _ (le_max_right _ _) d o r h) ds r₁ r₂ hv₂
        · intro x hx
          rcases List.mem_cons.mp hx with rfl | hx
          · exact hs₂ _ hd₁
          · exact hd₂ x hx
        · intro x hx
          rcases hr₂ x hx with h | ⟨d₂, hd₂m, hreach⟩
          · rcases hr₁ x h with h | h
            · exact Or.inl h
            · exact Or.inr ⟨d, List.mem_cons_self _ _, h⟩
          · exact Or.inr ⟨d₂, List.mem_cons_of_mem _ hd₂m, hreach⟩
    obtain ⟨n, hn⟩ := hall (deps a) (fun _ h => h)
    refine ⟨n + 1, fun order hord => ?_⟩
    by_cases ha : a ∈ order
    · exact ⟨order, by simp [visit, ha], hord, fun _ h => h, ha, fun x hx => Or.inl hx⟩
    · obtain ⟨res, hv, hg, hs, hd, hr⟩ := hn order hord
      have hnew : a ∉ res := by
        intro hmem
        rcases hr a hmem with h | ⟨d, hdm, hreach⟩
        · exact ha h
        · exact hacyc a (Relation.TransGen.head' hdm hreach)
      refine ⟨res ++ [a], by simp [visit, ha, hv], ?_, ?_, by simp, ?_⟩
      · rw [List.reverse_append]
        exact ⟨by simpa using hnew, fun d hdm => by simpa using hd d hdm, hg⟩
      · intro x hx
        exact List.mem_append_left _ (hs x hx)
      · intro x hx
        rcases List.mem_append.mp hx with h | h
        · rcases hr x h with h | ⟨d, hdm, hreach⟩
          · exact Or.inl h
          · exact Or.inr (Relation.ReflTransGen.head hdm hreach)
        · have hxa : x = a := by simpa using h
          subst hxa
          exact Or.inr Relation.ReflTransGen.refl

/-- C20. On an acyclic dependency graph (no asset needs itself, directly or
through other assets) over finitely many asset types, `Resolve(root)` returns:
there is an order that every run with enough fuel returns.  The order holds
exactly the assets reachable from the root, each once, and every declared
dependency of an asset in the order stands strictly before that asset. -/
theorem Resolve_topological {α : Type} [DecidableEq α] [Finite α] (deps : α → List α)
    (hacyc : ∀ a, ¬ Relation.TransGen (fun u v => v ∈ deps u) a a) (root : α) :
    ∃ order : List α,
      (∃ fuel₀, ∀ fuel, fuel₀ ≤ fuel → Resolve deps fuel root = some order)
      ∧ order.Nodup
      ∧ (∀ x, x ∈ order ↔ Relation.ReflTransGen (fun u v => v ∈ deps u) root x)
      ∧ (∀ a ∈ order, ∀ d ∈ deps a, d ∈ order ∧ order.indexOf d < order.indexOf a) := by
  have hwf : WellFounded (fun d a => d ∈ deps a) := by
    have hirr : IsIrrefl α (Relation.TransGen (fun d a => d ∈ deps a)) := by
      constructor
      intro a h
      apply hacyc a
      have := Relation.transGen_swap.mpr h
      exact this
    have := Finite.wellFounded_of_trans_of_irrefl (Relation.TransGen (fun d a => d ∈ deps a))
    exact Subrelation.wf (fun h => Relation.TransGen.single h) this
  obtain ⟨n, hn⟩ := visit_total deps hwf hacyc root
  obtain ⟨res, hv, hg, _, hroot, hr⟩ := hn [] trivial
  have hp := Generated.positions deps res.reverse hg
  rw [List.reverse_reverse] at hp
  refine ⟨res, ⟨n, fun fuel hle => visit_mono deps n fuel hle root [] res hv⟩, hp.1, ?_, hp.2⟩
  intro x
  constructor
  · intro hx
    rcases hr x hx with h | h
    · simp at h
    · exact h
  · intro hx
    exact Generated.closed deps res hg root x hroot hx

end asset

namespace asset

/-- Witness of C20: the diamond of four assets is acyclic, and its resolution
from asset `0` is `3, 1, 2, 0`. -/
theorem Resolve_topological_witness :
    Resolve sample.diamond 3 0 = some [3, 1, 2, 0]
    ∧ ∃ order : List (Fin 4),
      (∃ fuel₀, ∀ fuel, fuel₀ ≤ fuel → Resolve sample.diamond fuel 0 = some order)
      ∧ order.Nodup
      ∧ (∀ x, x ∈ order ↔ Relation.ReflTransGen (fun u v => v ∈ sample.diamond u) 0 x)
      ∧ (∀ a ∈ order, ∀ d ∈ sample.diamond a, d ∈ order ∧ order.indexOf d < order.indexOf a) :=
  ⟨by decide, Resolve_topological sample.diamond (by
    have hstep : ∀ u v : Fin 4, v ∈ sample.diamond u → u < v := by decide
    have hlt : ∀ u v : Fin 4,
        Relation.TransGen (fun u v => v ∈ sample.diamond u) u v → u < v := by
      intro u v h
      induction h with
      | single h => exact hstep _ _ h
      | tail _ h ih => exact lt_trans ih (hstep _ _ h)
    intro a h
    exact lt_irrefl a (hlt a a h)) 0⟩

end asset

/-! ## The ignition assets: `Generate` and `Load` -/

namespace aio

/-- C11. With the install config and the release image in the store and a
control-plane replica count other than 1, `AIO.Generate` returns the error
`failed to get aio templates: All-in-one configurations must use a single
control plane replica`; the asset (its `Config` and its `File`) is as before
the call; the only steps made are the two queries of the store, so no
template is rendered and no parent file is added. -/
theorem Generate_replicas_not_one (env : ignition.Env) (dependencies : asset.Parents)
    (a : AIOAsset) (controlPlane : types.MachinePool) (replicas : Int)
    (h₁ : dependencies.has .installconfig_InstallConfig = true)
    (h₂ : dependencies.has .releaseimage_Image = true)
    (hcp : dependencies.InstallConfig.ControlPlane = some controlPlane)
    (hr : controlPlane.Replicas = some replicas) (hne : replicas ≠ 1) :
    (Generate env dependencies a).outcome = .returned (some
      "failed to get aio templates: All-in-one configurations must use a single control plane replica")
    ∧ (Generate env dependencies a).state = a
    ∧ (Generate env dependencies a).state.Config = a.Config
    ∧ (Generate env dependencies a).state.File = a.File
    ∧ (Generate env dependencies a).log =
        [asset.Event.Get .installconfig_InstallConfig, asset.Event.Get .releaseimage_Image]
    ∧ (∀ base uri, asset.Event.AddStorageFiles base uri ∉ (Generate env dependencies a).log)
    ∧ (∀ uri, asset.Event.AddSystemdUnits uri ∉ (Generate env dependencies a).log) := by
  have hg : dependencies.Get [.installconfig_InstallConfig, .releaseimage_Image] =
      ([asset.Event.Get .installconfig_InstallConfig, asset.Event.Get .releaseimage_Image],
        none) := by
    simp [asset.Parents.Get, h₁, h₂]
  have ht : getTemplateData env dependencies.InstallConfig dependencies.PullSpec =
      .error (.error "All-in-one configurations must use a single control plane replica") := by
    simp [getTemplateData, hcp, hr, hne]
  have hrun : Generate env dependencies a =
      { state := a,
        outcome := .returned (some ("failed to get aio templates: "
          ++ "All-in-one configurations must use a single control plane replica")),
        log := [asset.Event.Get .installconfig_InstallConfig,
          asset.Event.Get .releaseimage_Image] } := by
    simp only [Generate, hg, ht]
  rw [hrun]
  refine ⟨rfl, rfl, rfl, rfl, rfl, ?_, ?_⟩
  · intro base uri
    simp
  · intro uri
    simp

/-- Witness of C11: three control-plane replicas. -/
theorem Generate_replicas_not_one_witness :
    (Generate sample.env sample.threeReplicaParents sample.freshAIO).outcome = .returned (some
      "failed to get aio templates: All-in-one configurations must use a single control plane replica")
    ∧ (Generate sample.env sample.threeReplicaParents sample.freshAIO).state = sample.freshAIO :=
  have h := Generate_replicas_not_one sample.env sample.threeReplicaParents sample.freshAIO
    { Replicas := some 3 } 3 rfl rfl rfl rfl (by decide)
  ⟨h.1, h.2.1⟩

end aio

namespace ignition

/-- C12. `Bootstrap.Load` and `AIO.Load` fetch the artifact by its fixed name
(`bootstrap.ign`, `aio.ign`).  When the fetcher fails with an error of which
`os.IsNotExist` holds, `Load` returns `(false, nil)`; when it fails with
another error, `Load` returns `(false, that error)`; in both cases the asset
is as before the call. -/
theorem Load_fetch_error (env : Env) (b : bootstrap.Bootstrap) (a : aio.AIOAsset)
    (f : asset.FileFetcher) :
    (∀ errB, f.FetchByName "bootstrap.ign" = .error errB →
      (bootstrap.Load env b f).found = false
      ∧ (bootstrap.Load env b f).err = (if errB.notExist then none else some (.fetch errB))
      ∧ (bootstrap.Load env b f).state = b
      ∧ (bootstrap.Load env b f).state.File = b.File
      ∧ (bootstrap.Load env b f).state.Config = b.Config)
    ∧ (∀ errA, f.FetchByName "aio.ign" = .error errA →
      (aio.Load env a f).found = false
      ∧ (aio.Load env a f).err = (if errA.notExist then none else some (.fetch errA))
      ∧ (aio.Load env a f).state = a
      ∧ (aio.Load env a f).state.File = a.File
      ∧ (aio.Load env a f).state.Config = a.Config)
    ∧ bootstrap.bootstrapIgnFilename = "bootstrap.ign" ∧ aio.aioIgnFilename = "aio.ign" := by
  refine ⟨fun errB hb => ?_, fun errA ha => ?_, rfl, rfl⟩
  · have hb₂ : f.FetchByName bootstrap.bootstrapIgnFilename = .error errB := hb
    unfold bootstrap.Load
    rw [hb₂]
    cases h : errB.notExist <;> simp [h]
  · have ha₂ : f.FetchByName aio.aioIgnFilename = .error errA := ha
    unfold aio.Load
    rw [ha₂]
    cases h : errA.notExist <;> simp [h]

/-- Witness of C12: a fetcher that has no file at all. -/
theorem Load_fetch_error_witness :
    (bootstrap.Load sample.env sample.freshBootstrap sample.emptyFetcher).found = false
    ∧ (bootstrap.Load sample.env sample.freshBootstrap sample.emptyFetcher).err = none
    ∧ (aio.Load sample.env sample.freshAIO sample.emptyFetcher).found = false
    ∧ (aio.Load sample.env sample.freshAIO sample.emptyFetcher).err = none :=
  have h := Load_fetch_error sample.env sample.freshBootstrap sample.freshAIO
    sample.emptyFetcher
  have hb := h.1 ⟨"file does not exist", true⟩ rfl
  have ha := h.2.1 ⟨"file does not exist", true⟩ rfl
  ⟨hb.1, hb.2.1, ha.1, ha.2.1⟩

/-- C13. When the artifact is fetched but its bytes do not deserialize,
`Bootstrap.Load` and `AIO.Load` return `found = false` with a non-nil error
(the error of the deserializer wrapped with `failed to unmarshal <name>`), and
the asset is as before the call: `File` and `Config` keep their values. -/
theorem Load_corrupt (env : Env) (b : bootstrap.Bootstrap) (a : aio.AIOAsset)
    (f : asset.FileFetcher) :
    (∀ fileB errB, f.FetchByName "bootstrap.ign" = .ok fileB →
      env.jsonUnmarshal fileB.Data = .error errB →
      (bootstrap.Load env b f).found = false
      ∧ (bootstrap.Load env b f).err
          = some (.unmarshal ("failed to unmarshal bootstrap.ign: " ++ errB))
      ∧ (bootstrap.Load env b f).err ≠ none
      ∧ (bootstrap.Load env b f).state = b
      ∧ (bootstrap.Load env b f).state.File = b.File
      ∧ (bootstrap.Load env b f).state.Config = b.Config)
    ∧ (∀ fileA errA, f.FetchByName "aio.ign" = .ok fileA →
      env.jsonUnmarshal fileA.Data = .error errA →
      (aio.Load env a f).found = false
      ∧ (aio.Load env a f).err = some (.unmarshal ("failed to unmarshal aio.ign: " ++ errA))
      ∧ (aio.Load env a f).err ≠ none
      ∧ (aio.Load env a f).state = a
      ∧ (aio.Load env a f).state.File = a.File
      ∧ (aio.Load env a f).state.Config = a.Config) := by
  refine ⟨fun fileB errB hb hub => ?_, fun fileA errA ha hua => ?_⟩
  · have hb₂ : f.FetchByName bootstrap.bootstrapIgnFilename = .ok fileB := hb
    have hnb : ("failed to unmarshal " ++ bootstrap.bootstrapIgnFilename ++ ": " ++ errB)
        = "failed to unmarshal bootstrap.ign: " ++ errB := by
      have : "failed to unmarshal " ++ bootstrap.bootstrapIgnFilename ++ ": "
          = "failed to unmarshal bootstrap.ign: " := by decide
      rw [this]
    unfold bootstrap.Load
    rw [hb₂]
    simp only [hub, hnb]
    simp
  · have ha₂ : f.FetchByName aio.aioIgnFilename = .ok fileA := ha
    have hna : ("failed to unmarshal " ++ aio.aioIgnFilename ++ ": " ++ errA)
        = "failed to unmarshal aio.ign: " ++ errA := by
      have : "failed to unmarshal " ++ aio.aioIgnFilename ++ ": "
          = "failed to unmarshal aio.ign: " := by decide
      rw [this]
    unfold aio.Load
    rw [ha₂]
    simp only [hua, hna]
    simp

/-- Witness of C13: a fetcher serving an empty artifact under both names. -/
theorem Load_corrupt_witness :
    (bootstrap.Load sample.env sample.freshBootstrap sample.corruptFetcher).found = false
    ∧ (bootstrap.Load sample.env sample.freshBootstrap sample.corruptFetcher).err ≠ none
    ∧ (bootstrap.Load sample.env sample.freshBootstrap sample.corruptFetcher).state
        = sample.freshBootstrap
    ∧ (aio.Load sample.env sample.freshAIO sample.corruptFetcher).found = false
    ∧ (aio.Load sample.env sample.freshAIO sample.corruptFetcher).err ≠ none
    ∧ (aio.Load sample.env sample.freshAIO sample.corruptFetcher).state = sample.freshAIO :=
  have h := Load_corrupt sample.env sample.freshBootstrap sample.freshAIO
    sample.corruptFetcher
  have hb := h.1 ⟨"bootstrap.ign", []⟩ "unexpected end of JSON input" rfl rfl
  have ha := h.2 ⟨"aio.ign", []⟩ "unexpected end of JSON input" rfl rfl
  ⟨hb.1, hb.2.2.1, hb.2.2.2.1, ha.1, ha.2.2.1, ha.2.2.2.1⟩

end ignition

namespace bootstrap

/-- C14. When the artifact is fetched and deserializes, `Bootstrap.Load`
returns `(true, nil)` with `File` the fetched file and `Config` the
deserialized config, for every config; it takes no parents store.  The
certificate scan only writes the log: the returned pair and the asset are the
same in every environment with the same deserializer, whatever its clock and
its certificate functions.  On the sample environment the scan logs an
expired certificate, an undecodable one, or nothing, and `Load` returns the
same pair in the three cases. -/
theorem Load_found (env : ignition.Env) (b : Bootstrap) (f : asset.FileFetcher)
    (file : asset.File) (config : igntypes.Config)
    (hf : f.FetchByName "bootstrap.ign" = .ok file)
    (hu : env.jsonUnmarshal file.Data = .ok config) :
    (Load env b f).found = true
    ∧ (Load env b f).err = none
    ∧ (Load env b f).state.File = some file
    ∧ (Load env b f).state.Config = some config
    ∧ (Load env b f).state.bootstrapInPlace = b.bootstrapInPlace
    ∧ (Load env b f).log = warnIfCertificatesExpired env config
    ∧ (∀ env₂ : ignition.Env, env₂.jsonUnmarshal = env.jsonUnmarshal →
        (Load env₂ b f).found = (Load env b f).found
        ∧ (Load env₂ b f).err = (Load env b f).err
        ∧ (Load env₂ b f).state = (Load env b f).state)
    ∧ warnIfCertificatesExpired sample.env sample.expiredCertConfig
        = [ignition.LogEntry.expired "root-ca.crt" 1, ignition.LogEntry.expiredCount 1]
    ∧ warnIfCertificatesExpired sample.env sample.undecodableCertConfig
        = [ignition.LogEntry.unableToDecode "root-ca.crt" "not a data URL"]
    ∧ warnIfCertificatesExpired sample.env ignition.freshConfig = [] := by
  have hf₂ : f.FetchByName bootstrapIgnFilename = .ok file := hf
  have hrun : ∀ env₂ : ignition.Env, env₂.jsonUnmarshal = env.jsonUnmarshal →
      Load env₂ b f =
        { state := { b with File := some file, Config := some config },
          found := true, err := none, log := warnIfCertificatesExpired env₂ config } := by
    intro env₂ h
    unfold Load
    rw [hf₂]
    simp only [h, hu]
  have hcert : certLoop sample.env "root-ca.crt" [1]
      = ([ignition.LogEntry.expired "root-ca.crt" 1], 1) := by
    rw [certLoop]
    simp only [sample.env, sample.pemDecode]
    rw [certLoop]
    simp [sample.pemDecode]
  refine ⟨?_, ?_, ?_, ?_, ?_, ?_, ?_, ?_, by decide, by decide⟩
  · rw [hrun env rfl]
  · rw [hrun env rfl]
  · rw [hrun env rfl]
  · rw [hrun env rfl]
  · rw [hrun env rfl]
  · rw [hrun env rfl]
  · intro env₂ h
    rw [hrun env rfl, hrun env₂ h]
    exact ⟨rfl, rfl, rfl⟩
  · have hscan : scanFile sample.env
        (ignition.FileFromBytes sample.env "/opt/openshift/tls/root-ca.crt" "root" 0o644 [1])
        = ([ignition.LogEntry.expired "root-ca.crt" 1], 1) := by
      have hbase : sample.env.Base "/opt/openshift/tls/root-ca.crt" = "root-ca.crt" := by decide
      have hext : sample.env.Ext "/opt/openshift/tls/root-ca.crt" = ".crt" := by decide
      have hdec : sample.env.DecodeString (sample.env.EncodeBytes [1]) = .ok [1] := by rfl
      simp only [scanFile, ignition.FileFromBytes, hext, hbase, hdec, if_true, hcert]
    simp [warnIfCertificatesExpired, sample.expiredCertConfig, hscan]

/-- Witness of C14: loading an artifact that holds the fresh config. -/
theorem Load_found_witness :
    (Load sample.env sample.freshBootstrap (sample.fetcherOf [sample.freshArtifact])).found = true
    ∧ (Load sample.env sample.freshBootstrap
        (sample.fetcherOf [sample.freshArtifact])).state.Config = some ignition.freshConfig :=
  have h := Load_found sample.env sample.freshBootstrap (sample.fetcherOf [sample.freshArtifact])
    sample.freshArtifact ignition.freshConfig rfl rfl
  ⟨h.1, h.2.2.2.1⟩

end bootstrap

namespace aio

/-- How `AIO.Generate` leaves the asset when it returns. -/
theorem AIO_Generate_returned (env : ignition.Env) (dependencies : asset.Parents) (a : AIOAsset) :
    ((Generate env dependencies a).outcome = .returned none →
      ∃ config data, env.jsonMarshal config = .ok data ∧
        (Generate env dependencies a).state =
          { Config := some config, File := some { Filename := aioIgnFilename, Data := data } })
    ∧ (∀ e, (Generate env dependencies a).outcome = .returned (some e) →
        (Generate env dependencies a).state.File = a.File ∧
        ((∃ te, getTemplateData env dependencies.InstallConfig dependencies.PullSpec
              = .error (.error te) ∧ (Generate env dependencies a).state = a) ∨
          ((∃ td, getTemplateData env dependencies.InstallConfig dependencies.PullSpec = .ok td) ∧
            ∃ config, (Generate env dependencies a).state.Config = some config))) := by
  unfold Generate
  simp only []
  cases hg : (dependencies.Get [.installconfig_InstallConfig, .releaseimage_Image]).2 with
  | some m => simp
  | none =>
    cases ht : getTemplateData env dependencies.InstallConfig dependencies.PullSpec with
    | error f => cases f <;> simp
    | ok td =>
      simp only []
      cases h₁ : (ignition.AddStorageFiles env ignition.freshConfig "/" "aio/files"
          (.aio td)).2 with
      | some e₁ => simp
      | none =>
        simp only []
        split
        · simp
        · split
          · simp
          · split
            · simp
            · rename_i data hm
              exact ⟨fun _ => ⟨_, data, hm, rfl⟩, by simp⟩

end aio

namespace bootstrap

theorem generateTail_returned (env : ignition.Env) (dependencies : asset.Parents) (a : Bootstrap)
    (config : igntypes.Config) (log : List asset.Event) :
    ((generateTail env dependencies a config log).outcome = .returned none →
      ∃ c data, env.ignitionMarshal c = .ok data ∧
        (generateTail env dependencies a config log).state =
          { a with Config := some c,
                   File := some { Filename := bootstrapIgnFilename, Data := data } })
    ∧ (∀ e, (generateTail env dependencies a config log).outcome = .returned (some e) →
        (generateTail env dependencies a config log).state.File = a.File ∧
        (generateTail env dependencies a config log).state.bootstrapInPlace = a.bootstrapInPlace ∧
        ∃ c, (generateTail env dependencies a config log).state.Config = some c) := by
  unfold generateTail
  simp only []
  split
  · simp
  · split
    · simp
    · split
      · simp
      · split
        · simp
        · rename_i data hm
          exact ⟨fun _ => ⟨_, data, hm, rfl⟩, by simp⟩

theorem generatePlatformUnits_returned (env : ignition.Env) (dependencies : asset.Parents)
    (a : Bootstrap) (td : bootstrapTemplateData) (platform : String) (config : igntypes.Config)
    (log : List asset.Event) :
    ((generatePlatformUnits env dependencies a td platform config log).outcome = .returned none →
      ∃ c data, env.ignitionMarshal c = .ok data ∧
        (generatePlatformUnits env dependencies a td platform config log).state =
          { a with Config := some c,
                   File := some { Filename := bootstrapIgnFilename, Data := data } })
    ∧ (∀ e, (generatePlatformUnits env dependencies a td platform config log).outcome
          = .returned (some e) →
        (generatePlatformUnits env dependencies a td platform config log).state.File = a.File ∧
        (generatePlatformUnits env dependencies a td platform config log).state.bootstrapInPlace
          = a.bootstrapInPlace ∧
        ∃ c, (generatePlatformUnits env dependencies a td platform config log).state.Config
          = some c) := by
  unfold generatePlatformUnits
  simp only []
  split
  · split
    · simp
    · exact generateTail_returned env dependencies a _ _
  · exact generateTail_returned env dependencies a _ _

theorem generatePlatformFiles_returned (env : ignition.Env) (dependencies : asset.Parents)
    (a : Bootstrap) (td : bootstrapTemplateData) (config : igntypes.Config)
    (log : List asset.Event) :
    ((generatePlatformFiles env dependencies a td config log).outcome = .returned none →
      ∃ c data, env.ignitionMarshal c = .ok data ∧
        (generatePlatformFiles env dependencies a td config log).state =
          { a with Config := some c,
                   File := some { Filename := bootstrapIgnFilename, Data := data } })
    ∧ (∀ e, (generatePlatformFiles env dependencies a td config log).outcome
          = .returned (some e) →
        (generatePlatformFiles env dependencies a td config log).state.File = a.File ∧
        (generatePlatformFiles env dependencies a td config log).state.bootstrapInPlace
          = a.bootstrapInPlace ∧
        ∃ c, (generatePlatformFiles env dependencies a td config log).state.Config = some c) := by
  unfold generatePlatformFiles
  simp only []
  split
  · split
    · simp
    · exact generatePlatformUnits_returned env dependencies a td _ _ _
  · exact generatePlatformUnits_returned env dependencies a td _ _ _

/-- `getTemplateData` of the bootstrap asset returns no error. -/
theorem getTemplateData_no_error (a : Bootstrap) (env : ignition.Env)
    (installConfig : types.InstallConfig) (releaseImage : String)
    (imageSources : List types.ImageContentSource) (proxy rhcosImage user password : String)
    (e : String) :
    getTemplateData a env installConfig releaseImage imageSources proxy rhcosImage user password
      ≠ .error (.error e) := by
  unfold getTemplateData
  split
  · simp
  · split
    · simp
    · split <;> simp

/-- How `Bootstrap.Generate` leaves the asset when it returns. -/
theorem Bootstrap_Generate_returned (env : ignition.Env) (dependencies : asset.Parents) (a : Bootstrap) :
    ((Generate env dependencies a).outcome = .returned none →
      ∃ c data, env.ignitionMarshal c = .ok data ∧
        (Generate env dependencies a).state =
          { a with Config := some c,
                   File := some { Filename := bootstrapIgnFilename, Data := data } })
    ∧ (∀ e, (Generate env dependencies a).outcome = .returned (some e) →
        (Generate env dependencies a).state.File = a.File ∧
        (Generate env dependencies a).state.bootstrapInPlace = a.bootstrapInPlace ∧
        ∃ c, (Generate env dependencies a).state.Config = some c) := by
  unfold Generate
  simp only []
  split
  · simp
  · split
    · rename_i err ht
      exact absurd ht (getTemplateData_no_error _ _ _ _ _ _ _ _ _ _)
    · simp
    · split
      · simp
      · split
        · simp
        · exact generatePlatformFiles_returned env dependencies a _ _ _

end bootstrap

namespace ignition

/-- C15. Round trip.  Let `Generate` of the bootstrap asset (of the
all-in-one asset) return nil, let a fetcher serve the produced `File` under
its name, and let the deserializer read the serialized config back with the
same storage files, systemd units and passwd users.  Then `Load` on any
asset, a fresh one included, returns `(true, nil)`; its `File` is the
generated file, named `bootstrap.ign` (`aio.ign`), with the same bytes; and
its `Config` equals the generated `Config` in storage files, systemd units
and passwd users. -/
theorem Load_Generate_round_trip (env : Env) (dependencies : asset.Parents)
    (b b₀ : bootstrap.Bootstrap) (a a₀ : aio.AIOAsset) (fb fa : asset.FileFetcher) :
    ((bootstrap.Generate env dependencies b).outcome = .returned none →
      (∀ file, (bootstrap.Generate env dependencies b).state.File = some file →
        fb.FetchByName file.Filename = .ok file) →
      (∀ c data, (bootstrap.Generate env dependencies b).state.Config = some c →
        env.ignitionMarshal c = .ok data →
        ∃ c₂, env.jsonUnmarshal data = .ok c₂ ∧ c₂.Storage.Files = c.Storage.Files ∧
          c₂.Systemd.Units = c.Systemd.Units ∧ c₂.Passwd.Users = c.Passwd.Users) →
      (bootstrap.Load env b₀ fb).found = true
      ∧ (bootstrap.Load env b₀ fb).err = none
      ∧ (bootstrap.Load env b₀ fb).state.File = (bootstrap.Generate env dependencies b).state.File
      ∧ (∃ data, (bootstrap.Load env b₀ fb).state.File
          = some { Filename := "bootstrap.ign", Data := data })
      ∧ ∃ c c₂, (bootstrap.Generate env dependencies b).state.Config = some c
          ∧ (bootstrap.Load env b₀ fb).state.Config = some c₂
          ∧ c₂.Storage.Files = c.Storage.Files ∧ c₂.Systemd.Units = c.Systemd.Units
          ∧ c₂.Passwd.Users = c.Passwd.Users)
    ∧ ((aio.Generate env dependencies a).outcome = .returned none →
      (∀ file, (aio.Generate env dependencies a).state.File = some file →
        fa.FetchByName file.Filename = .ok file) →
      (∀ c data, (aio.Generate env dependencies a).state.Config = some c →
        env.jsonMarshal c = .ok data →
        ∃ c₂, env.jsonUnmarshal data = .ok c₂ ∧ c₂.Storage.Files = c.Storage.Files ∧
          c₂.Systemd.Units = c.Systemd.Units ∧ c₂.Passwd.Users = c.Passwd.Users) →
      (aio.Load env a₀ fa).found = true
      ∧ (aio.Load env a₀ fa).err = none
      ∧ (aio.Load env a₀ fa).state.File = (aio.Generate env dependencies a).state.File
      ∧ (∃ data, (aio.Load env a₀ fa).state.File = some { Filename := "aio.ign", Data := data })
      ∧ ∃ c c₂, (aio.Generate env dependencies a).state.Config = some c
          ∧ (aio.Load env a₀ fa).state.Config = some c₂
          ∧ c₂.Storage.Files = c.Storage.Files ∧ c₂.Systemd.Units = c.Systemd.Units
          ∧ c₂.Passwd.Users = c.Passwd.Users) := by
  refine ⟨fun hgb hfb hcb => ?_, fun hga hfa hca => ?_⟩
  · obtain ⟨c, data, hm, hs⟩ := (bootstrap.Bootstrap_Generate_returned env dependencies b).1 hgb
    have hfile : (bootstrap.Generate env dependencies b).state.File
        = some { Filename := bootstrap.bootstrapIgnFilename, Data := data } := by rw [hs]
    have hconfig : (bootstrap.Generate env dependencies b).state.Config = some c := by rw [hs]
    obtain ⟨c₂, hu, h₁, h₂, h₃⟩ := hcb c data hconfig hm
    have hfetch : fb.FetchByName bootstrap.bootstrapIgnFilename
        = .ok { Filename := bootstrap.bootstrapIgnFilename, Data := data } := hfb _ hfile
    have hload : bootstrap.Load env b₀ fb =
        { state := { b₀ with File := some { Filename := bootstrap.bootstrapIgnFilename,
                                            Data := data },
                             Config := some c₂ },
          found := true, err := none, log := bootstrap.warnIfCertificatesExpired env c₂ } := by
      unfold bootstrap.Load
      rw [hfetch]
      simp only [hu]
    rw [hload, hfile, hconfig]
    exact ⟨rfl, rfl, rfl, ⟨data, rfl⟩, c, c₂, rfl, rfl, h₁, h₂, h₃⟩
  · obtain ⟨c, data, hm, hs⟩ := (aio.AIO_Generate_returned env dependencies a).1 hga
    have hfile : (aio.Generate env dependencies a).state.File
        = some { Filename := aio.aioIgnFilename, Data := data } := by rw [hs]
    have hconfig : (aio.Generate env dependencies a).state.Config = some c := by rw [hs]
    obtain ⟨c₂, hu, h₁, h₂, h₃⟩ := hca c data hconfig hm
    have hfetch : fa.FetchByName aio.aioIgnFilename
        = .ok { Filename := aio.aioIgnFilename, Data := data } := hfa _ hfile
    have hload : aio.Load env a₀ fa =
        { state := { a₀ with File := some { Filename := aio.aioIgnFilename, Data := data },
                             Config := some c₂ },
          found := true, err := none, log := [] } := by
      unfold aio.Load
      rw [hfetch]
      simp only [hu]
    rw [hload, hfile, hconfig]
    exact ⟨rfl, rfl, rfl, ⟨data, rfl⟩, c, c₂, rfl, rfl, h₁, h₂, h₃⟩

end ignition

/-! ## The sample serializer reads back what it writes -/

namespace sample

theorem getString_put (s : String) (rest : List Nat) :
    getString (putString s ++ rest) = some (s, rest) := by
  have hlen : (s.toList.map Char.toNat).length = s.length := by
    rw [List.length_map]
    rfl
  have hchars : (s.toList.map Char.toNat).map Char.ofNat = s.toList := by
    rw [List.map_map]
    conv => rhs; rw [← List.map_id s.toList]
    apply List.map_congr_left
    intro c _
    simp [Char.ofNat_toNat]
  simp only [putString, List.cons_append, getString]
  have hnot : ¬ (s.toList.map Char.toNat ++ rest).length < s.length := by
    rw [List.length_append, hlen]
    omega
  rw [if_neg hnot]
  have htake : (s.toList.map Char.toNat ++ rest).take s.length = s.toList.map Char.toNat := by
    rw [← hlen, List.take_left']
    rfl
  have hdrop : (s.toList.map Char.toNat ++ rest).drop s.length = rest := by
    rw [← hlen, List.drop_left']
    rfl
  rw [htake, hdrop, hchars]
  cases s
  rfl

theorem getOptString_put (s : Option String) (rest : List Nat) :
    getOptString (putOptString s ++ rest) = some (s, rest) := by
  cases s with
  | none => simp [putOptString, getOptString]
  | some s =>
    simp only [putOptString, List.cons_append, getOptString, getString_put]

theorem getOptNat_put (n : Option Nat) (rest : List Nat) :
    getOptNat (putOptNat n ++ rest) = some (n, rest) := by
  cases n <;> simp [putOptNat, getOptNat]

theorem getOptBool_put (b : Option Bool) (rest : List Nat) :
    getOptBool (putOptBool b ++ rest) = some (b, rest) := by
  cases b with
  | none => simp [putOptBool, getOptBool]
  | some b => cases b <;> simp [putOptBool, getOptBool]

theorem getMany_put {α : Type} (put : α → List Nat) (get : List Nat → Option (α × List Nat))
    (h : ∀ x rest, get (put x ++ rest) = some (x, rest)) (l : List α) (rest : List Nat) :
    getMany get l.length ((l.map put).flatten ++ rest) = some (l, rest) := by
  induction l with
  | nil => simp [getMany]
  | cons x xs ih =>
    simp only [List.length_cons, List.map_cons, List.flatten_cons, List.append_assoc, getMany,
      h, ih]

theorem getList_put {α : Type} (put : α → List Nat) (get : List Nat → Option (α × List Nat))
    (h : ∀ x rest, get (put x ++ rest) = some (x, rest)) (l : List α) (rest : List Nat) :
    getList get (putList put l ++ rest) = some (l, rest) := by
  simp only [putList, List.cons_append, getList, getMany_put put get h]

theorem getFile_put (f : igntypes.File) (rest : List Nat) :
    getFile (putFile f ++ rest) = some (f, rest) := by
  simp only [putFile, getFile, List.append_assoc, getString_put, getOptString_put,
    getOptNat_put, getOptBool_put]

theorem getUnit_put (u : igntypes.Unit) (rest : List Nat) :
    getUnit (putUnit u ++ rest) = some (u, rest) := by
  simp only [putUnit, getUnit, List.append_assoc, getString_put, getOptString_put,
    getOptBool_put]

theorem getUser_put (u : igntypes.PasswdUser) (rest : List Nat) :
    getUser (putUser u ++ rest) = some (u, rest) := by
  simp only [putUser, getUser, List.append_assoc, getString_put,
    getList_put putString getString getString_put]

/-- The sample deserializer reads back every config that the sample
serializer writes. -/
theorem unmarshal_marshal (c : igntypes.Config) (data : List Nat)
    (h : marshal c = .ok data) : unmarshal data = .ok c := by
  simp only [marshal, Except.ok.injEq] at h
  subst h
  have hlast : getList getUnit (putList putUnit c.Systemd.Units)
      = some (c.Systemd.Units, []) := by
    have := getList_put putUnit getUnit getUnit_put c.Systemd.Units []
    simpa using this
  simp only [unmarshal, List.append_assoc, getString_put,
    getList_put putUser getUser getUser_put, getList_put putFile getFile getFile_put, hlast]

end sample

namespace ignition

/-- Witness of C15: on the sample environment and store both assets are
generated, served back by name and loaded. -/
theorem Load_Generate_round_trip_witness :
    (bootstrap.Load sample.env sample.freshBootstrap
        (sample.fetcherOf ((bootstrap.Files
          (bootstrap.Generate sample.env sample.parents sample.freshBootstrap).state).getD
            []))).found
      = true
    ∧ (aio.Load sample.env sample.freshAIO
        (sample.fetcherOf ((aio.Files
          (aio.Generate sample.env sample.parents sample.freshAIO).state).getD []))).found
      = true :=
  have h := Load_Generate_round_trip sample.env sample.parents sample.freshBootstrap
    sample.freshBootstrap sample.freshAIO sample.freshAIO
    (sample.fetcherOf ((bootstrap.Files
      (bootstrap.Generate sample.env sample.parents sample.freshBootstrap).state).getD []))
    (sample.fetcherOf ((aio.Files
      (aio.Generate sample.env sample.parents sample.freshAIO).state).getD []))
  have hb := h.1 (by decide)
    (fun file hf => by simp [bootstrap.Files, hf, sample.fetcherOf])
    (fun c data _ hm => ⟨c, sample.unmarshal_marshal c data hm, rfl, rfl, rfl⟩)
  have ha := h.2 (by decide)
    (fun file hf => by simp [aio.Files, hf, sample.fetcherOf])
    (fun c data _ hm => ⟨c, sample.unmarshal_marshal c data hm, rfl, rfl, rfl⟩)
  ⟨hb.1, ha.1⟩

end ignition

namespace ignition

/-- Counterexample to C16 as stated: with a renderer that fails on the first
template directory, `AIO.Generate` and `Bootstrap.Generate` return that error
on a fresh asset, and `Config`, nil before the call, holds the config under
construction after it. -/
theorem Generate_error_leaves_Config_assigned :
    ((aio.Generate sample.failingEnv sample.parents sample.freshAIO).outcome
        = .returned (some "template: parse error")
      ∧ ¬ ((aio.Generate sample.failingEnv sample.parents sample.freshAIO).state.File
            = sample.freshAIO.File
          ∧ (aio.Generate sample.failingEnv sample.parents sample.freshAIO).state.Config
            = sample.freshAIO.Config))
    ∧ ((bootstrap.Generate sample.failingEnv sample.parents sample.freshBootstrap).outcome
        = .returned (some "template: parse error")
      ∧ ¬ ((bootstrap.Generate sample.failingEnv sample.parents sample.freshBootstrap).state.File
            = sample.freshBootstrap.File
          ∧ (bootstrap.Generate sample.failingEnv sample.parents
              sample.freshBootstrap).state.Config = sample.freshBootstrap.Config)) := by
  decide

/-- C16, amended.  When `Bootstrap.Generate` or `AIO.Generate` returns an
error, `File` has not been assigned by the call.  `Config` is as before the
call when the error is the template-data error of `AIO.getTemplateData`; in
every other case (`Bootstrap.getTemplateData` returns no error) `Config` has
been assigned the config under construction. -/
theorem Generate_error_keeps_File (env : Env) (dependencies : asset.Parents)
    (b : bootstrap.Bootstrap) (a : aio.AIOAsset) :
    (∀ e, (bootstrap.Generate env dependencies b).outcome = .returned (some e) →
      (bootstrap.Generate env dependencies b).state.File = b.File
      ∧ (bootstrap.Generate env dependencies b).state.bootstrapInPlace = b.bootstrapInPlace
      ∧ ∃ c, (bootstrap.Generate env dependencies b).state.Config = some c)
    ∧ (∀ e, (aio.Generate env dependencies a).outcome = .returned (some e) →
      (aio.Generate env dependencies a).state.File = a.File
      ∧ ((∃ te, aio.getTemplateData env dependencies.InstallConfig dependencies.PullSpec
              = .error (.error te) ∧ (aio.Generate env dependencies a).state = a)
        ∨ ((∃ td, aio.getTemplateData env dependencies.InstallConfig dependencies.PullSpec
              = .ok td)
          ∧ ∃ c, (aio.Generate env dependencies a).state.Config = some c))) :=
  ⟨(bootstrap.Bootstrap_Generate_returned env dependencies b).2,
    (aio.AIO_Generate_returned env dependencies a).2⟩

/-- Witness of the amended C16: the failing renderer on fresh assets. -/
theorem Generate_error_keeps_File_witness :
    (bootstrap.Generate sample.failingEnv sample.parents sample.freshBootstrap).state.File = none
    ∧ (aio.Generate sample.failingEnv sample.parents sample.freshAIO).state.File = none :=
  have h := Generate_error_keeps_File sample.failingEnv sample.parents sample.freshBootstrap
    sample.freshAIO
  ⟨(h.1 "template: parse error" (by decide)).1, (h.2 "template: parse error" (by decide)).1⟩

end ignition

/-! ## Queries of the parents store -/

namespace asset

theorem Parents.Get_log (p : Parents) (l : List Asset) :
    ∀ ev ∈ (p.Get l).1, ∃ x ∈ l, ev = Event.Get x := by
  induction l with
  | nil => simp [Parents.Get]
  | cons a rest ih =>
    intro ev hev
    unfold Parents.Get at hev
    by_cases h : p.has a = true
    · simp only [h, if_true, List.mem_cons] at hev
      rcases hev with rfl | hev
      · exact ⟨a, List.mem_cons_self _ _, rfl⟩
      · obtain ⟨x, hx, rfl⟩ := ih ev hev
        exact ⟨x, List.mem_cons_of_mem _ hx, rfl⟩
    · simp only [h, Bool.false_eq_true, if_false, List.mem_singleton] at hev
      exact ⟨a, List.mem_cons_self _ _, hev⟩

theorem Parents.Get_missing (p : Parents) (l : List Asset) (m : Asset)
    (h : (p.Get l).2 = some m) : m ∈ l ∧ p.has m = false := by
  induction l with
  | nil => simp [Parents.Get] at h
  | cons a rest ih =>
    unfold Parents.Get at h
    by_cases ha : p.has a = true
    · simp only [ha, if_true] at h
      exact ⟨List.mem_cons_of_mem _ (ih h).1, (ih h).2⟩
    · simp only [ha, Bool.false_eq_true, if_false, Option.some.injEq] at h
      subst h
      exact ⟨List.mem_cons_self _ _, by simpa using ha⟩

end asset

namespace ignition

theorem AddParentFiles_log (env : Env) (dependencies : asset.Parents) (rootDir uname : String)
    (mode : Nat) (l : List asset.Asset) (config : igntypes.Config) :
    ∀ ev ∈ (AddParentFiles env config dependencies rootDir uname mode l).2.1,
      ∃ x ∈ l, ev = asset.Event.Get x := by
  induction l generalizing config with
  | nil => simp [AddParentFiles]
  | cons a rest ih =>
    intro ev hev
    unfold AddParentFiles at hev
    by_cases h : dependencies.has a = true
    · simp only [h, if_true, List.mem_cons] at hev
      rcases hev with rfl | hev
      · exact ⟨a, List.mem_cons_self _ _, rfl⟩
      · obtain ⟨x, hx, rfl⟩ := ih _ ev hev
        exact ⟨x, List.mem_cons_of_mem _ hx, rfl⟩
    · simp only [h, Bool.false_eq_true, if_false, List.mem_singleton] at hev
      exact ⟨a, List.mem_cons_self _ _, hev⟩

theorem AddParentFiles_missing (env : Env) (dependencies : asset.Parents)
    (rootDir uname : String) (mode : Nat) (l : List asset.Asset) (config : igntypes.Config)
    (m : asset.Asset)
    (h : (AddParentFiles env config dependencies rootDir uname mode l).2.2 = some m) :
    m ∈ l ∧ dependencies.has m = false := by
  induction l generalizing config with
  | nil => simp [AddParentFiles] at h
  | cons a rest ih =>
    unfold AddParentFiles at h
    by_cases ha : dependencies.has a = true
    · simp only [ha, if_true] at h
      exact ⟨List.mem_cons_of_mem _ (ih _ h).1, (ih _ h).2⟩
    · simp only [ha, Bool.false_eq_true, if_false, Option.some.injEq] at h
      subst h
      exact ⟨List.mem_cons_self _ _, by simpa using ha⟩

/-- A store that lacks an asset of the list makes `AddParentFiles` fatal. -/
theorem AddParentFiles_fatal (env : Env) (dependencies : asset.Parents)
    (rootDir uname : String) (mode : Nat) (l : List asset.Asset) (config : igntypes.Config)
    (x : asset.Asset) (hx : x ∈ l) (hno : dependencies.has x = false) :
    ∃ m, (AddParentFiles env config dependencies rootDir uname mode l).2.2 = some m := by
  induction l generalizing config with
  | nil => simp at hx
  | cons a rest ih =>
    unfold AddParentFiles
    by_cases ha : dependencies.has a = true
    · simp only [ha, if_true]
      rcases List.mem_cons.mp hx with rfl | hx
      · rw [hno] at ha
        exact absurd ha (by simp)
      · exact ih _ hx
    · simp only [ha, Bool.false_eq_true, if_false]
      exact ⟨a, rfl⟩

end ignition

namespace aio

theorem addParentFiles_log (env : ignition.Env) (config : igntypes.Config)
    (dependencies : asset.Parents) :
    ∀ ev ∈ (addParentFiles env config dependencies).2.1,
      ∃ x ∈ parentAssets0644 ++ parentAssets0600 ++ [asset.Asset.tls_RootCA],
        ev = asset.Event.Get x := by
  have h₁ := ignition.AddParentFiles_log env dependencies rootDir "root" 0o644 parentAssets0644
    config
  intro ev hev
  unfold addParentFiles at hev
  simp only [] at hev
  split at hev
  · obtain ⟨x, hx, rfl⟩ := h₁ ev hev
    exact ⟨x, by simp [hx], rfl⟩
  · have h₂ := ignition.AddParentFiles_log env dependencies rootDir "root" 0o600
      parentAssets0600
      (ignition.AddParentFiles env config dependencies rootDir "root" 0o644 parentAssets0644).1
    have h₃ := asset.Parents.Get_log dependencies [asset.Asset.tls_RootCA]
    split at hev
    · rcases List.mem_append.mp hev with hev | hev
      · obtain ⟨x, hx, rfl⟩ := h₁ ev hev
        exact ⟨x, by simp [hx], rfl⟩
      · obtain ⟨x, hx, rfl⟩ := h₂ ev hev
        exact ⟨x, by simp [hx], rfl⟩
    · have hall : ev ∈ (ignition.AddParentFiles env config dependencies rootDir "root" 0o644
            parentAssets0644).2.1
          ++ (ignition.AddParentFiles env
              (ignition.AddParentFiles env config dependencies rootDir "root" 0o644
                parentAssets0644).1 dependencies rootDir "root" 0o600 parentAssets0600).2.1
          ++ (dependencies.Get [asset.Asset.tls_RootCA]).1 := by
        split at hev <;> exact hev
      rcases List.mem_append.mp hall with hev | hev
      · rcases List.mem_append.mp hev with hev | hev
        · obtain ⟨x, hx, rfl⟩ := h₁ ev hev
          exact ⟨x, by simp [hx], rfl⟩
        · obtain ⟨x, hx, rfl⟩ := h₂ ev hev
          exact ⟨x, by simp [hx], rfl⟩
      · obtain ⟨x, hx, rfl⟩ := h₃ ev hev
        have hx₂ : x = asset.Asset.tls_RootCA := by simpa using hx
        exact ⟨x, by simp [hx₂], rfl⟩

theorem addParentFiles_missing (env : ignition.Env) (config : igntypes.Config)
    (dependencies : asset.Parents) (m : asset.Asset)
    (h : (addParentFiles env config dependencies).2.2 = some m) :
    m ∈ parentAssets0644 ++ parentAssets0600 ++ [asset.Asset.tls_RootCA]
      ∧ dependencies.has m = false := by
  unfold addParentFiles at h
  simp only [] at h
  split at h
  · rename_i m₁ hm₁
    simp only [Option.some.injEq] at h
    subst h
    have := ignition.AddParentFiles_missing env dependencies _ _ _ _ _ _ hm₁
    exact ⟨by simp [this.1], this.2⟩
  · split at h
    · rename_i m₂ hm₂
      simp only [Option.some.injEq] at h
      subst h
      have := ignition.AddParentFiles_missing env dependencies _ _ _ _ _ _ hm₂
      exact ⟨by simp [this.1], this.2⟩
    · split at h
      · rename_i m₃ hm₃
        simp only [Option.some.injEq] at h
        subst h
        have := asset.Parents.Get_missing dependencies _ _ hm₃
        have hm : m₃ = asset.Asset.tls_RootCA := by simpa using this.1
        exact ⟨by simp [hm], this.2⟩
      · simp at h

end aio

namespace aio

/-- Every step of `AIO.Generate` is a query for an asset of its lists or a
call of the renderer. -/
theorem AIO_Generate_log (env : ignition.Env) (dependencies : asset.Parents) (a : AIOAsset) :
    ∀ ev ∈ (Generate env dependencies a).log,
      (∃ x ∈ [asset.Asset.installconfig_InstallConfig, asset.Asset.releaseimage_Image]
          ++ (parentAssets0644 ++ parentAssets0600 ++ [asset.Asset.tls_RootCA]),
        ev = asset.Event.Get x)
      ∨ ev = asset.Event.AddStorageFiles "/" "aio/files"
      ∨ ev = asset.Event.AddSystemdUnits "aio/systemd/units" := by
  have hg : ∀ ev ∈ (dependencies.Get [asset.Asset.installconfig_InstallConfig,
        asset.Asset.releaseimage_Image]).1,
      (∃ x ∈ [asset.Asset.installconfig_InstallConfig, asset.Asset.releaseimage_Image]
          ++ (parentAssets0644 ++ parentAssets0600 ++ [asset.Asset.tls_RootCA]),
        ev = asset.Event.Get x)
      ∨ ev = asset.Event.AddStorageFiles "/" "aio/files"
      ∨ ev = asset.Event.AddSystemdUnits "aio/systemd/units" := by
    intro ev hev
    obtain ⟨x, hx, rfl⟩ := asset.Parents.Get_log dependencies _ ev hev
    exact Or.inl ⟨x, List.mem_append_left _ hx, rfl⟩
  have hp : ∀ c, ∀ ev ∈ (addParentFiles env c dependencies).2.1,
      (∃ x ∈ [asset.Asset.installconfig_InstallConfig, asset.Asset.releaseimage_Image]
          ++ (parentAssets0644 ++ parentAssets0600 ++ [asset.Asset.tls_RootCA]),
        ev = asset.Event.Get x)
      ∨ ev = asset.Event.AddStorageFiles "/" "aio/files"
      ∨ ev = asset.Event.AddSystemdUnits "aio/systemd/units" := by
    intro c ev hev
    obtain ⟨x, hx, rfl⟩ := addParentFiles_log env c dependencies ev hev
    exact Or.inl ⟨x, List.mem_append_right _ hx, rfl⟩
  unfold Generate
  simp only []
  repeat' split
  all_goals simp only [List.forall_mem_append, List.forall_mem_singleton]
  all_goals try and_intros
  all_goals first
    | exact hg
    | exact hp _
    | simp

/-- When `AIO.Generate` dies in a query, the asset is one of its lists and is
not in the store. -/
theorem AIO_Generate_fatal (env : ignition.Env) (dependencies : asset.Parents) (a : AIOAsset)
    (m : asset.Asset) (h : (Generate env dependencies a).outcome = .fatal m) :
    m ∈ [asset.Asset.installconfig_InstallConfig, asset.Asset.releaseimage_Image]
        ++ (parentAssets0644 ++ parentAssets0600 ++ [asset.Asset.tls_RootCA])
      ∧ dependencies.has m = false := by
  unfold Generate at h
  simp only [] at h
  split at h
  · rename_i m₁ hm₁
    simp only [asset.Outcome.fatal.injEq] at h
    subst h
    have := asset.Parents.Get_missing dependencies _ _ hm₁
    exact ⟨List.mem_append_left _ this.1, this.2⟩
  · split at h
    · simp at h
    · simp at h
    · split at h
      · simp at h
      · split at h
        · simp at h
        · split at h
          · rename_i m₂ hm₂
            simp only [asset.Outcome.fatal.injEq] at h
            subst h
            have := addParentFiles_missing env _ dependencies _ hm₂
            exact ⟨List.mem_append_right _ this.1, this.2⟩
          · split at h <;> simp at h

/-- C18. Every asset that `AIO.Generate` and `AIO.addParentFiles` query from
the parents store (the install config, the release image, the mode-0644
list, the mode-0600 list and the root CA) is in `AIO.Dependencies()`: every
query logged by a run is for a declared asset, and on a store that holds the
declared assets no run dies in a query. -/
theorem Generate_queries_declared (env : ignition.Env) (dependencies : asset.Parents)
    (a : AIOAsset) :
    (∀ x ∈ [asset.Asset.installconfig_InstallConfig, asset.Asset.releaseimage_Image]
        ++ (parentAssets0644 ++ parentAssets0600 ++ [asset.Asset.tls_RootCA]),
      x ∈ Dependencies)
    ∧ (∀ x, asset.Event.Get x ∈ (Generate env dependencies a).log → x ∈ Dependencies)
    ∧ ((∀ x ∈ Dependencies, dependencies.has x = true) →
        ∀ m, (Generate env dependencies a).outcome ≠ .fatal m) := by
  have hsub : ∀ x ∈ [asset.Asset.installconfig_InstallConfig, asset.Asset.releaseimage_Image]
        ++ (parentAssets0644 ++ parentAssets0600 ++ [asset.Asset.tls_RootCA]),
      x ∈ Dependencies := by decide
  refine ⟨hsub, ?_, ?_⟩
  · intro x hx
    rcases AIO_Generate_log env dependencies a _ hx with ⟨y, hy, hxy⟩ | h | h
    · simp only [asset.Event.Get.injEq] at hxy
      subst hxy
      exact hsub _ hy
    · simp at h
    · simp at h
  · intro hall m hm
    have := AIO_Generate_fatal env dependencies a m hm
    rw [hall m (hsub m this.1)] at this
    simp at this

/-- Witness of C18: on the store that holds exactly the declared assets,
`AIO.Generate` returns nil. -/
theorem Generate_queries_declared_witness :
    (Generate sample.env sample.declaredAIOParents sample.freshAIO).outcome = .returned none
    ∧ ∀ m, (Generate sample.env sample.declaredAIOParents sample.freshAIO).outcome ≠ .fatal m :=
  ⟨by decide, (Generate_queries_declared sample.env sample.declaredAIOParents
    sample.freshAIO).2.2 (by decide)⟩

end aio

namespace bootstrap

/-- On a store that holds `manifests.Manifests` and not `manifests.Openshift`,
the loop over writable assets dies in its second query. -/
theorem generateTail_fatal (env : ignition.Env) (dependencies : asset.Parents) (a : Bootstrap)
    (config : igntypes.Config) (log : List asset.Event)
    (hM : dependencies.has .manifests_Manifests = true)
    (hO : dependencies.has .manifests_Openshift = false) :
    (generateTail env dependencies a config log).outcome = .fatal .manifests_Openshift
      ∧ asset.Event.Get .manifests_Openshift ∈ (generateTail env dependencies a config log).log := by
  simp [generateTail, loopAssets, ignition.AddParentFiles, hM, hO]

theorem generatePlatformUnits_fatal (env : ignition.Env) (dependencies : asset.Parents)
    (a : Bootstrap) (td : bootstrapTemplateData) (platform : String) (config : igntypes.Config)
    (log : List asset.Event)
    (hM : dependencies.has .manifests_Manifests = true)
    (hO : dependencies.has .manifests_Openshift = false) :
    ((generatePlatformUnits env dependencies a td platform config log).outcome
          = .fatal .manifests_Openshift
        ∧ asset.Event.Get .manifests_Openshift
          ∈ (generatePlatformUnits env dependencies a td platform config log).log)
      ∨ ∃ e, (generatePlatformUnits env dependencies a td platform config log).outcome
          = .returned (some e) := by
  unfold generatePlatformUnits
  simp only []
  split
  · split
    · exact Or.inr ⟨_, rfl⟩
    · exact Or.inl (generateTail_fatal env dependencies a _ _ hM hO)
  · exact Or.inl (generateTail_fatal env dependencies a _ _ hM hO)

theorem generatePlatformFiles_fatal (env : ignition.Env) (dependencies : asset.Parents)
    (a : Bootstrap) (td : bootstrapTemplateData) (config : igntypes.Config)
    (log : List asset.Event)
    (hM : dependencies.has .manifests_Manifests = true)
    (hO : dependencies.has .manifests_Openshift = false) :
    ((generatePlatformFiles env dependencies a td config log).outcome
          = .fatal .manifests_Openshift
        ∧ asset.Event.Get .manifests_Openshift
          ∈ (generatePlatformFiles env dependencies a td config log).log)
      ∨ ∃ e, (generatePlatformFiles env dependencies a td config log).outcome
          = .returned (some e) := by
  unfold generatePlatformFiles
  simp only []
  split
  · split
    · exact Or.inr ⟨_, rfl⟩
    · exact generatePlatformUnits_fatal env dependencies a td _ _ _ hM hO
  · exact generatePlatformUnits_fatal env dependencies a td _ _ _ hM hO

/-- C17 (refuted by the code). `Bootstrap.Generate` queries `manifests.Openshift`,
`machines.Master` and `machines.Worker` in its loop over writable assets, and
`Bootstrap.Dependencies()` declares none of them.  On every store that holds
exactly the declared assets, the call never returns nil: either it stops
earlier with an error or a panic, or it queries `manifests.Openshift` and
dies in the store. -/
theorem Generate_queries_undeclared (env : ignition.Env) (dependencies : asset.Parents)
    (a : Bootstrap) (h : ∀ x, dependencies.has x = true ↔ x ∈ Dependencies) :
    (∀ x ∈ [asset.Asset.manifests_Openshift, asset.Asset.machines_Master,
        asset.Asset.machines_Worker], x ∈ loopAssets ∧ x ∉ Dependencies)
    ∧ (((Generate env dependencies a).outcome = .fatal .manifests_Openshift
          ∧ asset.Event.Get .manifests_Openshift ∈ (Generate env dependencies a).log)
        ∨ (Generate env dependencies a).outcome = .panicked
        ∨ ∃ e, (Generate env dependencies a).outcome = .returned (some e)) := by
  refine ⟨by decide, ?_⟩
  have hM : dependencies.has .manifests_Manifests = true := (h _).mpr (by decide)
  have hO : dependencies.has .manifests_Openshift = false := by
    have := (h .manifests_Openshift).not.mpr (by decide)
    simpa using this
  unfold Generate
  simp only []
  split
  · rename_i m hm
    have hmiss := asset.Parents.Get_missing dependencies _ _ hm
    have hdecl : m ∈ Dependencies := by
      have hsub : ∀ x ∈ [asset.Asset.installconfig_InstallConfig, asset.Asset.manifests_Proxy,
          asset.Asset.releaseimage_Image, asset.Asset.rhcos_Image,
          asset.Asset.tls_BootstrapSSHKeyPair, asset.Asset.baremetal_IronicCreds],
          x ∈ Dependencies := by decide
      exact hsub m hmiss.1
    rw [(h m).mpr hdecl] at hmiss
    exact absurd hmiss.2 (by simp)
  · split
    · exact Or.inr (Or.inr ⟨_, rfl⟩)
    · exact Or.inr (Or.inl rfl)
    · split
      · exact Or.inr (Or.inr ⟨_, rfl⟩)
      · split
        · exact Or.inr (Or.inr ⟨_, rfl⟩)
        · rcases generatePlatformFiles_fatal env dependencies a _ _ _ hM hO with hf | hf
          · exact Or.inl hf
          · exact Or.inr (Or.inr hf)

/-- Failing input of C17: on the store that holds exactly the declared assets
`Bootstrap.Generate` dies in the query for `manifests.Openshift`, and on the
store that holds every asset the same call returns nil. -/
theorem Generate_queries_undeclared_witness :
    ((Generate sample.env sample.declaredBootstrapParents sample.freshBootstrap).outcome
        = .fatal .manifests_Openshift
      ∧ (Generate sample.env sample.parents sample.freshBootstrap).outcome = .returned none)
    ∧ (((Generate sample.env sample.declaredBootstrapParents sample.freshBootstrap).outcome
            = .fatal .manifests_Openshift
          ∧ asset.Event.Get .manifests_Openshift
            ∈ (Generate sample.env sample.declaredBootstrapParents sample.freshBootstrap).log)
        ∨ (Generate sample.env sample.declaredBootstrapParents sample.freshBootstrap).outcome
            = .panicked
        ∨ ∃ e, (Generate sample.env sample.declaredBootstrapParents
            sample.freshBootstrap).outcome = .returned (some e)) :=
  ⟨by decide, (Generate_queries_undeclared sample.env sample.declaredBootstrapParents
    sample.freshBootstrap (fun x => by simp [sample.declaredBootstrapParents])).2⟩

end bootstrap

/-! ## The networking asset -/

namespace installconfig

/-- C21 (refuted by the code). The doc comment of `networking.Dependencies`
says that it returns no dependencies; the function returns a list that is not
empty: its one element is the `platform` asset.  The asset is needed: on the
store that holds no asset, which is the store of an asset without
dependencies, `networking.Generate` dies in its query for the `platform`
asset. -/
theorem networking_Dependencies_not_empty :
    networking.Dependencies ≠ []
    ∧ networking.Dependencies.length = 1
    ∧ networking.Dependencies = [asset.Asset.installconfig_platform]
    ∧ (networking.Generate sample.prompt sample.emptyParents sample.freshNetworking).outcome
        = .fatal .installconfig_platform := by
  decide

/-- The queries of `networking.Generate`: the log of every run is the one
query for the `platform` asset, which is the element of the list that
`networking.Dependencies` returns, and on a store that holds it no run dies
in the store. -/
theorem networking_Dependencies_platform (p : Prompt) (parents : asset.Parents)
    (a : networking) :
    networking.Dependencies = [asset.Asset.installconfig_platform]
    ∧ (networking.Generate p parents a).log = [asset.Event.Get .installconfig_platform]
    ∧ (∀ x, asset.Event.Get x ∈ (networking.Generate p parents a).log →
        x ∈ networking.Dependencies)
    ∧ ((∀ x ∈ networking.Dependencies, parents.has x = true) →
        ∀ m, (networking.Generate p parents a).outcome ≠ .fatal m) := by
  have hlog : (networking.Generate p parents a).log
      = [asset.Event.Get .installconfig_platform] := by
    unfold networking.Generate
    by_cases h : parents.has .installconfig_platform = true
    · simp only [asset.Parents.Get, h, if_true]
      split
      · split <;> [rfl; (split <;> rfl)]
      · rfl
    · simp only [asset.Parents.Get, h, Bool.false_eq_true, if_false]
  refine ⟨rfl, hlog, ?_, ?_⟩
  · intro x hx
    rw [hlog] at hx
    simp only [List.mem_singleton, asset.Event.Get.injEq] at hx
    subst hx
    decide
  · intro hall m
    have h : parents.has .installconfig_platform = true := hall _ (by decide)
    unfold networking.Generate
    simp only [asset.Parents.Get, h, if_true]
    split
    · split
      · simp
      · split <;> simp
    · simp

/-- Example of a run of `networking.Generate`: on the store that holds the
`platform` asset, with the kubevirt platform selected and `10.0.0.0/16`
entered at the prompt, it returns nil with that machine network. -/
theorem networking_Dependencies_platform_witness :
    (networking.Generate sample.prompt sample.declaredNetworkingParents
        sample.freshNetworking).outcome = .returned none
    ∧ (networking.Generate sample.prompt sample.declaredNetworkingParents
        sample.freshNetworking).state.machineNetwork
        = [{ CIDR := { IP := [10, 0, 0, 0], Mask := [255, 255, 0, 0] } }]
    ∧ ∀ m, (networking.Generate sample.prompt sample.declaredNetworkingParents
        sample.freshNetworking).outcome ≠ .fatal m :=
  ⟨by decide, by decide,
    (networking_Dependencies_platform sample.prompt sample.declaredNetworkingParents
      sample.freshNetworking).2.2.2 (by decide)⟩

end installconfig

/-! ## The output files of the ignition assets -/

namespace ignition

/-- C22. `Files()` of the bootstrap asset and of the all-in-one asset never
returns the nil slice.  On an asset whose `File` is nil, as before it is
generated or loaded, it returns the empty slice.  After a `Generate` that
returns nil it returns exactly one file, named `bootstrap.ign` (`aio.ign`),
whose data is the serialized form of the `Config` that the asset holds. -/
theorem Files_one_file (env : Env) (dependencies : asset.Parents)
    (b : bootstrap.Bootstrap) (a : aio.AIOAsset) :
    (bootstrap.Files b ≠ none ∧ aio.Files a ≠ none)
    ∧ (b.File = none → bootstrap.Files b = some [])
    ∧ (a.File = none → aio.Files a = some [])
    ∧ ((bootstrap.Generate env dependencies b).outcome = .returned none →
        ∃ c data, (bootstrap.Generate env dependencies b).state.Config = some c
          ∧ env.ignitionMarshal c = .ok data
          ∧ bootstrap.Files (bootstrap.Generate env dependencies b).state
              = some [{ Filename := "bootstrap.ign", Data := data }])
    ∧ ((aio.Generate env dependencies a).outcome = .returned none →
        ∃ c data, (aio.Generate env dependencies a).state.Config = some c
          ∧ env.jsonMarshal c = .ok data
          ∧ aio.Files (aio.Generate env dependencies a).state
              = some [{ Filename := "aio.ign", Data := data }]) := by
  refine ⟨⟨?_, ?_⟩, ?_, ?_, ?_, ?_⟩
  · unfold bootstrap.Files
    split <;> simp
  · unfold aio.Files
    split <;> simp
  · intro h
    simp [bootstrap.Files, h]
  · intro h
    simp [aio.Files, h]
  · intro h
    obtain ⟨c, data, hm, hs⟩ := (bootstrap.Bootstrap_Generate_returned env dependencies b).1 h
    refine ⟨c, data, ?_, hm, ?_⟩
    · rw [hs]
    · rw [hs]
      rfl
  · intro h
    obtain ⟨c, data, hm, hs⟩ := (aio.AIO_Generate_returned env dependencies a).1 h
    refine ⟨c, data, ?_, hm, ?_⟩
    · rw [hs]
    · rw [hs]
      rfl

/-- Witness of C22: fresh assets have no file, and after `Generate` on the
sample environment and store each asset has one file with its fixed name. -/
theorem Files_one_file_witness :
    bootstrap.Files sample.freshBootstrap = some []
    ∧ aio.Files sample.freshAIO = some []
    ∧ (bootstrap.Files (bootstrap.Generate sample.env sample.parents
          sample.freshBootstrap).state).map (fun l => l.map (fun f => f.Filename))
        = some ["bootstrap.ign"]
    ∧ (aio.Files (aio.Generate sample.env sample.parents sample.freshAIO).state).map
          (fun l => l.map (fun f => f.Filename))
        = some ["aio.ign"] :=
  have h := Files_one_file sample.env sample.parents sample.freshBootstrap sample.freshAIO
  ⟨h.2.1 rfl, h.2.2.1 rfl,
    by
      obtain ⟨c, data, _, _, hf⟩ := h.2.2.2.1 (by decide)
      rw [hf]
      rfl,
    by
      obtain ⟨c, data, _, _, hf⟩ := h.2.2.2.2 (by decide)
      rw [hf]
      rfl⟩

end ignition

/-! ## Optional platform-specific template directories -/

namespace bootstrap

theorem generateTail_log (env : ignition.Env) (dependencies : asset.Parents) (a : Bootstrap)
    (config : igntypes.Config) (log : List asset.Event) :
    ∀ ev ∈ (generateTail env dependencies a config log).log,
      ev ∈ log ∨ ∃ x, ev = asset.Event.Get x := by
  have h₁ := ignition.AddParentFiles_log env dependencies rootDir "root" 0o644 loopAssets config
  have h₂ := ignition.AddParentFiles_log env dependencies "/" "root" 0o600 parentAssets
    (ignition.AddParentFiles env config dependencies rootDir "root" 0o644 loopAssets).1
  have h₃ := asset.Parents.Get_log dependencies [asset.Asset.tls_RootCA]
  have key : ∀ ev, ev ∈ log
        ++ (ignition.AddParentFiles env config dependencies rootDir "root" 0o644 loopAssets).2.1
        ++ (ignition.AddParentFiles env
            (ignition.AddParentFiles env config dependencies rootDir "root" 0o644 loopAssets).1
            dependencies "/" "root" 0o600 parentAssets).2.1
        ++ (dependencies.Get [asset.Asset.tls_RootCA]).1 →
      ev ∈ log ∨ ∃ x, ev = asset.Event.Get x := by
    intro ev hev
    simp only [List.mem_append] at hev
    rcases hev with ((hev | hev) | hev) | hev
    · exact Or.inl hev
    · obtain ⟨x, _, hx⟩ := h₁ ev hev
      exact Or.inr ⟨x, hx⟩
    · obtain ⟨x, _, hx⟩ := h₂ ev hev
      exact Or.inr ⟨x, hx⟩
    · obtain ⟨x, _, hx⟩ := h₃ ev hev
      exact Or.inr ⟨x, hx⟩
  intro ev hev
  unfold generateTail at hev
  simp only [] at hev
  split at hev
  · exact key ev (by simp only [List.mem_append] at hev ⊢; tauto)
  · split at hev
    · exact key ev (by simp only [List.mem_append] at hev ⊢; tauto)
    · split at hev
      · exact key ev hev
      · split at hev <;> exact key ev hev

theorem generatePlatformUnits_log (env : ignition.Env) (dependencies : asset.Parents)
    (a : Bootstrap) (td : bootstrapTemplateData) (platform : String) (config : igntypes.Config)
    (log : List asset.Event) :
    ∀ ev ∈ (generatePlatformUnits env dependencies a td platform config log).log,
      ev ∈ log ∨ (∃ x, ev = asset.Event.Get x) ∨ (∃ name, ev = asset.Event.Open name)
      ∨ (env.Open (platformUnitPath platform) = true
          ∧ ev = asset.Event.AddSystemdUnits (platformUnitPath platform)) := by
  intro ev hev
  unfold generatePlatformUnits at hev
  simp only [] at hev
  unfold platformUnitPath
  split at hev
  · rename_i hopen
    have key : ev ∈ log ++ [asset.Event.Open ("bootstrap/" ++ platform ++ "/systemd/units")]
          ++ [asset.Event.AddSystemdUnits ("bootstrap/" ++ platform ++ "/systemd/units")] →
        ev ∈ log ∨ (∃ x, ev = asset.Event.Get x) ∨ (∃ name, ev = asset.Event.Open name)
        ∨ (env.Open ("bootstrap/" ++ platform ++ "/systemd/units") = true
            ∧ ev = asset.Event.AddSystemdUnits
              ("bootstrap/" ++ platform ++ "/systemd/units")) := by
      intro h
      simp only [List.mem_append, List.mem_singleton] at h
      rcases h with (h | h) | h
      · exact Or.inl h
      · exact Or.inr (Or.inr (Or.inl ⟨_, h⟩))
      · exact Or.inr (Or.inr (Or.inr ⟨hopen, h⟩))
    split at hev
    · exact key hev
    · rcases generateTail_log env dependencies a _ _ ev hev with h | h
      · exact key h
      · exact Or.inr (Or.inl h)
  · rcases generateTail_log env dependencies a _ _ ev hev with h | h
    · simp only [List.mem_append, List.mem_singleton] at h
      rcases h with h | h
      · exact Or.inl h
      · exact Or.inr (Or.inr (Or.inl ⟨_, h⟩))
    · exact Or.inr (Or.inl h)

theorem platformFilePath_ne (platform : String) :
    platformFilePath platform ≠ "bootstrap/files" := by
  intro h
  have hl := congrArg String.length h
  simp only [platformFilePath, String.length_append] at hl
  have h₁ : "bootstrap/".length = 10 := by decide
  have h₂ : "/files".length = 6 := by decide
  have h₃ : "bootstrap/files".length = 15 := by decide
  omega

theorem platformUnitPath_ne (platform : String) :
    platformUnitPath platform ≠ "bootstrap/systemd/units" := by
  intro h
  have hl := congrArg String.length h
  simp only [platformUnitPath, String.length_append] at hl
  have h₁ : "bootstrap/".length = 10 := by decide
  have h₂ : "/systemd/units".length = 14 := by decide
  have h₃ : "bootstrap/systemd/units".length = 23 := by decide
  omega

/-- When `Generate` gets past the two common template directories, it is
`generatePlatformFiles` on the config and the log built so far. -/
theorem Generate_eq_generatePlatformFiles (env : ignition.Env)
    (dependencies : asset.Parents) (a : Bootstrap) (td : bootstrapTemplateData)
    (hg : (dependencies.Get [.installconfig_InstallConfig, .manifests_Proxy,
      .releaseimage_Image, .rhcos_Image, .tls_BootstrapSSHKeyPair,
      .baremetal_IronicCreds]).2 = none)
    (ht : getTemplateData a env dependencies.InstallConfig dependencies.PullSpec
      dependencies.InstallConfig.ImageContentSources dependencies.ProxyStatus
      dependencies.RhcosImage dependencies.IronicUsername dependencies.IronicPassword = .ok td)
    (hr : (ignition.AddStorageFiles env ignition.freshConfig "/" "bootstrap/files"
      (.bootstrap td)).2 = none)
    (hu : (ignition.AddSystemdUnits env
      (ignition.AddStorageFiles env ignition.freshConfig "/" "bootstrap/files"
        (.bootstrap td)).1
      "bootstrap/systemd/units" (.bootstrap td) enabled).2 = none) :
    Generate env dependencies a
      = generatePlatformFiles env dependencies a td
          (ignition.AddSystemdUnits env
            (ignition.AddStorageFiles env ignition.freshConfig "/" "bootstrap/files"
              (.bootstrap td)).1
            "bootstrap/systemd/units" (.bootstrap td) enabled).1
          ((dependencies.Get [.installconfig_InstallConfig, .manifests_Proxy,
              .releaseimage_Image, .rhcos_Image, .tls_BootstrapSSHKeyPair,
              .baremetal_IronicCreds]).1
            ++ [asset.Event.AddStorageFiles "/" "bootstrap/files"]
            ++ [asset.Event.AddSystemdUnits "bootstrap/systemd/units"]) := by
  unfold Generate
  simp only [hg, ht, hr, hu]

/-- C23. Let `Bootstrap.Generate` reach the check for the optional
platform-specific directories: the store holds the six assets queried first,
the template data are built, and the two common template directories render
without error.  Then `Generate` is `generatePlatformFiles` on the config built
so far, and, with `platform` the name of the platform of the install config:

* when `bootstrap/<platform>/files` cannot be opened, the run goes on to the
  units directory with the config unchanged, and no step of `Generate` renders
  storage files from that directory;
* when it can be opened, a rendering error from it is returned, and without
  error the run goes on to the units directory with the rendered config;
* when `bootstrap/<platform>/systemd/units` cannot be opened, the run goes on
  to the parent files with the config unchanged, and no step of `Generate`
  renders units from that directory;
* when it can be opened, a rendering error from it is returned. -/
theorem Generate_optional_platform_directories (env : ignition.Env)
    (dependencies : asset.Parents) (a : Bootstrap) (td : bootstrapTemplateData)
    (hg : (dependencies.Get [.installconfig_InstallConfig, .manifests_Proxy,
      .releaseimage_Image, .rhcos_Image, .tls_BootstrapSSHKeyPair,
      .baremetal_IronicCreds]).2 = none)
    (ht : getTemplateData a env dependencies.InstallConfig dependencies.PullSpec
      dependencies.InstallConfig.ImageContentSources dependencies.ProxyStatus
      dependencies.RhcosImage dependencies.IronicUsername dependencies.IronicPassword = .ok td)
    (hr : (ignition.AddStorageFiles env ignition.freshConfig "/" "bootstrap/files"
      (.bootstrap td)).2 = none)
    (hu : (ignition.AddSystemdUnits env
      (ignition.AddStorageFiles env ignition.freshConfig "/" "bootstrap/files"
        (.bootstrap td)).1
      "bootstrap/systemd/units" (.bootstrap td) enabled).2 = none)
    (platform : String) (hp : platform = env.PlatformName dependencies.InstallConfig.Platform) :
    Generate env dependencies a
      = generatePlatformFiles env dependencies a td
          (ignition.AddSystemdUnits env
            (ignition.AddStorageFiles env ignition.freshConfig "/" "bootstrap/files"
              (.bootstrap td)).1
            "bootstrap/systemd/units" (.bootstrap td) enabled).1
          ((dependencies.Get [.installconfig_InstallConfig, .manifests_Proxy,
              .releaseimage_Image, .rhcos_Image, .tls_BootstrapSSHKeyPair,
              .baremetal_IronicCreds]).1
            ++ [asset.Event.AddStorageFiles "/" "bootstrap/files"]
            ++ [asset.Event.AddSystemdUnits "bootstrap/systemd/units"])
    ∧ (env.Open (platformFilePath platform) = false →
        (∀ config log, generatePlatformFiles env dependencies a td config log
          = generatePlatformUnits env dependencies a td platform config
              (log ++ [asset.Event.Open (platformFilePath platform)]))
        ∧ ∀ base, asset.Event.AddStorageFiles base (platformFilePath platform)
            ∉ (Generate env dependencies a).log)
    ∧ (env.Open (platformFilePath platform) = true →
        ∀ config log,
          (∀ err, (ignition.AddStorageFiles env config "/" (platformFilePath platform)
              (.bootstrap td)).2 = some err →
            (generatePlatformFiles env dependencies a td config log).outcome
              = .returned (some err))
          ∧ ((ignition.AddStorageFiles env config "/" (platformFilePath platform)
              (.bootstrap td)).2 = none →
            generatePlatformFiles env dependencies a td config log
              = generatePlatformUnits env dependencies a td platform
                  (ignition.AddStorageFiles env config "/" (platformFilePath platform)
                    (.bootstrap td)).1
                  (log ++ [asset.Event.Open (platformFilePath platform)]
                    ++ [asset.Event.AddStorageFiles "/" (platformFilePath platform)])))
    ∧ (env.Open (platformUnitPath platform) = false →
        (∀ config log, generatePlatformUnits env dependencies a td platform config log
          = generateTail env dependencies a config
              (log ++ [asset.Event.Open (platformUnitPath platform)]))
        ∧ asset.Event.AddSystemdUnits (platformUnitPath platform)
            ∉ (Generate env dependencies a).log)
    ∧ (env.Open (platformUnitPath platform) = true →
        ∀ config log err,
          (ignition.AddSystemdUnits env config (platformUnitPath platform) (.bootstrap td)
            enabled).2 = some err →
          (generatePlatformUnits env dependencies a td platform config log).outcome
            = .returned (some err)) := by
  subst hp
  have hgen := Generate_eq_generatePlatformFiles env dependencies a td hg ht hr hu
  have hget := asset.Parents.Get_log dependencies [.installconfig_InstallConfig,
    .manifests_Proxy, .releaseimage_Image, .rhcos_Image, .tls_BootstrapSSHKeyPair,
    .baremetal_IronicCreds]
  refine ⟨hgen, ?_, ?_, ?_, ?_⟩
  · intro hopen
    have hstep : ∀ config log, generatePlatformFiles env dependencies a td config log
        = generatePlatformUnits env dependencies a td
            (env.PlatformName dependencies.InstallConfig.Platform) config
            (log ++ [asset.Event.Open
              (platformFilePath (env.PlatformName dependencies.InstallConfig.Platform))]) := by
      intro config log
      unfold platformFilePath at hopen ⊢
      unfold generatePlatformFiles
      simp only [hopen, Bool.false_eq_true, if_false]
    refine ⟨hstep, ?_⟩
    intro base hmem
    rw [hgen, hstep] at hmem
    rcases generatePlatformUnits_log env dependencies a td _ _ _ _ hmem with h | h | h | h
    · simp only [List.mem_append, List.mem_singleton] at h
      rcases h with ((h | h) | h) | h
      · obtain ⟨x, _, hx⟩ := hget _ h
        simp at hx
      · simp only [asset.Event.AddStorageFiles.injEq] at h
        exact platformFilePath_ne _ h.2
      · simp at h
      · simp at h
    · obtain ⟨x, hx⟩ := h
      simp at hx
    · obtain ⟨x, hx⟩ := h
      simp at hx
    · simp at h
  · intro hopen config log
    unfold platformFilePath at hopen ⊢
    constructor
    · intro err herr
      unfold generatePlatformFiles
      simp only [hopen, if_true, herr]
    · intro hnone
      unfold generatePlatformFiles
      simp only [hopen, if_true, hnone]
  · intro hopen
    have hstep : ∀ config log, generatePlatformUnits env dependencies a td
          (env.PlatformName dependencies.InstallConfig.Platform) config log
        = generateTail env dependencies a config
            (log ++ [asset.Event.Open
              (platformUnitPath (env.PlatformName dependencies.InstallConfig.Platform))]) := by
      intro config log
      unfold platformUnitPath at hopen ⊢
      unfold generatePlatformUnits
      simp only [hopen, Bool.false_eq_true, if_false]
    refine ⟨hstep, ?_⟩
    intro hmem
    rw [hgen] at hmem
    have hlog : ∀ config log,
        asset.Event.AddSystemdUnits
            (platformUnitPath (env.PlatformName dependencies.InstallConfig.Platform)) ∉ log →
        asset.Event.AddSystemdUnits
            (platformUnitPath (env.PlatformName dependencies.InstallConfig.Platform))
          ∉ (generatePlatformUnits env dependencies a td
              (env.PlatformName dependencies.InstallConfig.Platform) config log).log := by
      intro config log hnot hin
      rcases generatePlatformUnits_log env dependencies a td _ _ _ _ hin with h | h | h | h
      · exact hnot h
      · obtain ⟨x, hx⟩ := h
        simp at hx
      · obtain ⟨x, hx⟩ := h
        simp at hx
      · rw [hopen] at h
        simp at h
    have hlog₀ : asset.Event.AddSystemdUnits
          (platformUnitPath (env.PlatformName dependencies.InstallConfig.Platform))
        ∉ (dependencies.Get [.installconfig_InstallConfig, .manifests_Proxy,
              .releaseimage_Image, .rhcos_Image, .tls_BootstrapSSHKeyPair,
              .baremetal_IronicCreds]).1
            ++ [asset.Event.AddStorageFiles "/" "bootstrap/files"]
            ++ [asset.Event.AddSystemdUnits "bootstrap/systemd/units"] := by
      intro h
      simp only [List.mem_append, List.mem_singleton] at h
      rcases h with (h | h) | h
      · obtain ⟨x, _, hx⟩ := hget _ h
        simp at hx
      · simp at h
      · simp only [asset.Event.AddSystemdUnits.injEq] at h
        exact platformUnitPath_ne _ h
    unfold generatePlatformFiles at hmem
    simp only [] at hmem
    split at hmem
    · split at hmem
      · simp only [List.mem_append, List.mem_singleton] at hmem
        rcases hmem with (h | h) | h
        · exact hlog₀ (by simpa only [List.mem_append, List.mem_singleton] using h)
        · simp at h
        · simp at h
      · refine hlog _ _ ?_ hmem
        intro h
        simp only [List.mem_append, List.mem_singleton] at h
        rcases h with (h | h) | h
        · exact hlog₀ (by simpa only [List.mem_append, List.mem_singleton] using h)
        · simp at h
        · simp at h
    · refine hlog _ _ ?_ hmem
      intro h
      simp only [List.mem_append, List.mem_singleton] at h
      rcases h with h | h
      · exact hlog₀ (by simpa only [List.mem_append, List.mem_singleton] using h)
      · simp at h
  · intro hopen config log err herr
    unfold platformUnitPath at hopen herr
    unfold generatePlatformUnits
    simp only [hopen, if_true, herr]

/-- Witness of C23: on the sample environment, in which no optional directory
can be opened, `Generate` returns nil and renders nothing from the kubevirt
directories; when the kubevirt file directory can be opened and its renderer
fails, `Generate` returns that error. -/
theorem Generate_optional_platform_directories_witness :
    (Generate sample.env sample.parents sample.freshBootstrap).outcome = .returned none
    ∧ (∀ base, asset.Event.AddStorageFiles base (platformFilePath "kubevirt")
        ∉ (Generate sample.env sample.parents sample.freshBootstrap).log)
    ∧ asset.Event.AddSystemdUnits (platformUnitPath "kubevirt")
        ∉ (Generate sample.env sample.parents sample.freshBootstrap).log
    ∧ (Generate sample.failingPlatformEnv sample.parents sample.freshBootstrap).outcome
        = .returned (some "template: parse error")
    ∧ (Generate sample.failingPlatformUnitsEnv sample.parents sample.freshBootstrap).outcome
        = .returned (some "template: parse error") :=
  have h := Generate_optional_platform_directories sample.env sample.parents
    sample.freshBootstrap _ (by decide) rfl (by decide) (by decide) "kubevirt" rfl
  ⟨by decide, (h.2.1 rfl).2, (h.2.2.2.1 rfl).2, by decide, by decide⟩

end bootstrap

/-! ## The kubevirt uninstaller -/

namespace destroy.kubevirt

theorem StopsAtFirstFailure_append {σ : Type} (e : Option String) (l₁ l₂ : List Step)
    (s s₂ : σ) (h₁ : ∀ st ∈ l₁, st.err = none)
    (h₂ : Trace.StopsAtFirstFailure ⟨e, l₂, s⟩) :
    Trace.StopsAtFirstFailure ⟨e, l₁ ++ l₂, s₂⟩ := by
  rcases h₂ with ⟨he, hall⟩ | ⟨pre, c, err, he, hl, hpre⟩
  · left
    refine ⟨he, ?_⟩
    intro st hst
    rcases List.mem_append.mp hst with h | h
    · exact h₁ st h
    · exact hall st h
  · right
    refine ⟨l₁ ++ pre, c, err, he, ?_, ?_⟩
    · have hl₂ : l₂ = pre ++ [⟨c, some err⟩] := hl
      show l₁ ++ l₂ = l₁ ++ pre ++ [⟨c, some err⟩]
      rw [hl₂, List.append_assoc]
    · intro st hst
      rcases List.mem_append.mp hst with h | h
      · exact h₁ st h
      · exact hpre st h

theorem StopsAtFirstFailure_cons {σ : Type} (e : Option String) (c : Call) (l : List Step)
    (s s₂ : σ) (h : Trace.StopsAtFirstFailure ⟨e, l, s⟩) :
    Trace.StopsAtFirstFailure ⟨e, ⟨c, none⟩ :: l, s₂⟩ :=
  StopsAtFirstFailure_append e [⟨c, none⟩] l s s₂ (by simp) h

theorem StopsAtFirstFailure_ok {σ : Type} (t : Trace σ) (h : t.StopsAtFirstFailure)
    (he : t.err = none) : ∀ st ∈ t.log, st.err = none := by
  rcases h with ⟨_, hall⟩ | ⟨pre, c, err, he₂, _, _⟩
  · exact hall
  · rw [he] at he₂
    simp at he₂

theorem StopsAtFirstFailure_iff {σ : Type} (t : Trace σ) (h : t.StopsAtFirstFailure) :
    t.err = none ↔ ∀ st ∈ t.log, st.err = none := by
  constructor
  · exact StopsAtFirstFailure_ok t h
  · intro hall
    rcases h with ⟨he, _⟩ | ⟨pre, c, err, _, hl, _⟩
    · exact he
    · have := hall ⟨c, some err⟩ (by rw [hl]; simp)
      simp at this

/-- The loop over the listed names: it stops at the first delete call that
fails, and its calls are delete calls for the names, once each and in order. -/
theorem deleteLoop_calls {σ : Type} (delete : σ → String → String → Bool → Option String × σ)
    (mk : String → String → Bool → Call) (ns : String) (names : List String) (s : σ) :
    (deleteLoop delete mk ns names s).StopsAtFirstFailure
    ∧ (deleteLoop delete mk ns names s).log.map Step.call
        <+: names.map (fun name => mk ns name true)
    ∧ ((deleteLoop delete mk ns names s).err = none →
        (deleteLoop delete mk ns names s).log.map Step.call
          = names.map (fun name => mk ns name true)) := by
  induction names generalizing s with
  | nil =>
    refine ⟨Or.inl ⟨rfl, ?_⟩, ?_, ?_⟩
    · intro st hst
      simp [deleteLoop] at hst
    · simp [deleteLoop]
    · intro _
      simp [deleteLoop]
  | cons name rest ih =>
    unfold deleteLoop
    split
    · rename_i err s₁ _
      refine ⟨Or.inr ⟨[], mk ns name true, err, rfl, rfl, by simp⟩, ?_, ?_⟩
      · simp only [List.map_cons, List.map_nil]
        exact List.cons_prefix_cons.mpr ⟨rfl, List.nil_prefix⟩
      · intro h
        simp at h
    · rename_i s₁ _
      obtain ⟨h₁, h₂, h₃⟩ := ih s₁
      refine ⟨StopsAtFirstFailure_cons _ _ _ (deleteLoop delete mk ns rest s₁).cluster _ h₁,
        ?_, ?_⟩
      · simp only [List.map_cons]
        exact List.cons_prefix_cons.mpr ⟨rfl, h₂⟩
      · intro h
        simp only [List.map_cons]
        rw [h₃ h]

/-- One kind of resource: the run stops at the first call that fails, and its
calls are the list call followed by the delete calls for the names listed. -/
theorem deleteAll_calls {σ : Type}
    (list : σ → String → Labels → Except String (List String) × σ)
    (delete : σ → String → String → Bool → Option String × σ)
    (mkList : String → Labels → Call) (mkDelete : String → String → Bool → Call)
    (ns : String) (labels : Labels) (s : σ) :
    (deleteAll list delete mkList mkDelete ns labels s).StopsAtFirstFailure
    ∧ (deleteAll list delete mkList mkDelete ns labels s).log.map Step.call
        <+: planKind mkList mkDelete ns labels (listed (list s ns labels))
    ∧ ((deleteAll list delete mkList mkDelete ns labels s).err = none →
        (deleteAll list delete mkList mkDelete ns labels s).log.map Step.call
          = planKind mkList mkDelete ns labels (listed (list s ns labels))) := by
  unfold deleteAll
  split
  · rename_i err s₁ hlist
    refine ⟨Or.inr ⟨[], mkList ns labels, err, rfl, rfl, by simp⟩, ?_, ?_⟩
    · simp only [List.map_cons, List.map_nil, planKind]
      exact List.cons_prefix_cons.mpr ⟨rfl, List.nil_prefix⟩
    · intro h
      simp at h
  · rename_i names s₁ hlist
    obtain ⟨h₁, h₂, h₃⟩ := deleteLoop_calls delete mkDelete ns names s₁
    have hl : listed (list s ns labels) = names := by
      simp [listed, hlist]
    rw [hl]
    refine ⟨StopsAtFirstFailure_cons _ _ _
      (deleteLoop delete mkDelete ns names s₁).cluster _ h₁, ?_, ?_⟩
    · simp only [List.map_cons, planKind]
      exact List.cons_prefix_cons.mpr ⟨rfl, h₂⟩
    · intro h
      simp only [List.map_cons, planKind]
      rw [h₃ h]

theorem map_call_replaySteps {σ : Type} (c : Client σ) (s : σ) (calls : List Call) :
    (replaySteps c s calls).map Step.call = calls := by
  induction calls generalizing s with
  | nil => rfl
  | cons call rest ih => simp [replaySteps, ih]

theorem replaySteps_append {σ : Type} (c : Client σ) (s : σ) (l₁ l₂ : List Call) :
    replaySteps c s (l₁ ++ l₂)
      = replaySteps c s l₁ ++ replaySteps c (replayState c s l₁) l₂ := by
  induction l₁ generalizing s with
  | nil => rfl
  | cons call rest ih => simp [replaySteps, replayState, ih]

theorem replayState_append {σ : Type} (c : Client σ) (s : σ) (l₁ l₂ : List Call) :
    replayState c s (l₁ ++ l₂) = replayState c (replayState c s l₁) l₂ := by
  induction l₁ generalizing s with
  | nil => rfl
  | cons call rest ih => simp [replayState, ih]

/-- In a log that is an initial part of a replay, the error of a step is the
answer of the client to its call on the cluster that the calls before it
leave. -/
theorem replaySteps_last {σ : Type} (c : Client σ) (s : σ) (calls : List Call)
    (pre : List Step) (st : Step) (h : pre ++ [st] <+: replaySteps c s calls) :
    st.err = (answer c (replayState c s (pre.map Step.call)) st.call).1 := by
  induction pre generalizing s calls with
  | nil =>
    cases calls with
    | nil => simp [replaySteps] at h
    | cons call rest =>
      simp only [List.nil_append, replaySteps] at h
      have hst := (List.cons_prefix_cons.mp h).1
      subst hst
      rfl
  | cons p pre ih =>
    cases calls with
    | nil => simp [replaySteps] at h
    | cons call rest =>
      simp only [List.cons_append, replaySteps] at h
      obtain ⟨hp, hrest⟩ := List.cons_prefix_cons.mp h
      have hih := ih _ _ hrest
      subst hp
      simpa [replayState] using hih

theorem Follows_cons {σ : Type} (c : Client σ) (s s₁ : σ) (call : Call) (calls : List Call)
    (err : Option String) (log : List Step) (cluster : σ)
    (ha : answer c s call = (none, s₁)) (h : Follows c s₁ calls err log cluster) :
    Follows c s (call :: calls) err (⟨call, none⟩ :: log) cluster := by
  obtain ⟨h₁, h₂, h₃, h₄⟩ := h
  refine ⟨?_, StopsAtFirstFailure_cons _ _ _ cluster _ h₂, ?_, ?_⟩
  · simp only [replaySteps, ha]
    exact List.cons_prefix_cons.mpr ⟨rfl, h₁⟩
  · intro he
    simp only [replaySteps, ha]
    rw [h₃ he]
  · simp only [List.map_cons, replayState, ha]
    exact h₄

theorem Follows_stop {σ : Type} (c : Client σ) (s : σ) (l₁ l₂ : List Call) (e : String)
    (log : List Step) (cluster : σ) (h : Follows c s l₁ (some e) log cluster) :
    Follows c s (l₁ ++ l₂) (some e) log cluster := by
  obtain ⟨h₁, h₂, _, h₄⟩ := h
  refine ⟨?_, h₂, fun he => by simp at he, h₄⟩
  rw [replaySteps_append]
  exact h₁.trans (List.prefix_append _ _)

theorem Follows_append {σ : Type} (c : Client σ) (s s₁ s₂ : σ) (l₁ l₂ : List Call)
    (err : Option String) (log₁ log₂ : List Step)
    (h₁ : Follows c s l₁ none log₁ s₁) (h₂ : Follows c s₁ l₂ err log₂ s₂) :
    Follows c s (l₁ ++ l₂) err (log₁ ++ log₂) s₂ := by
  obtain ⟨_, a₂, a₃, a₄⟩ := h₁
  obtain ⟨b₁, b₂, b₃, b₄⟩ := h₂
  have hlog : log₁ = replaySteps c s l₁ := a₃ rfl
  have hs₁ : s₁ = replayState c s l₁ := by
    rw [a₄, hlog, map_call_replaySteps]
  have hok : ∀ st ∈ log₁, st.err = none := StopsAtFirstFailure_ok ⟨none, log₁, s₁⟩ a₂ rfl
  refine ⟨?_, StopsAtFirstFailure_append _ _ _ s₂ _ hok b₂, ?_, ?_⟩
  · rw [replaySteps_append, ← hlog, ← hs₁]
    exact (List.prefix_append_right_inj _).mpr b₁
  · intro he
    rw [replaySteps_append, ← hlog, ← hs₁, b₃ he]
  · rw [List.map_append, replayState_append, ← a₄]
    exact b₄

/-- The loop over the listed names is the run of its delete calls up to the
first failure. -/
theorem deleteLoop_replay {σ : Type} (c : Client σ)
    (delete : σ → String → String → Bool → Option String × σ)
    (mk : String → String → Bool → Call) (ns : String)
    (hans : ∀ s name, answer c s (mk ns name true) = delete s ns name true)
    (names : List String) (s : σ) :
    Follows c s (names.map fun name => mk ns name true)
      (deleteLoop delete mk ns names s).err (deleteLoop delete mk ns names s).log
      (deleteLoop delete mk ns names s).cluster := by
  induction names generalizing s with
  | nil =>
    refine ⟨?_, Or.inl ⟨rfl, ?_⟩, ?_, ?_⟩
    · simp [deleteLoop, replaySteps]
    · intro st hst
      simp [deleteLoop] at hst
    · intro _
      simp [deleteLoop, replaySteps]
    · simp [deleteLoop, replayState]
  | cons name rest ih =>
    unfold deleteLoop
    split
    · rename_i err s₁ heq
      have ha : answer c s (mk ns name true) = (some err, s₁) := (hans s name).trans heq
      refine ⟨?_, Or.inr ⟨[], mk ns name true, err, rfl, rfl, by simp⟩, ?_, ?_⟩
      · simp only [List.map_cons, replaySteps, ha]
        exact List.cons_prefix_cons.mpr ⟨rfl, List.nil_prefix⟩
      · intro he
        simp at he
      · simp only [List.map_cons, List.map_nil, replayState, ha]
    · rename_i s₁ heq
      have ha : answer c s (mk ns name true) = (none, s₁) := (hans s name).trans heq
      exact Follows_cons c s s₁ _ _ _ _ _ ha (ih s₁)

/-- One kind of resource: the function is the run of the list call and of the
delete calls for the listed names, up to the first failure. -/
theorem deleteAll_replay {σ : Type} (c : Client σ)
    (list : σ → String → Labels → Except String (List String) × σ)
    (delete : σ → String → String → Bool → Option String × σ)
    (mkList : String → Labels → Call) (mkDelete : String → String → Bool → Call)
    (ns : String) (labels : Labels)
    (hlist : ∀ s, answer c s (mkList ns labels)
      = (listErr (list s ns labels).1, (list s ns labels).2))
    (hans : ∀ s name, answer c s (mkDelete ns name true) = delete s ns name true) (s : σ) :
    Follows c s (planKind mkList mkDelete ns labels (listed (list s ns labels)))
      (deleteAll list delete mkList mkDelete ns labels s).err
      (deleteAll list delete mkList mkDelete ns labels s).log
      (deleteAll list delete mkList mkDelete ns labels s).cluster := by
  unfold deleteAll
  split
  · rename_i err s₁ heq
    have ha : answer c s (mkList ns labels) = (some err, s₁) := by
      rw [hlist, heq]
      rfl
    refine ⟨?_, Or.inr ⟨[], mkList ns labels, err, rfl, rfl, by simp⟩, ?_, ?_⟩
    · simp only [planKind, replaySteps, ha]
      exact List.cons_prefix_cons.mpr ⟨rfl, List.nil_prefix⟩
    · intro he
      simp at he
    · simp only [List.map_cons, List.map_nil, replayState, ha]
  · rename_i names s₁ heq
    have ha : answer c s (mkList ns labels) = (none, s₁) := by
      rw [hlist, heq]
      rfl
    have hl : listed (list s ns labels) = names := by
      simp [listed, heq]
    rw [hl]
    exact Follows_cons c s s₁ _ _ _ _ _ ha (deleteLoop_replay c delete mkDelete ns hans names s₁)

/-- With a client, `Run` is the run of the full plan up to the first
failure. -/
theorem Run_Follows {σ : Type} (c : Client σ) (uninstaller : ClusterUninstaller) (s : σ) :
    Follows c s (fullPlan c uninstaller.Namespace uninstaller.Labels s)
      (Run (.ok c) uninstaller s).err (Run (.ok c) uninstaller s).log
      (Run (.ok c) uninstaller s).cluster := by
  have f₁ : Follows c s (planVMs c uninstaller.Namespace uninstaller.Labels s)
      (deleteAllVMs c uninstaller.Namespace uninstaller.Labels s).err
      (deleteAllVMs c uninstaller.Namespace uninstaller.Labels s).log
      (deleteAllVMs c uninstaller.Namespace uninstaller.Labels s).cluster :=
    deleteAll_replay c c.ListVirtualMachineNames c.DeleteVirtualMachine
      Call.ListVirtualMachineNames Call.DeleteVirtualMachine uninstaller.Namespace
      uninstaller.Labels (fun _ => rfl) (fun _ _ => rfl) s
  have f₂ : ∀ s₁, Follows c s₁ (planDVs c uninstaller.Namespace uninstaller.Labels s₁)
      (deleteAllDVs c uninstaller.Namespace uninstaller.Labels s₁).err
      (deleteAllDVs c uninstaller.Namespace uninstaller.Labels s₁).log
      (deleteAllDVs c uninstaller.Namespace uninstaller.Labels s₁).cluster :=
    fun s₁ => deleteAll_replay c c.ListDataVolumeNames c.DeleteDataVolume
      Call.ListDataVolumeNames Call.DeleteDataVolume uninstaller.Namespace
      uninstaller.Labels (fun _ => rfl) (fun _ _ => rfl) s₁
  have f₃ : ∀ s₂, Follows c s₂ (planSecrets c uninstaller.Namespace uninstaller.Labels s₂)
      (deleteAllSecrets c uninstaller.Namespace uninstaller.Labels s₂).err
      (deleteAllSecrets c uninstaller.Namespace uninstaller.Labels s₂).log
      (deleteAllSecrets c uninstaller.Namespace uninstaller.Labels s₂).cluster :=
    fun s₂ => deleteAll_replay c c.ListSecretNames c.DeleteSecret
      Call.ListSecretNames Call.DeleteSecret uninstaller.Namespace
      uninstaller.Labels (fun _ => rfl) (fun _ _ => rfl) s₂
  have hnew : answer c s Call.NewClient = (none, s) := rfl
  unfold fullPlan
  cases he₁ : (deleteAllVMs c uninstaller.Namespace uninstaller.Labels s).err with
  | some err =>
    rw [he₁] at f₁
    have hrun : Run (.ok c) uninstaller s
        = { err := some err,
            log := ⟨Call.NewClient, none⟩
              :: (deleteAllVMs c uninstaller.Namespace uninstaller.Labels s).log,
            cluster := (deleteAllVMs c uninstaller.Namespace uninstaller.Labels s).cluster } := by
      simp only [Run, he₁]
    rw [hrun]
    exact Follows_cons c s s _ _ _ _ _ hnew
      (Follows_stop c s _ _ _ _ _ (Follows_stop c s _ _ _ _ _ f₁))
  | none =>
    rw [he₁] at f₁
    have hs₁ : (deleteAllVMs c uninstaller.Namespace uninstaller.Labels s).cluster
        = replayState c s (planVMs c uninstaller.Namespace uninstaller.Labels s) := by
      rw [f₁.2.2.2, f₁.2.2.1 rfl, map_call_replaySteps]
    rw [← hs₁]
    have g₂ := f₂ (deleteAllVMs c uninstaller.Namespace uninstaller.Labels s).cluster
    cases he₂ : (deleteAllDVs c uninstaller.Namespace uninstaller.Labels
        (deleteAllVMs c uninstaller.Namespace uninstaller.Labels s).cluster).err with
    | some err =>
      rw [he₂] at g₂
      have hrun : Run (.ok c) uninstaller s
          = { err := some err,
              log := ⟨Call.NewClient, none⟩
                :: ((deleteAllVMs c uninstaller.Namespace uninstaller.Labels s).log
                  ++ (deleteAllDVs c uninstaller.Namespace uninstaller.Labels
                    (deleteAllVMs c uninstaller.Namespace uninstaller.Labels s).cluster).log),
              cluster := (deleteAllDVs c uninstaller.Namespace uninstaller.Labels
                (deleteAllVMs c uninstaller.Namespace uninstaller.Labels s).cluster).cluster } := by
        simp only [Run, he₁, he₂]
      rw [hrun]
      exact Follows_cons c s s _ _ _ _ _ hnew
        (Follows_stop c s _ _ _ _ _ (Follows_append c s _ _ _ _ _ _ _ f₁ g₂))
    | none =>
      rw [he₂] at g₂
      have hs₂ : (deleteAllDVs c uninstaller.Namespace uninstaller.Labels
            (deleteAllVMs c uninstaller.Namespace uninstaller.Labels s).cluster).cluster
          = replayState c (deleteAllVMs c uninstaller.Namespace uninstaller.Labels s).cluster
              (planDVs c uninstaller.Namespace uninstaller.Labels
                (deleteAllVMs c uninstaller.Namespace uninstaller.Labels s).cluster) := by
        rw [g₂.2.2.2, g₂.2.2.1 rfl, map_call_replaySteps]
      rw [← hs₂]
      have g₃ := f₃ (deleteAllDVs c uninstaller.Namespace uninstaller.Labels
        (deleteAllVMs c uninstaller.Namespace uninstaller.Labels s).cluster).cluster
      have g₁₂ := Follows_append c s _ _ _ _ _ _ _ f₁ g₂
      cases he₃ : (deleteAllSecrets c uninstaller.Namespace uninstaller.Labels
          (deleteAllDVs c uninstaller.Namespace uninstaller.Labels
            (deleteAllVMs c uninstaller.Namespace uninstaller.Labels s).cluster).cluster).err with
      | some err =>
        have hrun : Run (.ok c) uninstaller s
            = { err := (deleteAllSecrets c uninstaller.Namespace uninstaller.Labels
                  (deleteAllDVs c uninstaller.Namespace uninstaller.Labels
                    (deleteAllVMs c uninstaller.Namespace uninstaller.Labels
                      s).cluster).cluster).err,
                log := ⟨Call.NewClient, none⟩
                  :: ((deleteAllVMs c uninstaller.Namespace uninstaller.Labels s).log
                    ++ (deleteAllDVs c uninstaller.Namespace uninstaller.Labels
                      (deleteAllVMs c uninstaller.Namespace uninstaller.Labels s).cluster).log
                    ++ (deleteAllSecrets c uninstaller.Namespace uninstaller.Labels
                      (deleteAllDVs c uninstaller.Namespace uninstaller.Labels
                        (deleteAllVMs c uninstaller.Namespace uninstaller.Labels
                          s).cluster).cluster).log),
                cluster := (deleteAllSecrets c uninstaller.Namespace uninstaller.Labels
                  (deleteAllDVs c uninstaller.Namespace uninstaller.Labels
                    (deleteAllVMs c uninstaller.Namespace uninstaller.Labels
                      s).cluster).cluster).cluster } := by
          simp only [Run, he₁, he₂, he₃]
        rw [hrun]
        exact Follows_cons c s s _ _ _ _ _ hnew (Follows_append c s _ _ _ _ _ _ _ g₁₂ g₃)
      | none =>
        have hrun : Run (.ok c) uninstaller s
            = { err := (deleteAllSecrets c uninstaller.Namespace uninstaller.Labels
                  (deleteAllDVs c uninstaller.Namespace uninstaller.Labels
                    (deleteAllVMs c uninstaller.Namespace uninstaller.Labels
                      s).cluster).cluster).err,
                log := ⟨Call.NewClient, none⟩
                  :: ((deleteAllVMs c uninstaller.Namespace uninstaller.Labels s).log
                    ++ (deleteAllDVs c uninstaller.Namespace uninstaller.Labels
                      (deleteAllVMs c uninstaller.Namespace uninstaller.Labels s).cluster).log
                    ++ (deleteAllSecrets c uninstaller.Namespace uninstaller.Labels
                      (deleteAllDVs c uninstaller.Namespace uninstaller.Labels
                        (deleteAllVMs c uninstaller.Namespace uninstaller.Labels
                          s).cluster).cluster).log),
                cluster := (deleteAllSecrets c uninstaller.Namespace uninstaller.Labels
                  (deleteAllDVs c uninstaller.Namespace uninstaller.Labels
                    (deleteAllVMs c uninstaller.Namespace uninstaller.Labels
                      s).cluster).cluster).cluster } := by
          simp only [Run, he₁, he₂, he₃]
        rw [hrun]
        exact Follows_cons c s s _ _ _ _ _ hnew (Follows_append c s _ _ _ _ _ _ _ g₁₂ g₃)

/-- C24. `ClusterUninstaller.Run` makes the calls of the plan of the
specification and stops at the first one that fails.  The plan on a cluster
is: build the client; list the virtual machines and delete each listed one,
in order; then the same for the data volumes and then for the secrets, each
list taken on the cluster as the calls before it left it; every call with the
configured namespace, the list calls with the configured labels and the
delete calls with `true`.  The steps of the plan are the calls with the
errors that the client answers.

When the client cannot be built, `Run` returns that error having made no
other call.  With a client `c`:

* the log of `Run` is an initial part of the steps of the plan, so every step
  holds the answer of the client and nothing is called twice or out of order;
* every step before the last succeeded; when `Run` returns an error, the last
  step is a call that failed, and the error returned is the error that the
  client answered to it, unchanged;
* `Run` returns nil exactly when every call it made succeeded, and then the
  log is the whole plan; when the client answers nil to every call of the
  plan, `Run` returns nil;
* the cluster after `Run` is the one that its calls leave. -/
theorem Run_fixed_order {σ : Type} (newClient : Except String (Client σ))
    (uninstaller : ClusterUninstaller) (s : σ) :
    (∀ err, newClient = .error err →
        (Run newClient uninstaller s).err = some err
        ∧ (Run newClient uninstaller s).log = [⟨Call.NewClient, some err⟩]
        ∧ (Run newClient uninstaller s).cluster = s)
    ∧ (∀ c, newClient = .ok c →
        (Run newClient uninstaller s).log
          <+: replaySteps c s (fullPlan c uninstaller.Namespace uninstaller.Labels s)
        ∧ (Run newClient uninstaller s).StopsAtFirstFailure
        ∧ (∀ err, (Run newClient uninstaller s).err = some err →
            ∃ pre call, (Run newClient uninstaller s).log = pre ++ [⟨call, some err⟩]
              ∧ (∀ st ∈ pre, st.err = none)
              ∧ (answer c (replayState c s (pre.map Step.call)) call).1 = some err)
        ∧ ((Run newClient uninstaller s).err = none
            ↔ ∀ st ∈ (Run newClient uninstaller s).log, st.err = none)
        ∧ ((Run newClient uninstaller s).err = none →
            (Run newClient uninstaller s).log
              = replaySteps c s (fullPlan c uninstaller.Namespace uninstaller.Labels s))
        ∧ ((∀ st ∈ replaySteps c s (fullPlan c uninstaller.Namespace uninstaller.Labels s),
              st.err = none) →
            (Run newClient uninstaller s).err = none
            ∧ (Run newClient uninstaller s).log
              = replaySteps c s (fullPlan c uninstaller.Namespace uninstaller.Labels s))
        ∧ (Run newClient uninstaller s).cluster
            = replayState c s ((Run newClient uninstaller s).log.map Step.call)
        ∧ (Run newClient uninstaller s).log.map Step.call
            <+: fullPlan c uninstaller.Namespace uninstaller.Labels s
        ∧ ((Run newClient uninstaller s).err = none →
            (Run newClient uninstaller s).log.map Step.call
              = fullPlan c uninstaller.Namespace uninstaller.Labels s)) := by
  constructor
  · intro err hn
    subst hn
    exact ⟨rfl, rfl, rfl⟩
  · intro c hn
    subst hn
    obtain ⟨h₁, h₂, h₃, h₄⟩ := Run_Follows c uninstaller s
    have hstop : (Run (.ok c) uninstaller s).StopsAtFirstFailure := h₂
    have hlast : ∀ err, (Run (.ok c) uninstaller s).err = some err →
        ∃ pre call, (Run (.ok c) uninstaller s).log = pre ++ [⟨call, some err⟩]
          ∧ (∀ st ∈ pre, st.err = none)
          ∧ (answer c (replayState c s (pre.map Step.call)) call).1 = some err := by
      intro err he
      rcases hstop with ⟨hnone, _⟩ | ⟨pre, call, e, hsome, hlog, hpre⟩
      · rw [he] at hnone
        simp at hnone
      · rw [he] at hsome
        simp only [Option.some.injEq] at hsome
        subst hsome
        refine ⟨pre, call, hlog, hpre, ?_⟩
        have hp : pre ++ [⟨call, some err⟩]
            <+: replaySteps c s (fullPlan c uninstaller.Namespace uninstaller.Labels s) := by
          rw [← hlog]
          exact h₁
        exact (replaySteps_last c s _ pre ⟨call, some err⟩ hp).symm
    refine ⟨h₁, hstop, hlast, StopsAtFirstFailure_iff _ hstop, h₃, ?_, h₄, ?_, ?_⟩
    · intro hall
      have hnone : (Run (.ok c) uninstaller s).err = none := by
        cases he : (Run (.ok c) uninstaller s).err with
        | none => rfl
        | some err =>
          obtain ⟨pre, call, hlog, _, _⟩ := hlast err he
          have hmem : (⟨call, some err⟩ : Step)
              ∈ replaySteps c s (fullPlan c uninstaller.Namespace uninstaller.Labels s) :=
            h₁.subset (by rw [hlog]; simp)
          have := hall _ hmem
          simp at this
      exact ⟨hnone, h₃ hnone⟩
    · have := h₁.map Step.call
      rwa [map_call_replaySteps] at this
    · intro he
      rw [h₃ he, map_call_replaySteps]

/-- Witness of C24: on a cluster with two virtual machines, three data
volumes and one secret, the run deletes all of them in the fixed order and
returns nil; when the deletion of the data volume `disk-b` fails, the run
returns that error, the failed call is the last call, and no secret is
listed or deleted. -/
theorem Run_fixed_order_witness :
    ((Run (.ok sample.clusterClient) sample.uninstaller sample.cluster).err = none
      ∧ (Run (.ok sample.clusterClient) sample.uninstaller sample.cluster).log.map Step.call
        = [Call.NewClient,
            Call.ListVirtualMachineNames "tenant" sample.uninstaller.Labels,
            Call.DeleteVirtualMachine "tenant" "master-0" true,
            Call.DeleteVirtualMachine "tenant" "worker-0" true,
            Call.ListDataVolumeNames "tenant" sample.uninstaller.Labels,
            Call.DeleteDataVolume "tenant" "disk-a" true,
            Call.DeleteDataVolume "tenant" "disk-b" true,
            Call.ListSecretNames "tenant" sample.uninstaller.Labels,
            Call.DeleteSecret "tenant" "ignition" true])
    ∧ ((Run (.ok sample.failingClusterClient) sample.uninstaller sample.cluster).err
        = some "forbidden"
      ∧ (Run (.ok sample.failingClusterClient) sample.uninstaller sample.cluster).log
        = [⟨Call.NewClient, none⟩,
            ⟨Call.ListVirtualMachineNames "tenant" sample.uninstaller.Labels, none⟩,
            ⟨Call.DeleteVirtualMachine "tenant" "master-0" true, none⟩,
            ⟨Call.DeleteVirtualMachine "tenant" "worker-0" true, none⟩,
            ⟨Call.ListDataVolumeNames "tenant" sample.uninstaller.Labels, none⟩,
            ⟨Call.DeleteDataVolume "tenant" "disk-a" true, none⟩,
            ⟨Call.DeleteDataVolume "tenant" "disk-b" true, some "forbidden"⟩])
    ∧ (Run (.error "no kubeconfig" : Except String (Client sample.Cluster)) sample.uninstaller
        sample.cluster).log = [⟨Call.NewClient, some "no kubeconfig"⟩] :=
  have h := (Run_fixed_order (.ok sample.clusterClient) sample.uninstaller sample.cluster).2
    sample.clusterClient rfl
  have hall := h.2.2.2.2.2.1 (by decide)
  ⟨⟨hall.1, (h.2.2.2.2.2.2.2.2 hall.1).trans (by decide)⟩, ⟨by decide, by decide⟩,
    ((Run_fixed_order (.error "no kubeconfig") sample.uninstaller sample.cluster).1
      "no kubeconfig" rfl).2.1⟩

end destroy.kubevirt

/-! ## The template data of the bootstrap asset -/

namespace bootstrap

/-- `getTemplateData` returns template data whenever the control-plane replica
count is set and not negative. -/
theorem getTemplateData_returns (a : Bootstrap) (env : ignition.Env)
    (installConfig : types.InstallConfig) (releaseImage : String)
    (imageSources : List types.ImageContentSource) (proxy rhcosImage user password : String)
    (controlPlane : types.MachinePool) (replicas : Int)
    (hcp : installConfig.ControlPlane = some controlPlane)
    (hr : controlPlane.Replicas = some replicas) (hn : 0 ≤ replicas) :
    ∃ td, getTemplateData a env installConfig releaseImage imageSources proxy rhcosImage user
        password = .ok td
      ∧ td.ClusterProfile = env.Getenv "OPENSHIFT_INSTALL_EXPERIMENTAL_CLUSTER_PROFILE"
      ∧ td.EtcdCluster = ",".intercalate ((List.range replicas.toNat).map fun i =>
          etcdEndpoint i (env.ClusterDomain installConfig)) := by
  have hneg : ¬ replicas < 0 := by omega
  refine ⟨_, by simp only [getTemplateData, hcp, hr, hneg, if_false]; rfl, ?_, rfl⟩
  show (if env.Getenv "OPENSHIFT_INSTALL_EXPERIMENTAL_CLUSTER_PROFILE" ≠ ""
      then env.Getenv "OPENSHIFT_INSTALL_EXPERIMENTAL_CLUSTER_PROFILE" else "") = _
  split
  · rfl
  · rename_i h
    simp only [ne_eq, not_not] at h
    exact h.symm

/-- Whenever `getTemplateData` returns template data, the control-plane replica
count is set and not negative. -/
theorem getTemplateData_ok (a : Bootstrap) (env : ignition.Env)
    (installConfig : types.InstallConfig) (releaseImage : String)
    (imageSources : List types.ImageContentSource) (proxy rhcosImage user password : String)
    (td : bootstrapTemplateData)
    (h : getTemplateData a env installConfig releaseImage imageSources proxy rhcosImage user
      password = .ok td) :
    ∃ controlPlane replicas, installConfig.ControlPlane = some controlPlane
      ∧ controlPlane.Replicas = some replicas ∧ 0 ≤ replicas := by
  unfold getTemplateData at h
  split at h
  · simp at h
  · rename_i controlPlane hcp
    split at h
    · simp at h
    · rename_i replicas hr
      split at h
      · simp at h
      · rename_i hn
        exact ⟨controlPlane, replicas, hcp, hr, by omega⟩

/-- C25. Whenever `Bootstrap.getTemplateData` returns template data, their
`ClusterProfile` is the value of the environment variable
`OPENSHIFT_INSTALL_EXPERIMENTAL_CLUSTER_PROFILE` when that value is not empty
and the empty string otherwise.  No other input influences it: two calls, on
any assets, environments, install configs and other arguments, that read the
same value of the variable return the same `ClusterProfile`. -/
theorem getTemplateData_ClusterProfile (a : Bootstrap) (env : ignition.Env)
    (installConfig : types.InstallConfig) (releaseImage : String)
    (imageSources : List types.ImageContentSource) (proxy rhcosImage user password : String)
    (td : bootstrapTemplateData)
    (h : getTemplateData a env installConfig releaseImage imageSources proxy rhcosImage user
      password = .ok td) :
    (env.Getenv "OPENSHIFT_INSTALL_EXPERIMENTAL_CLUSTER_PROFILE" ≠ "" →
      td.ClusterProfile = env.Getenv "OPENSHIFT_INSTALL_EXPERIMENTAL_CLUSTER_PROFILE")
    ∧ (env.Getenv "OPENSHIFT_INSTALL_EXPERIMENTAL_CLUSTER_PROFILE" = "" →
      td.ClusterProfile = "")
    ∧ ∀ (a₂ : Bootstrap) (env₂ : ignition.Env) (installConfig₂ : types.InstallConfig)
        (releaseImage₂ : String) (imageSources₂ : List types.ImageContentSource)
        (proxy₂ rhcosImage₂ user₂ password₂ : String) (td₂ : bootstrapTemplateData),
        getTemplateData a₂ env₂ installConfig₂ releaseImage₂ imageSources₂ proxy₂ rhcosImage₂
          user₂ password₂ = .ok td₂ →
        env₂.Getenv "OPENSHIFT_INSTALL_EXPERIMENTAL_CLUSTER_PROFILE"
          = env.Getenv "OPENSHIFT_INSTALL_EXPERIMENTAL_CLUSTER_PROFILE" →
        td₂.ClusterProfile = td.ClusterProfile := by
  have key : ∀ (a : Bootstrap) (env : ignition.Env) (installConfig : types.InstallConfig)
      (releaseImage : String) (imageSources : List types.ImageContentSource)
      (proxy rhcosImage user password : String) (td : bootstrapTemplateData),
      getTemplateData a env installConfig releaseImage imageSources proxy rhcosImage user
        password = .ok td →
      td.ClusterProfile = env.Getenv "OPENSHIFT_INSTALL_EXPERIMENTAL_CLUSTER_PROFILE" := by
    intro a env installConfig releaseImage imageSources proxy rhcosImage user password td h
    obtain ⟨controlPlane, replicas, hcp, hr, hn⟩ := getTemplateData_ok _ _ _ _ _ _ _ _ _ _ h
    obtain ⟨td₁, h₁, hp, _⟩ := getTemplateData_returns a env installConfig releaseImage
      imageSources proxy rhcosImage user password controlPlane replicas hcp hr hn
    rw [h] at h₁
    simp only [Except.ok.injEq] at h₁
    rw [h₁]
    exact hp
  have hp := key _ _ _ _ _ _ _ _ _ _ h
  refine ⟨fun _ => hp, fun he => by rw [hp, he], ?_⟩
  intro a₂ env₂ installConfig₂ releaseImage₂ imageSources₂ proxy₂ rhcosImage₂ user₂ password₂
    td₂ h₂ henv
  rw [key _ _ _ _ _ _ _ _ _ _ h₂, hp, henv]

/-- Witness of C25: with the variable set to `single-node` the cluster profile
is `single-node`, and with the variable unset it is empty. -/
theorem getTemplateData_ClusterProfile_witness :
    (∃ td, getTemplateData sample.freshBootstrap sample.profileEnv sample.singleNodeConfig
        "quay.io/release:latest" [] "" "rhcos" "" "" = .ok td
      ∧ td.ClusterProfile = "single-node")
    ∧ ∃ td, getTemplateData sample.freshBootstrap sample.env sample.singleNodeConfig
        "quay.io/release:latest" [] "" "rhcos" "" "" = .ok td
      ∧ td.ClusterProfile = "" :=
  ⟨⟨_, rfl, (getTemplateData_ClusterProfile sample.freshBootstrap sample.profileEnv
      sample.singleNodeConfig "quay.io/release:latest" [] "" "rhcos" "" "" _ rfl).1
      (by decide)⟩,
    ⟨_, rfl, (getTemplateData_ClusterProfile sample.freshBootstrap sample.env
      sample.singleNodeConfig "quay.io/release:latest" [] "" "rhcos" "" "" _ rfl).2.1 rfl⟩⟩

theorem intercalate_go_concat (s x acc : String) (l : List String) :
    String.intercalate.go acc s (l ++ [x]) = String.intercalate.go acc s l ++ s ++ x := by
  induction l generalizing acc with
  | nil => simp [String.intercalate.go]
  | cons a rest ih => simp [String.intercalate.go, ih]

theorem intercalate_concat (s x : String) (l : List String) (hl : l ≠ []) :
    s.intercalate (l ++ [x]) = s.intercalate l ++ s ++ x := by
  cases l with
  | nil => exact absurd rfl hl
  | cons a rest => simp [String.intercalate, intercalate_go_concat]

/-- The joined endpoint list of the code is the string of the specification. -/
theorem intercalate_etcdEndpoints (n : Nat) (d : String) :
    ",".intercalate ((List.range n).map fun i => etcdEndpoint i d) = etcdClusterSpec n d := by
  cases n with
  | zero => rfl
  | succ m =>
    induction m with
    | zero => rfl
    | succ k ih =>
      rw [List.range_succ, List.map_append, List.map_singleton,
        intercalate_concat _ _ _ (by simp [List.range_succ]), ih]
      rfl

/-- C26. For every control-plane replica count `n ≥ 0` and cluster domain `d`,
`Bootstrap.getTemplateData` returns template data whose `EtcdCluster` is the
string of the specification: the endpoints `https://etcd-i.d:2379` for
`i = 0 .. n-1`, in increasing order, joined by commas; it is the join of a
list of exactly `n` endpoints, it is empty for `n = 0`, and for `n > 0` it
ends with the last endpoint, so there is no trailing comma.  For `n = 1` it
is the `EtcdCluster` that `AIO.getTemplateData` returns for an install
config with the same cluster domain. -/
theorem getTemplateData_EtcdCluster (a : Bootstrap) (env : ignition.Env)
    (installConfig : types.InstallConfig) (releaseImage : String)
    (imageSources : List types.ImageContentSource) (proxy rhcosImage user password : String)
    (controlPlane : types.MachinePool) (n : Nat)
    (hcp : installConfig.ControlPlane = some controlPlane)
    (hr : controlPlane.Replicas = some (n : Int)) :
    ∃ td, getTemplateData a env installConfig releaseImage imageSources proxy rhcosImage user
        password = .ok td
      ∧ td.EtcdCluster = etcdClusterSpec n (env.ClusterDomain installConfig)
      ∧ (∃ endpoints : List String, endpoints.length = n
          ∧ (∀ i (hi : i < endpoints.length),
              endpoints.get ⟨i, hi⟩ = "https://etcd-" ++ toString i ++ "."
                ++ env.ClusterDomain installConfig ++ ":2379")
          ∧ td.EtcdCluster = ",".intercalate endpoints)
      ∧ (n = 0 → td.EtcdCluster = "")
      ∧ (∀ m, n = m + 1 → ∃ pre, td.EtcdCluster
          = pre ++ etcdEndpoint m (env.ClusterDomain installConfig)
          ∧ (m = 0 → pre = "")
          ∧ (0 < m → pre = etcdClusterSpec m (env.ClusterDomain installConfig) ++ ","))
      ∧ (n = 1 → ∀ (installConfig₂ : types.InstallConfig) (releaseImage₂ : String)
          (tdA : aio.aioTemplateData),
          aio.getTemplateData env installConfig₂ releaseImage₂ = .ok tdA →
          env.ClusterDomain installConfig₂ = env.ClusterDomain installConfig →
          tdA.EtcdCluster = td.EtcdCluster) := by
  obtain ⟨td, htd, _, he⟩ := getTemplateData_returns a env installConfig releaseImage
    imageSources proxy rhcosImage user password controlPlane (n : Int) hcp hr (by omega)
  have hn : (n : Int).toNat = n := by simp
  rw [hn] at he
  have hspec : td.EtcdCluster = etcdClusterSpec n (env.ClusterDomain installConfig) := by
    rw [he, intercalate_etcdEndpoints]
  refine ⟨td, htd, hspec, ?_, ?_, ?_, ?_⟩
  · refine ⟨(List.range n).map fun i => etcdEndpoint i (env.ClusterDomain installConfig),
      by simp, ?_, he⟩
    intro i hi
    simp [etcdEndpoint]
  · intro h0
    rw [hspec, h0]
    rfl
  · intro m hm
    rw [hspec, hm]
    cases m with
    | zero => exact ⟨"", by simp [etcdClusterSpec], fun _ => rfl, fun h => absurd h (by omega)⟩
    | succ k =>
      exact ⟨etcdClusterSpec (k + 1) (env.ClusterDomain installConfig) ++ ",", rfl,
        fun h => absurd h (by omega), fun _ => rfl⟩
  · intro h1 installConfig₂ releaseImage₂ tdA hA hd
    rw [hspec, h1]
    unfold aio.getTemplateData at hA
    split at hA
    · simp at hA
    · split at hA
      · simp at hA
      · split at hA
        · simp at hA
        · split at hA
          · simp at hA
          · split at hA
            · simp at hA
            · split at hA
              · simp at hA
              · split at hA
                · simp at hA
                · simp only [Except.ok.injEq] at hA
                  rw [← hA, hd]
                  rfl

/-- Witness of C26: three replicas of the domain `test.example.com`. -/
theorem getTemplateData_EtcdCluster_witness :
    ∃ td, getTemplateData sample.freshBootstrap sample.env sample.threeReplicaConfig
        "quay.io/release:latest" [] "" "rhcos" "" "" = .ok td
      ∧ td.EtcdCluster = "https://etcd-0.test.example.com:2379,"
          ++ "https://etcd-1.test.example.com:2379,https://etcd-2.test.example.com:2379" :=
  have h := getTemplateData_EtcdCluster sample.freshBootstrap sample.env
    sample.threeReplicaConfig "quay.io/release:latest" [] "" "rhcos" "" ""
    { Replicas := some 3 } 3 rfl rfl
  h.elim fun td htd => ⟨td, htd.1, htd.2.1.trans (by decide)⟩

end bootstrap

/-! ## The cluster DNS address of the all-in-one asset -/

namespace net

theorem CIDRMask_Size : ∀ n, n ≤ 32 → IPMask.Size (CIDRMask n 32) = (n, 32) := by
  decide

theorem CIDRMask_length : ∀ n, n ≤ 32 → (CIDRMask n 32).length = 4 := by
  decide

theorem CIDRMask_last : ∀ n, n ≤ 28 → (CIDRMask n 32).getD 3 0 ∈ [0, 128, 192, 224, 240] := by
  decide

set_option maxRecDepth 100000 in
theorem land_mask_byte : ∀ m ∈ [0, 128, 192, 224, 240], ∀ d, d < 256 →
    (d &&& m) % 16 = 0 ∧ ((d &&& m) + 10) &&& m = (d &&& m) &&& m := by
  decide

theorem list_length_four (l : List Nat) (h : l.length = 4) :
    ∃ m₀ m₁ m₂ m₃, l = [m₀, m₁, m₂, m₃] := by
  match l, h with
  | [m₀, m₁, m₂, m₃], _ => exact ⟨m₀, m₁, m₂, m₃, rfl⟩

theorem IP_Mask_IPv4 (a b c d m₀ m₁ m₂ m₃ : Nat) :
    IP.Mask (IPv4 a b c d) [m₀, m₁, m₂, m₃] = [a &&& m₀, b &&& m₁, c &&& m₂, d &&& m₃] := by
  simp [IP.Mask, IPv4, v4InV6Lead, IPv4len, IPv6len]

end net

namespace cidr

/-- Inserting the host number 10 in a four-byte address whose last byte has its
four low bits clear adds 10 to the last byte. -/
theorem insertNumIntoIP_ten (w x y z : Nat) (hw : w < 256) (hx : x < 256) (hy : y < 256)
    (hz : z < 256) (hz₂ : z % 16 = 0) :
    insertNumIntoIP [w, x, y, z] 10 32 = [w, x, y, z + 10]
    ∧ (ipToInt [w, x, y, z + 10]).1 = (ipToInt [w, x, y, z]).1 + 10 := by
  have hor : (((0 * 256 + w) * 256 + x) * 256 + y) * 256 + z ||| 10
      = (((0 * 256 + w) * 256 + x) * 256 + y) * 256 + z + 10 := by
    have hq : (((0 * 256 + w) * 256 + x) * 256 + y) * 256 + z
        = 2 ^ 4 * ((((0 * 256 + w) * 256 + x) * 256 + y) * 16 + z / 16) := by
      omega
    rw [hq]
    exact (Nat.mul_add_lt_is_or (by norm_num) _).symm
  constructor
  · simp only [insertNumIntoIP, ipToInt, List.foldl, List.length, net.IPv4len]
    simp only [Nat.reduceAdd, if_true, Nat.sub_self, Nat.shiftLeft_zero, hor]
    simp only [intToIP, Nat.reduceDiv, List.range_succ, List.range_zero, List.nil_append,
      List.cons_append, List.map_cons, List.map_nil, Nat.reduceSub, Nat.reducePow,
      Nat.sub_zero, List.cons.injEq, and_true]
    refine ⟨?_, ?_, ?_, ?_⟩ <;> omega
  · simp only [ipToInt, List.foldl]
    omega

end cidr

namespace aio

/-- C27. Let `cidr.Host` and `IP.String` be the functions of the libraries.
When `net.ParseCIDR` fails on the text, `clusterDNSIP` returns that error.
When the text is a well-formed IPv4 CIDR `a.b.c.d/n`, so that `net.ParseCIDR`
returns the network with the mask of `n` ones and the address `a.b.c.d` with
its host bits cleared, then:

* for `n ≤ 28`, `clusterDNSIP` returns the text of the address of the network
  plus 10, which differs from the address of the network in its last byte
  only and lies in the network;
* for `29 ≤ n ≤ 32`, `clusterDNSIP` returns the error of `cidr.Host`: the
  network cannot hold the host number 10. -/
theorem clusterDNSIP_base_plus_ten (env : ignition.Env) (iprange : String)
    (hHost : ∀ network, env.Host network 10 = cidr.Host network 10)
    (hString : ∀ ip, env.IPString ip = net.IP.String ip) :
    (∀ err, env.ParseCIDR iprange = .error err → clusterDNSIP env iprange = .error err)
    ∧ ∀ a b c d n, a < 256 → b < 256 → c < 256 → d < 256 → n ≤ 32 →
        env.ParseCIDR iprange
          = .ok { IP := net.IP.Mask (net.IPv4 a b c d) (net.CIDRMask n 32),
                  Mask := net.CIDRMask n 32 } →
        (n ≤ 28 → ∃ w x y z,
          net.IP.Mask (net.IPv4 a b c d) (net.CIDRMask n 32) = [w, x, y, z]
          ∧ z + 10 < 256
          ∧ clusterDNSIP env iprange = .ok (net.IP.String [w, x, y, z + 10])
          ∧ clusterDNSIP env iprange = .ok (toString w ++ "." ++ toString x ++ "."
              ++ toString y ++ "." ++ toString (z + 10))
          ∧ (cidr.ipToInt [w, x, y, z + 10]).1
              = (cidr.ipToInt (net.IP.Mask (net.IPv4 a b c d) (net.CIDRMask n 32))).1 + 10
          ∧ net.IPNet.Contains
              { IP := net.IP.Mask (net.IPv4 a b c d) (net.CIDRMask n 32),
                Mask := net.CIDRMask n 32 } [w, x, y, z + 10] = true)
        ∧ (29 ≤ n → clusterDNSIP env iprange
            = .error ("prefix of " ++ toString n
                ++ " does not accommodate a host numbered 10")) := by
  constructor
  · intro err h
    simp only [clusterDNSIP, h]
  · intro a b c d n ha hb hc hd hn hparse
    obtain ⟨m₀, m₁, m₂, m₃, hm⟩ := net.list_length_four _ (net.CIDRMask_length n hn)
    have hsize := net.CIDRMask_Size n hn
    rw [hm] at hsize
    have hmask := net.IP_Mask_IPv4 a b c d m₀ m₁ m₂ m₃
    constructor
    · intro h28
      have hlast := net.CIDRMask_last n h28
      rw [hm] at hlast
      have hm₃ : m₃ ∈ [0, 128, 192, 224, 240] := by simpa using hlast
      obtain ⟨hz₂, hland⟩ := net.land_mask_byte m₃ hm₃ d hd
      have hwlt : a &&& m₀ < 256 := lt_of_le_of_lt Nat.and_le_left ha
      have hxlt : b &&& m₁ < 256 := lt_of_le_of_lt Nat.and_le_left hb
      have hylt : c &&& m₂ < 256 := lt_of_le_of_lt Nat.and_le_left hc
      have hzlt : d &&& m₃ < 256 := lt_of_le_of_lt Nat.and_le_left hd
      obtain ⟨hins, hint⟩ := cidr.insertNumIntoIP_ten _ _ _ _ hwlt hxlt hylt hzlt hz₂
      have hpow : 2 ^ 4 ≤ 2 ^ (32 - n) := Nat.pow_le_pow_right (by norm_num) (by omega)
      have hhost : cidr.Host
            { IP := [a &&& m₀, b &&& m₁, c &&& m₂, d &&& m₃], Mask := [m₀, m₁, m₂, m₃] } 10
          = .ok [a &&& m₀, b &&& m₁, c &&& m₂, (d &&& m₃) + 10] := by
        have hnot : ¬ 10 > 2 ^ (32 - n) - 1 := by
          norm_num at hpow
          omega
        simp only [cidr.Host, hsize, hnot, if_false]
        have h4 : (net.IP.To4 [a &&& m₀, b &&& m₁, c &&& m₂, d &&& m₃]).isSome = true := by
          simp [net.IP.To4, net.IPv4len]
        simp only [h4, if_true, hins]
      have hres : clusterDNSIP env iprange
          = .ok (net.IP.String [a &&& m₀, b &&& m₁, c &&& m₂, (d &&& m₃) + 10]) := by
        simp only [clusterDNSIP, hparse, hHost, hString, hm, hmask, hhost]
      rw [hm, hmask]
      refine ⟨a &&& m₀, b &&& m₁, c &&& m₂, d &&& m₃, rfl, by omega, hres, ?_, hint, ?_⟩
      · rw [hres]
        simp [net.IP.String, net.IP.To4, net.IPv4len]
      · have hbeq : ((d &&& m₃) &&& m₃ == ((d &&& m₃) + 10) &&& m₃) = true := by
          rw [hland]
          simp
        simp [net.IPNet.Contains, net.networkNumberAndMask, net.IP.To4, net.IPv4len,
          net.IPv6len, List.range_succ, hbeq]
    · intro h29
      have hgt : 10 > 2 ^ (32 - n) - 1 := by
        have h3 : 32 - n ≤ 3 := by omega
        have hpow : 2 ^ (32 - n) ≤ 2 ^ 3 := Nat.pow_le_pow_right (by norm_num) h3
        norm_num at hpow
        omega
      have hhost : cidr.Host
            { IP := [a &&& m₀, b &&& m₁, c &&& m₂, d &&& m₃], Mask := [m₀, m₁, m₂, m₃] } 10
          = .error ("prefix of " ++ toString n
              ++ " does not accommodate a host numbered 10") := by
        have h10 : (" does not accommodate a host numbered " ++ toString 10 : String)
            = " does not accommodate a host numbered 10" := by decide
        simp only [cidr.Host, hsize, hgt, if_true]
        rw [String.append_assoc, h10]
      simp only [clusterDNSIP, hparse, hHost, hm, hmask, hhost]

/-- Witness of C27: the service network `172.30.0.0/16` gives `172.30.0.10`; a
prefix of 29 bits and a text that is not a CIDR give errors. -/
theorem clusterDNSIP_base_plus_ten_witness :
    clusterDNSIP sample.netEnv "172.30.0.0/16" = .ok "172.30.0.10"
    ∧ clusterDNSIP sample.netEnv "10.1.2.250/29"
        = .error "prefix of 29 does not accommodate a host numbered 10"
    ∧ clusterDNSIP sample.netEnv "172.30.0.0"
        = .error "invalid CIDR address: 172.30.0.0" :=
  by
    have h := clusterDNSIP_base_plus_ten sample.netEnv "172.30.0.0/16" (fun _ => rfl)
      (fun _ => rfl)
    have h₂ := clusterDNSIP_base_plus_ten sample.netEnv "10.1.2.250/29" (fun _ => rfl)
      (fun _ => rfl)
    have h₃ := clusterDNSIP_base_plus_ten sample.netEnv "172.30.0.0" (fun _ => rfl)
      (fun _ => rfl)
    refine ⟨?_, ?_, h₃.1 "invalid CIDR address: 172.30.0.0" rfl⟩
    · obtain ⟨w, x, y, z, hmask, _, _, hres, _⟩ :=
        (h.2 172 30 0 0 16 (by decide) (by decide) (by decide) (by decide) (by decide) rfl).1
          (by decide)
      have e : net.IP.Mask (net.IPv4 172 30 0 0) (net.CIDRMask 16 32) = [172, 30, 0, 0] := by
        decide
      rw [e] at hmask
      simp only [List.cons.injEq, and_true] at hmask
      obtain ⟨rfl, rfl, rfl, rfl⟩ := hmask
      exact hres
    · exact (h₂.2 10 1 2 250 29 (by decide) (by decide) (by decide) (by decide) (by decide)
        rfl).2 (by decide)

end aio

/-! ## The machine config of the infra service account -/

namespace machineconfig

/-- The script is a text of ASCII characters. -/
theorem updateSecretScriptContent_ascii :
    (∀ ch ∈ updateSecretScriptContent.toList, ch.toNat < 128)
    ∧ String.mk ((strings.bytes updateSecretScriptContent).map Char.ofNat)
        = updateSecretScriptContent := by
  decide!

/-- The payload written with the alphabet for URLs is the payload written with
the standard alphabet. -/
theorem payload_URL_eq_Std :
    base64.URLEncoding.EncodeToString (strings.bytes updateSecretScriptContent)
      = base64.StdEncoding.EncodeToString (strings.bytes updateSecretScriptContent) := by
  decide!

/-- The payload holds neither of the two characters in which the alphabets
differ, and every character of it is in the standard alphabet or is the
padding. -/
theorem payload_chars :
    '-' ∉ (base64.URLEncoding.EncodeToString
        (strings.bytes updateSecretScriptContent)).toList
    ∧ '_' ∉ (base64.URLEncoding.EncodeToString
        (strings.bytes updateSecretScriptContent)).toList
    ∧ ∀ ch ∈ (base64.URLEncoding.EncodeToString
        (strings.bytes updateSecretScriptContent)).toList,
        ch ∈ base64.encodeStd.toList ∨ ch = '=' := by
  decide!

/-- The payload decodes with the standard alphabet to the bytes of the
script. -/
theorem payload_decodes :
    base64.StdEncoding.DecodeString
        (base64.URLEncoding.EncodeToString (strings.bytes updateSecretScriptContent))
      = some (strings.bytes updateSecretScriptContent) := by
  decide!

/-- The payload of a data URL made of the lead and a text is the text. -/
theorem payload_append (text : String) :
    payload ("data:text/plain;charset=utf-8;base64," ++ text) = some text := by
  have h37 : "data:text/plain;charset=utf-8;base64,".toList.length = 37 := by decide
  have ht : ("data:text/plain;charset=utf-8;base64," ++ text).toList
      = "data:text/plain;charset=utf-8;base64,".toList ++ text.toList :=
    String.data_append _ _
  unfold payload
  rw [ht, List.take_left' h37, List.drop_left' h37, if_pos rfl]
  cases text
  rfl

/-- C28. `ForInfraServiceAccount` returns the error of the conversion, or the
machine config whose `Config` is the raw extension of `ignConfig`.  The only
storage file of `ignConfig` is the credentials script, and its `Source` is
`data:text/plain;charset=utf-8;base64,` followed by a payload, the script
encoded with the alphabet for URLs.  The payload holds no `-` and no `_`,
every character of it is in the standard alphabet or is the padding, it is
the text that the standard encoding gives for the script, and it decodes with
the standard alphabet to the bytes of `updateSecretScriptContent`, a text of
ASCII characters. -/
theorem ForInfraServiceAccount_script_source (scheme : Scheme) (role : String) :
    ((∀ err, scheme.ConvertToRawExtension ignConfig = .error err →
        ForInfraServiceAccount scheme role = .error err)
      ∧ ∀ rawExt, scheme.ConvertToRawExtension ignConfig = .ok rawExt →
        ∃ mc, ForInfraServiceAccount scheme role = .ok mc ∧ mc.Config = rawExt
          ∧ mc.Name = "99-" ++ role ++ "-infra-service-account")
    ∧ (∃ file text, ignConfig.Storage.Files = [file]
        ∧ file.Path = "/root/creds_secret.sh"
        ∧ file.Source = some ("data:text/plain;charset=utf-8;base64," ++ text)
        ∧ payload ("data:text/plain;charset=utf-8;base64," ++ text) = some text
        ∧ text = base64.URLEncoding.EncodeToString (strings.bytes updateSecretScriptContent)
        ∧ '-' ∉ text.toList ∧ '_' ∉ text.toList
        ∧ (∀ ch ∈ text.toList, ch ∈ base64.encodeStd.toList ∨ ch = '=')
        ∧ text = base64.StdEncoding.EncodeToString (strings.bytes updateSecretScriptContent)
        ∧ base64.StdEncoding.DecodeString text
            = some (strings.bytes updateSecretScriptContent)
        ∧ (base64.StdEncoding.DecodeString text).map (fun l => String.mk (l.map Char.ofNat))
            = some updateSecretScriptContent) := by
  refine ⟨⟨?_, ?_⟩, ?_⟩
  · intro err h
    simp only [ForInfraServiceAccount, h]
  · intro rawExt h
    refine ⟨{ APIVersion := scheme.SchemeGroupVersion, Kind := "MachineConfig",
              Name := "99-" ++ role ++ "-infra-service-account",
              Labels := [("machineconfiguration.openshift.io/role", role)],
              Config := rawExt }, ?_, rfl, rfl⟩
    simp only [ForInfraServiceAccount, h]
  · refine ⟨_, base64.URLEncoding.EncodeToString (strings.bytes updateSecretScriptContent),
      rfl, rfl, rfl, ?_, rfl, payload_chars.1, payload_chars.2.1, payload_chars.2.2,
      payload_URL_eq_Std, payload_decodes, ?_⟩
    · exact payload_append _
    · rw [payload_decodes]
      simp only [Option.map_some', updateSecretScriptContent_ascii.2]

/-- Witness of C28: the machine config of the role `master`. -/
theorem ForInfraServiceAccount_script_source_witness :
    ∃ mc, ForInfraServiceAccount sample.scheme "master" = .ok mc
      ∧ mc.Name = "99-master-infra-service-account" :=
  ((ForInfraServiceAccount_script_source sample.scheme "master").1.2 _ rfl).elim
    fun mc hmc => ⟨mc, hmc.1, hmc.2.2.trans (by decide)⟩

end machineconfig
